import Mathlib

/-!
# brokerapp: session-token lifecycle and breaker-guarded data access

A shallow embedding of `internal/user` (model, repository interface, MySQL
repository, service), of `pkg/circuitbreaker` with `internal/db`, and of the
request-authentication middleware (`pkg/authmiddleware`, `pkg/middleware`),
followed by theorems about refresh-token rotation, login/sign-up failure paths,
the breaker state machine, and the passage of issued tokens through the
middleware.

Conventions of the embedding:

* `time.Time` is an `Int`: nanoseconds since the Unix epoch (wall clock; the
  values compared in the service come from storage and carry no monotonic
  reading). `time.Duration` is an `Int` of nanoseconds.
* Every `time.Now()` in the source is an explicit reading supplied by the
  caller of the embedded function, one field per call site, so that a theorem
  quantifies over every reading of the clock.
* A Go result `(*T, error)` is a pair `Option T × Option Err`; `error` alone is
  `Option Err`. A nil-pointer dereference is the outcome `panicked`.
* Calls through the `Repository` interface are recorded in order in
  `Run.calls`, so that "is not called" is a statement about that list.
* The MySQL repository runs on a `Database`: the tables, and what the database
  does with each statement to come (it runs, or `Exec`/`Scan` returns an
  error), so that a theorem quantifies over storage failures as well.
-/

namespace user

/-! ## internal/user/model.go -/

/-- Nanoseconds since the Unix epoch. -/
abbrev Time := Int

/-- Nanoseconds. -/
abbrev Duration := Int

def Second : Duration := 1000000000
def Minute : Duration := 60 * Second
def Hour : Duration := 60 * Minute

/-- The method `Time.Unix`: whole seconds since the epoch (rounded down). -/
def Unix (t : Time) : Int := t / 1000000000

/-- The method `Time.After`. -/
def After (t u : Time) : Bool := decide (u < t)

/-- The error values of the package: the five sentinels of model.go and
every other error value (storage, hashing), told apart by its text. -/
inductive Err where
  | ErrUserNotFound
  | ErrRefreshTokenNotFound
  | ErrInvalidCredentials
  | ErrTokenExpired
  | ErrEmailAlreadyExists
  | other (msg : String)
  deriving DecidableEq, Repr

structure User where
  ID : Int
  Email : String
  Password : String
  CreatedAt : Time
  deriving DecidableEq, Repr

structure RefreshToken where
  UserID : Int
  Token : String
  ExpiresAt : Time
  deriving DecidableEq, Repr

structure SignUpRequest where
  Email : String
  Password : String
  deriving DecidableEq, Repr

structure LoginRequest where
  Email : String
  Password : String
  deriving DecidableEq, Repr

structure TokenResponse where
  AccessToken : String
  RefreshToken : String
  deriving DecidableEq, Repr

/-! ## internal/user/repository.go -/

/-- The interface `Repository`, over a store state `σ`: every method takes the
state and returns its Go result with the state it leaves. -/
structure Repository (σ : Type) where
  CreateUser : User → σ → Option Err × σ
  GetUserByEmail : String → σ → (Option User × Option Err) × σ
  GetUserByID : Int → σ → (Option User × Option Err) × σ
  StoreRefreshToken : Int → String → Time → σ → Option Err × σ
  GetRefreshToken : String → σ → (Option RefreshToken × Option Err) × σ
  DeleteRefreshToken : String → σ → Option Err × σ

/-- One call through the `Repository` interface, with its arguments. -/
inductive Call where
  | CreateUser (u : User)
  | GetUserByEmail (email : String)
  | GetUserByID (id : Int)
  | StoreRefreshToken (userID : Int) (token : String) (expiresAt : Time)
  | GetRefreshToken (token : String)
  | DeleteRefreshToken (token : String)
  deriving DecidableEq, Repr

/-! ## internal/user/service.go -/

/-- What a service method hands back: `(resp, nil)`, `(nil, err)`, or a
nil-pointer dereference. -/
inductive Outcome where
  | ok (resp : TokenResponse)
  | error (e : Err)
  | panicked
  deriving DecidableEq, Repr

/-- A finished service call: its outcome, the store it leaves and the
repository calls it made, in order. -/
structure Run (σ : Type) where
  out : Outcome
  st : σ
  calls : List Call

/-- The library functions the service calls, taken as given:
`bcrypt.GenerateFromPassword` at the default cost (the second argument is the
random salt it draws), `bcrypt.CompareHashAndPassword` (true when it returns
nil), `time.ParseDuration` (none when it returns an error) and the HS256
`SignedString` of the claims `user_id`, `exp` under a secret. With a byte-slice
key HS256 signing returns no error, so `SignedString` is total. -/
structure Lib where
  GenerateFromPassword : String → Nat → Except Err String
  CompareHashAndPassword : String → String → Bool
  ParseDuration : String → Option Duration
  SignedString : String → Int → Int → String

/-- What one service call reads from its surroundings: the process
environment, the salt drawn by bcrypt, and the reading of each `time.Now()`
it evaluates (`nowCreated` service.go:44, `nowCheck` :96, `nowAccess` :122,
`nowRefresh` :137, `nowStore` :145). -/
structure Ambient where
  Getenv : String → String
  salt : Nat
  nowCreated : Time
  nowCheck : Time
  nowAccess : Time
  nowRefresh : Time
  nowStore : Time

structure Service (σ : Type) where
  repo : Repository σ
  jwtSecret : String

/-- Lines 115-118: the access-token lifetime. -/
def accessTokenDuration (lib : Lib) (amb : Ambient) : Duration :=
  match lib.ParseDuration (amb.Getenv "ACCESS_TOKEN_DURATION") with
  | some d => d
  | none => 5 * Minute

/-- Lines 130-133: the refresh-token lifetime. -/
def refreshTokenDuration (lib : Lib) (amb : Ambient) : Duration :=
  match lib.ParseDuration (amb.Getenv "REFRESH_TOKEN_DURATION") with
  | some d => d
  | none => 24 * Hour

/-- The method `Service.generateTokens` (service.go:114-153). -/
def Service.generateTokens {σ : Type} (s : Service σ) (lib : Lib) (amb : Ambient)
    (userID : Int) (st : σ) : Run σ :=
  let accessTokenString :=
    lib.SignedString s.jwtSecret userID (Unix (amb.nowAccess + accessTokenDuration lib amb))
  let refreshTokenString :=
    lib.SignedString s.jwtSecret userID (Unix (amb.nowRefresh + refreshTokenDuration lib amb))
  let expiresAt := amb.nowStore + refreshTokenDuration lib amb
  match s.repo.StoreRefreshToken userID refreshTokenString expiresAt st with
  | (some err, st1) =>
      { out := .error err, st := st1
        calls := [.StoreRefreshToken userID refreshTokenString expiresAt] }
  | (none, st1) =>
      { out := .ok { AccessToken := accessTokenString, RefreshToken := refreshTokenString }
        st := st1
        calls := [.StoreRefreshToken userID refreshTokenString expiresAt] }

/-- Prefix a finished call with the repository calls made before it. -/
def Run.after {σ : Type} (cs : List Call) (r : Run σ) : Run σ :=
  { r with calls := cs ++ r.calls }

/-- The method `Service.SignUp` (service.go:25-59). -/
def Service.SignUp {σ : Type} (s : Service σ) (lib : Lib) (amb : Ambient)
    (req : SignUpRequest) (st : σ) : Run σ :=
  match s.repo.GetUserByEmail req.Email st with
  | ((existingUser, err), st1) =>
    let c1 := [Call.GetUserByEmail req.Email]
    if err.isSome ∧ err ≠ some Err.ErrUserNotFound then
      { out := .error (err.getD Err.ErrUserNotFound), st := st1, calls := c1 }
    else if existingUser.isSome then
      { out := .error Err.ErrEmailAlreadyExists, st := st1, calls := c1 }
    else
      match lib.GenerateFromPassword req.Password amb.salt with
      | .error e => { out := .error e, st := st1, calls := c1 }
      | .ok hashedPassword =>
        let user : User :=
          { ID := 0, Email := req.Email, Password := hashedPassword, CreatedAt := amb.nowCreated }
        match s.repo.CreateUser user st1 with
        | (some e, st2) => { out := .error e, st := st2, calls := c1 ++ [.CreateUser user] }
        | (none, st2) =>
          let c2 := c1 ++ [.CreateUser user, .GetUserByEmail req.Email]
          match s.repo.GetUserByEmail req.Email st2 with
          | ((_, some e), st3) => { out := .error e, st := st3, calls := c2 }
          | ((none, none), st3) => { out := .panicked, st := st3, calls := c2 }
          | ((some createdUser, none), st3) =>
            (s.generateTokens lib amb createdUser.ID st3).after c2

/-- The method `Service.Login` (service.go:61-88). -/
def Service.Login {σ : Type} (s : Service σ) (lib : Lib) (amb : Ambient)
    (req : LoginRequest) (st : σ) : Run σ :=
  let c1 := [Call.GetUserByEmail req.Email]
  match s.repo.GetUserByEmail req.Email st with
  | ((_, some err), st1) =>
    if err = Err.ErrUserNotFound then
      { out := .error Err.ErrInvalidCredentials, st := st1, calls := c1 }
    else
      { out := .error err, st := st1, calls := c1 }
  | ((none, none), st1) => { out := .panicked, st := st1, calls := c1 }
  | ((some user, none), st1) =>
    if lib.CompareHashAndPassword user.Password req.Password then
      (s.generateTokens lib amb user.ID st1).after c1
    else
      { out := .error Err.ErrInvalidCredentials, st := st1, calls := c1 }

/-- The method `Service.RefreshToken` (service.go:90-108). -/
def Service.RefreshToken {σ : Type} (s : Service σ) (lib : Lib) (amb : Ambient)
    (refreshToken : String) (st : σ) : Run σ :=
  let c1 := [Call.GetRefreshToken refreshToken]
  let c2 := c1 ++ [Call.DeleteRefreshToken refreshToken]
  match s.repo.GetRefreshToken refreshToken st with
  | ((_, some err), st1) => { out := .error err, st := st1, calls := c1 }
  | ((none, none), st1) => { out := .panicked, st := st1, calls := c1 }
  | ((some token, none), st1) =>
    if After amb.nowCheck token.ExpiresAt then
      match s.repo.DeleteRefreshToken refreshToken st1 with
      | (some err, st2) => { out := .error err, st := st2, calls := c2 }
      | (none, st2) => { out := .error Err.ErrTokenExpired, st := st2, calls := c2 }
    else
      match s.repo.DeleteRefreshToken refreshToken st1 with
      | (some err, st2) => { out := .error err, st := st2, calls := c2 }
      | (none, st2) => (s.generateTokens lib amb token.UserID st2).after c2

/-! ## internal/user/mysql_repository.go

The tables `users` and `refresh_tokens` as lists of rows in insertion order: a
`SELECT ... WHERE` read through `QueryRow` yields the first matching row or
`sql.ErrNoRows`, a `DELETE ... WHERE` removes every matching row, an `INSERT`
appends one row. The schema is not part of the sources; `users.id` is taken to
be assigned by the database from a counter, and no uniqueness constraint is
assumed.

Each statement goes to the database through `db.MySQL` and may fail there
(breaker open, context done, connection or SQL error). What happens to the
statements to come is part of the state of the database, so that a theorem
quantifies over it. A failed `Exec` returns its error whatever made it fail. A
lookup is embedded for a `QueryRow` whose breaker call succeeds, so that the
row returned is the one of `QueryRowContext` and `Scan` returns; when the
breaker call fails `QueryRow` returns the zero row of mysql.go:77, on which
`Scan` panics: that case has no Go result, it is embedded apart in
`GetUserByEmail_db` further down. -/

structure Store where
  users : List User
  refresh_tokens : List RefreshToken
  nextID : Int
  deriving DecidableEq, Repr

/-- What `db.MySQL` and the driver do with one statement of the repository: it
runs and every call returns nil; `Exec` returns `(nil, err)`, respectively
`Scan` returns an `err` other than `sql.ErrNoRows`, and the tables are not
touched (`msg` is the text of `err`); or the statement runs and `RowsAffected`
of its result returns an error (of consequence only where the repository calls
`RowsAffected`). -/
inductive Answer where
  | ok
  | failed (msg : String)
  | noCount (msg : String)
  deriving DecidableEq, Repr

/-- The database behind the repository: its tables, and what it does with the
statements to come, in order (past the end of the list every statement runs). -/
structure Database where
  store : Store
  answers : List Answer
  deriving DecidableEq, Repr

/-- The `sql.Result` of an executed statement, as far as the repository reads
it: the error `RowsAffected` returns (the count itself is only logged). -/
structure Result where
  RowsAffected : Option Err
  deriving DecidableEq, Repr

/-- The call `r.db.Exec(ctx, query, args...)` for a statement whose effect on
the tables is `effect`: `(result, nil)` or `(nil, err)`, and the database left. -/
def Database.Exec (db : Database) (effect : Store → Store) : Except Err Result × Database :=
  match db.answers with
  | [] => (.ok { RowsAffected := none }, { store := effect db.store, answers := [] })
  | .ok :: rest => (.ok { RowsAffected := none }, { store := effect db.store, answers := rest })
  | .failed msg :: rest => (.error (.other msg), { store := db.store, answers := rest })
  | .noCount msg :: rest =>
    (.ok { RowsAffected := some (.other msg) }, { store := effect db.store, answers := rest })

/-- What `Scan` on the row of a `QueryRow` gives: the values of the first row
and nil, `sql.ErrNoRows`, or another error. -/
inductive Scanned (ρ : Type) where
  | ok (vals : ρ)
  | ErrNoRows
  | failed (msg : String)
  deriving DecidableEq, Repr

/-- The call `r.db.QueryRow(ctx, query, args...).Scan(...)` for a query whose
first row on the tables is `select`, and the database left. -/
def Database.QueryRow {ρ : Type} (db : Database) (select : Store → Option ρ) :
    Scanned ρ × Database :=
  match db.answers with
  | .failed msg :: rest => (.failed msg, { store := db.store, answers := rest })
  | _ =>
    (match select db.store with
      | some vals => .ok vals
      | none => .ErrNoRows,
     { store := db.store, answers := db.answers.tail })

namespace MySQLRepository

/-- The method `CreateUser` (mysql_repository.go:20-36); `now` is the reading of
`time.Now()` on line 29. -/
def CreateUser (now : Time) (user : User) (db : Database) : Option Err × Database :=
  match db.Exec (fun st =>
      { st with
        users := st.users ++
          [{ ID := st.nextID, Email := user.Email, Password := user.Password, CreatedAt := now }]
        nextID := st.nextID + 1 }) with
  | (.error err, db1) => (some err, db1)
  | (.ok _, db1) => (none, db1)

/-- The method `GetUserByEmail` (mysql_repository.go:38-56). -/
def GetUserByEmail (email : String) (db : Database) : (Option User × Option Err) × Database :=
  match db.QueryRow (fun st => st.users.find? (fun u => u.Email == email)) with
  | (.ok user, db1) => ((some user, none), db1)
  | (.ErrNoRows, db1) => ((none, some Err.ErrUserNotFound), db1)
  | (.failed msg, db1) => ((none, some (Err.other msg)), db1)

/-- The method `GetUserByID` (mysql_repository.go:58-76). -/
def GetUserByID (id : Int) (db : Database) : (Option User × Option Err) × Database :=
  match db.QueryRow (fun st => st.users.find? (fun u => u.ID == id)) with
  | (.ok user, db1) => ((some user, none), db1)
  | (.ErrNoRows, db1) => ((none, some Err.ErrUserNotFound), db1)
  | (.failed msg, db1) => ((none, some (Err.other msg)), db1)

/-- The method `DeleteAllRefreshTokens` (mysql_repository.go:78-99). -/
def DeleteAllRefreshTokens (userID : Int) (db : Database) : Option Err × Database :=
  match db.Exec (fun st =>
      { st with refresh_tokens := st.refresh_tokens.filter (fun r => r.UserID != userID) }) with
  | (.error err, db1) => (some err, db1)
  | (.ok result, db1) =>
    match result.RowsAffected with
    | some err => (some err, db1)
    | none => (none, db1)

/-- The method `StoreRefreshToken` (mysql_repository.go:101-120). -/
def StoreRefreshToken (userID : Int) (token : String) (expiresAt : Time) (db : Database) :
    Option Err × Database :=
  match DeleteAllRefreshTokens userID db with
  | (some err, db1) => (some err, db1)
  | (none, db1) =>
    match db1.Exec (fun st =>
        { st with
          refresh_tokens := st.refresh_tokens ++
            [{ UserID := userID, Token := token, ExpiresAt := expiresAt }] }) with
    | (.error err, db2) => (some err, db2)
    | (.ok _, db2) => (none, db2)

/-- The method `GetRefreshToken` (mysql_repository.go:122-144). -/
def GetRefreshToken (token : String) (db : Database) :
    (Option RefreshToken × Option Err) × Database :=
  match db.QueryRow (fun st => st.refresh_tokens.find? (fun r => r.Token == token)) with
  | (.ok refreshToken, db1) => ((some refreshToken, none), db1)
  | (.ErrNoRows, db1) => ((none, some Err.ErrRefreshTokenNotFound), db1)
  | (.failed msg, db1) => ((none, some (Err.other msg)), db1)

/-- The method `DeleteRefreshToken` (mysql_repository.go:146-167). -/
def DeleteRefreshToken (token : String) (db : Database) : Option Err × Database :=
  match db.Exec (fun st =>
      { st with refresh_tokens := st.refresh_tokens.filter (fun r => r.Token != token) }) with
  | (.error err, db1) => (some err, db1)
  | (.ok result, db1) =>
    match result.RowsAffected with
    | some err => (some err, db1)
    | none => (none, db1)

end MySQLRepository

/-- The type `MySQLRepository` as a `Repository` over the database; `dbNow` is
the clock reading its `CreateUser` takes. -/
def MySQLRepository.over (dbNow : Time) : Repository Database where
  CreateUser := MySQLRepository.CreateUser dbNow
  GetUserByEmail := MySQLRepository.GetUserByEmail
  GetUserByID := MySQLRepository.GetUserByID
  StoreRefreshToken := MySQLRepository.StoreRefreshToken
  GetRefreshToken := MySQLRepository.GetRefreshToken
  DeleteRefreshToken := MySQLRepository.DeleteRefreshToken

/-- A method of the repository on a database that runs every statement, as a
function of the tables alone. -/
def onTables {α : Type} (method : Database → α × Database) (st : Store) : α × Store :=
  ((method { store := st, answers := [] }).1, (method { store := st, answers := [] }).2.store)

/-- The type `MySQLRepository` as a `Repository` over the tables of a database
that runs every statement (breaker closed, context not done, no SQL error);
`dbNow` is the clock reading its `CreateUser` takes. -/
def NewMySQLRepository (dbNow : Time) : Repository Store where
  CreateUser := fun user => onTables (MySQLRepository.CreateUser dbNow user)
  GetUserByEmail := fun email => onTables (MySQLRepository.GetUserByEmail email)
  GetUserByID := fun id => onTables (MySQLRepository.GetUserByID id)
  StoreRefreshToken := fun userID token expiresAt =>
    onTables (MySQLRepository.StoreRefreshToken userID token expiresAt)
  GetRefreshToken := fun token => onTables (MySQLRepository.GetRefreshToken token)
  DeleteRefreshToken := fun token => onTables (MySQLRepository.DeleteRefreshToken token)

/-- The constructor `NewService` (service.go:18-23). -/
def NewService {σ : Type} (repo : Repository σ) (jwtSecret : String) : Service σ :=
  { repo := repo, jwtSecret := jwtSecret }

end user

/-! ## The imported breaker, github.com/sony/gobreaker

`pkg/circuitbreaker` wraps a `gobreaker.CircuitBreaker` (breaker.go:8, :16, :58,
:137). The package is a third-party import and not among the repository's own
files; the definitions of this section follow its published implementation
(`Counts`, `NewCircuitBreaker`, `Execute`, `beforeRequest`, `afterRequest`,
`currentState`, `setState`, `toNewGeneration`), with the counters as `uint32`,
the generation as `uint64`, and the mutex left out since calls are taken one at
a time. The state-change observer only reports and is left out. -/

namespace gobreaker

open user (Time Duration Second)

inductive State where
  | StateClosed
  | StateHalfOpen
  | StateOpen
  deriving DecidableEq, Repr

def uint32 (n : Nat) : Nat := n % 4294967296
def uint64 (n : Nat) : Nat := n % 18446744073709551616

structure Counts where
  Requests : Nat
  TotalSuccesses : Nat
  TotalFailures : Nat
  ConsecutiveSuccesses : Nat
  ConsecutiveFailures : Nat
  deriving DecidableEq, Repr

def Counts.onRequest (c : Counts) : Counts :=
  { c with Requests := uint32 (c.Requests + 1) }

def Counts.onSuccess (c : Counts) : Counts :=
  { c with
    TotalSuccesses := uint32 (c.TotalSuccesses + 1)
    ConsecutiveSuccesses := uint32 (c.ConsecutiveSuccesses + 1)
    ConsecutiveFailures := 0 }

def Counts.onFailure (c : Counts) : Counts :=
  { c with
    TotalFailures := uint32 (c.TotalFailures + 1)
    ConsecutiveFailures := uint32 (c.ConsecutiveFailures + 1)
    ConsecutiveSuccesses := 0 }

def Counts.clear : Counts :=
  { Requests := 0, TotalSuccesses := 0, TotalFailures := 0
    ConsecutiveSuccesses := 0, ConsecutiveFailures := 0 }

/-- The zero `time.Time` (1 January of year 1, UTC), in nanoseconds from the
Unix epoch. -/
def zeroTime : Time := -62135596800 * 1000000000

/-- The struct `gobreaker.Settings`, without name and observer; a nil
`ReadyToTrip` is `none`. -/
structure Settings where
  MaxRequests : Nat
  Interval : Duration
  Timeout : Duration
  ReadyToTrip : Option (Counts → Bool)

structure CircuitBreaker where
  maxRequests : Nat
  interval : Duration
  timeout : Duration
  readyToTrip : Counts → Bool
  state : State
  generation : Nat
  counts : Counts
  expiry : Time

def defaultInterval : Duration := 0
def defaultTimeout : Duration := 60 * Second
def defaultReadyToTrip (counts : Counts) : Bool := decide (counts.ConsecutiveFailures > 5)

def CircuitBreaker.toNewGeneration (cb : CircuitBreaker) (now : Time) : CircuitBreaker :=
  { cb with
    generation := uint64 (cb.generation + 1)
    counts := Counts.clear
    expiry :=
      match cb.state with
      | .StateClosed => if cb.interval = 0 then zeroTime else now + cb.interval
      | .StateOpen => now + cb.timeout
      | .StateHalfOpen => zeroTime }

def CircuitBreaker.setState (cb : CircuitBreaker) (state : State) (now : Time) :
    CircuitBreaker :=
  if cb.state = state then cb
  else ({ cb with state := state } : CircuitBreaker).toNewGeneration now

/-- The method `currentState`: the breaker after the lazy, clock-driven
transitions; its state and generation are the values the method returns. -/
def CircuitBreaker.currentState (cb : CircuitBreaker) (now : Time) : CircuitBreaker :=
  match cb.state with
  | .StateClosed =>
    if cb.expiry ≠ zeroTime ∧ cb.expiry < now then cb.toNewGeneration now else cb
  | .StateOpen =>
    if cb.expiry < now then cb.setState .StateHalfOpen now else cb
  | .StateHalfOpen => cb

/-- The two errors `gobreaker` itself returns. -/
inductive Rejection where
  | ErrTooManyRequests
  | ErrOpenState
  deriving DecidableEq, Repr

/-- The method `beforeRequest`: the generation of the admitted request, or the
rejection, with the breaker it leaves. -/
def CircuitBreaker.beforeRequest (cb : CircuitBreaker) (now : Time) :
    Except Rejection Nat × CircuitBreaker :=
  let cb1 := cb.currentState now
  if cb1.state = .StateOpen then (.error .ErrOpenState, cb1)
  else if cb1.state = .StateHalfOpen ∧ cb1.counts.Requests ≥ cb1.maxRequests then
    (.error .ErrTooManyRequests, cb1)
  else (.ok cb1.generation, { cb1 with counts := cb1.counts.onRequest })

def CircuitBreaker.onSuccess (cb : CircuitBreaker) (state : State) (now : Time) :
    CircuitBreaker :=
  match state with
  | .StateClosed => { cb with counts := cb.counts.onSuccess }
  | .StateHalfOpen =>
    let cb1 := { cb with counts := cb.counts.onSuccess }
    if cb1.counts.ConsecutiveSuccesses ≥ cb1.maxRequests then cb1.setState .StateClosed now
    else cb1
  | .StateOpen => cb

def CircuitBreaker.onFailure (cb : CircuitBreaker) (state : State) (now : Time) :
    CircuitBreaker :=
  match state with
  | .StateClosed =>
    let cb1 := { cb with counts := cb.counts.onFailure }
    if cb1.readyToTrip cb1.counts then cb1.setState .StateOpen now else cb1
  | .StateHalfOpen => cb.setState .StateOpen now
  | .StateOpen => cb

/-- The method `afterRequest`. -/
def CircuitBreaker.afterRequest (cb : CircuitBreaker) (before : Nat) (success : Bool)
    (now : Time) : CircuitBreaker :=
  let cb1 := cb.currentState now
  if cb1.generation ≠ before then cb1
  else if success then cb1.onSuccess cb1.state now
  else cb1.onFailure cb1.state now

/-- The constructor `NewCircuitBreaker`; `now` is its reading of the clock. -/
def NewCircuitBreaker (st : Settings) (now : Time) : CircuitBreaker :=
  let cb : CircuitBreaker :=
    { maxRequests := if st.MaxRequests = 0 then 1 else st.MaxRequests
      interval := if st.Interval ≤ 0 then defaultInterval else st.Interval
      timeout := if st.Timeout ≤ 0 then defaultTimeout else st.Timeout
      readyToTrip := st.ReadyToTrip.getD defaultReadyToTrip
      state := .StateClosed
      generation := 0
      counts := Counts.clear
      expiry := zeroTime }
  cb.toNewGeneration now

end gobreaker

/-! ## pkg/circuitbreaker/breaker.go -/

namespace circuitbreaker

open user (Time Duration Second)

/-- The error values that travel through the breaker: the two of `gobreaker`,
`ErrCircuitOpen` of this package (breaker.go:11-13), the two a done context
reports, and every other error a unit of work returns. -/
inductive Error where
  | ErrTooManyRequests
  | ErrOpenState
  | ErrCircuitOpen
  | Canceled
  | DeadlineExceeded
  | other (msg : String)
  deriving DecidableEq, Repr

def ofRejection : gobreaker.Rejection → Error
  | .ErrTooManyRequests => .ErrTooManyRequests
  | .ErrOpenState => .ErrOpenState

/-- What `ctx.Err()` reports once the context is done. -/
inductive CtxErr where
  | Canceled
  | DeadlineExceeded
  deriving DecidableEq, Repr

def CtxErr.toError : CtxErr → Error
  | .Canceled => .Canceled
  | .DeadlineExceeded => .DeadlineExceeded

/-- Which case of the `select` in `Execute` (breaker.go:126-131) is taken:
the context is done first, with its error, or the result of the work arrives
first. -/
inductive Select where
  | ctxDone (e : CtxErr)
  | resultFirst
  deriving DecidableEq, Repr

/-- The struct `Settings` (breaker.go:20-27), without name and observer. -/
structure Settings where
  MaxRequests : Nat
  Interval : Duration
  Timeout : Duration
  ReadyToTrip : Option (gobreaker.Counts → Bool)

abbrev Setting := Settings → Settings

def WithMaxRequests (maxRequests : Nat) : Setting :=
  fun s => { s with MaxRequests := maxRequests }

def WithInterval (interval : Duration) : Setting :=
  fun s => { s with Interval := interval }

def WithTimeout (timeout : Duration) : Setting :=
  fun s => { s with Timeout := timeout }

def WithReadyToTrip (readyToTrip : Option (gobreaker.Counts → Bool)) : Setting :=
  fun s => { s with ReadyToTrip := readyToTrip }

structure CircuitBreaker where
  cb : gobreaker.CircuitBreaker

/-- The constructor `New` (breaker.go:30-68); `now` is the reading of the clock
inside `NewCircuitBreaker`. -/
def New (settings : List Setting) (now : Time) : CircuitBreaker :=
  let config : Settings :=
    { MaxRequests := 5
      Interval := 10 * Second
      Timeout := 5 * Second
      ReadyToTrip := some (fun counts => decide (counts.ConsecutiveFailures > 5)) }
  let config := settings.foldl (fun c setting => setting c) config
  { cb := gobreaker.NewCircuitBreaker
      { MaxRequests := config.MaxRequests
        Interval := config.Interval
        Timeout := config.Timeout
        ReadyToTrip := config.ReadyToTrip } now }

/-- The method `Execute` (breaker.go:109-132): the work is started in its own
goroutine and raced against the context; `fn` is the pair the work returns. -/
def CircuitBreaker.Execute {α : Type} (sel : Select) (fn : Option α × Option Error) :
    Option α × Option Error :=
  match sel with
  | .ctxDone e => (none, some e.toError)
  | .resultFirst => fn

/-- A finished `ExecuteWithBreaker`: the pair it returns, the breaker it
leaves, and whether the work function was invoked. -/
structure Done (α : Type) where
  val : Option α
  err : Option Error
  breaker : CircuitBreaker
  invoked : Bool

/-- The method `gobreaker.CircuitBreaker.Execute` applied to the request
`c.Execute(ctx, fn)`, as on breaker.go:137-139; `nowBefore` and `nowAfter` are
the clock readings of `beforeRequest` and `afterRequest`. -/
def gobreakerExecute {α : Type} (cb : gobreaker.CircuitBreaker) (nowBefore nowAfter : Time)
    (sel : Select) (fn : Option α × Option Error) : Done α :=
  match cb.beforeRequest nowBefore with
  | (.error rej, cb1) =>
    { val := none, err := some (ofRejection rej), breaker := { cb := cb1 }, invoked := false }
  | (.ok generation, cb1) =>
    let r := CircuitBreaker.Execute sel fn
    { val := r.1, err := r.2
      breaker := { cb := cb1.afterRequest generation r.2.isNone nowAfter }
      invoked := true }

/-- The method `ExecuteWithBreaker` (breaker.go:135-149). -/
def CircuitBreaker.ExecuteWithBreaker {α : Type} (c : CircuitBreaker)
    (nowBefore nowAfter : Time) (sel : Select) (fn : Option α × Option Error) : Done α :=
  let r := gobreakerExecute c.cb nowBefore nowAfter sel fn
  match r.err with
  | some err =>
    if err = Error.ErrOpenState then { r with val := none, err := some Error.ErrCircuitOpen }
    else { r with val := none, err := some err }
  | none => r

end circuitbreaker

/-! ## internal/db/mysql.go -/

namespace db

open user (Time Second)

/-- The breaker `NewMySQL` builds (mysql.go:31-41). -/
def NewMySQL_cb (now : Time) : circuitbreaker.CircuitBreaker :=
  circuitbreaker.New
    [ circuitbreaker.WithMaxRequests 3
    , circuitbreaker.WithInterval (30 * Second)
    , circuitbreaker.WithTimeout (10 * Second)
    , circuitbreaker.WithReadyToTrip
        (some (fun counts => decide (counts.ConsecutiveFailures > 3))) ]
    now

end db

/-! ## Sequential runs and concrete instances

Definitions used to state the theorems: runs of several service calls or
breaker calls one after the other, and a concrete instance of the library
functions on which the definitions can be evaluated. -/

namespace user

/-- The service as `main` builds it, `NewService(NewMySQLRepository(db), secret)`,
over the tables of a database that runs every statement. -/
def mysqlService (dbNow : Time) (jwtSecret : String) : Service Store :=
  NewService (NewMySQLRepository dbNow) jwtSecret

/-- The service as `main` builds it, `NewService(NewMySQLRepository(db), secret)`,
over the database. -/
def dbService (dbNow : Time) (jwtSecret : String) : Service Database :=
  NewService (MySQLRepository.over dbNow) jwtSecret

/-- The pair `generateTokens` builds for a user (service.go:120-140, 149-152). -/
def issuedPair (lib : Lib) (jwtSecret : String) (amb : Ambient) (userID : Int) : TokenResponse :=
  { AccessToken :=
      lib.SignedString jwtSecret userID (Unix (amb.nowAccess + accessTokenDuration lib amb))
    RefreshToken :=
      lib.SignedString jwtSecret userID (Unix (amb.nowRefresh + refreshTokenDuration lib amb)) }

/-- One call of the service's token surface, with everything it reads. -/
inductive Op where
  | SignUp (dbNow : Time) (amb : Ambient) (req : SignUpRequest)
  | Login (dbNow : Time) (amb : Ambient) (req : LoginRequest)
  | RefreshToken (dbNow : Time) (amb : Ambient) (refreshToken : String)

/-- The database one call leaves. -/
def Op.apply (lib : Lib) (jwtSecret : String) (op : Op) (db : Database) : Database :=
  match op with
  | .SignUp dbNow amb req => ((dbService dbNow jwtSecret).SignUp lib amb req db).st
  | .Login dbNow amb req => ((dbService dbNow jwtSecret).Login lib amb req db).st
  | .RefreshToken dbNow amb t => ((dbService dbNow jwtSecret).RefreshToken lib amb t db).st

/-- The database a sequential run of calls leaves. -/
def runOps (lib : Lib) (jwtSecret : String) (ops : List Op) (db : Database) : Database :=
  ops.foldl (fun d op => op.apply lib jwtSecret d) db

/-- No user has more than one stored refresh token. -/
def AtMostOnePerUser (st : Store) : Prop :=
  ∀ userID : Int, (st.refresh_tokens.filter (fun r => r.UserID == userID)).length ≤ 1

/-- Every method of a repository keeps the property `P` of the store. -/
def Repository.Preserves {σ : Type} (repo : Repository σ) (P : σ → Prop) : Prop :=
  (∀ u st, P st → P (repo.CreateUser u st).2) ∧
  (∀ email st, P st → P (repo.GetUserByEmail email st).2) ∧
  (∀ id st, P st → P (repo.GetUserByID id st).2) ∧
  (∀ userID token expiresAt st, P st → P (repo.StoreRefreshToken userID token expiresAt st).2) ∧
  (∀ token st, P st → P (repo.GetRefreshToken token st).2) ∧
  (∀ token st, P st → P (repo.DeleteRefreshToken token st).2)

/-- Binary digits of `n`, least significant first (`fuel ≥ n` is enough). -/
def bitsAux : Nat → Nat → List Char
  | 0, _ => []
  | fuel + 1, n =>
    if n = 0 then [] else (if n % 2 = 1 then '1' else '0') :: bitsAux fuel (n / 2)

/-- A self-delimiting text for an integer: sign, binary digits, a dot. -/
def encInt (i : Int) : List Char :=
  (if i < 0 then '-' else '+') :: (bitsAux i.natAbs i.natAbs ++ ['.'])

/-- A stand-in for the HS256 `SignedString`: like it, a fixed function of the
secret and the two claims from which the claims can be read back. -/
def demoSign (secret : String) (userID exp : Int) : String :=
  String.mk (encInt userID ++ encInt exp ++ secret.data)

/-- A concrete instance of the library functions: the hash is the password
behind a marker, and `ParseDuration` knows the empty string (an error, as in
Go) and a few literals. -/
def demoLib : Lib where
  GenerateFromPassword := fun password _ => .ok ("$2a$10$" ++ password)
  CompareHashAndPassword := fun hash password => hash == "$2a$10$" ++ password
  ParseDuration := fun s =>
    if s = "1s" then some Second
    else if s = "5m" then some (5 * Minute)
    else if s = "24h" then some (24 * Hour)
    else none
  SignedString := demoSign

/-- An environment with neither duration variable set. -/
def noEnv : String → String := fun _ => ""

/-- 1 January 2026, 00:00:00 UTC. -/
def t2026 : Time := 1767225600 * Second

/-- Every clock reading of a call falls at `t` plus `ms` milliseconds. -/
def ambAt (t : Time) (ms : Int) : Ambient :=
  { Getenv := noEnv, salt := 7
    nowCreated := t + ms * 1000000, nowCheck := t + ms * 1000000
    nowAccess := t + ms * 1000000, nowRefresh := t + ms * 1000000
    nowStore := t + ms * 1000000 }

def emptyStore : Store := { users := [], refresh_tokens := [], nextID := 1 }

def demoService : Service Store := mysqlService t2026 "test-secret"

def demoSignUpRequest : SignUpRequest := { Email := "a@x.com", Password := "secret1" }

/-- The sign-up of `a@x.com` on an empty store at `t2026`. -/
def demoSignUp : Run Store := demoService.SignUp demoLib (ambAt t2026 0) demoSignUpRequest emptyStore

/-- The refresh token that sign-up returns. -/
def demoTokenA : String := demoSign "test-secret" 1 (1767225600 + 86400)

/-- The token pair that sign-up returns. -/
def demoPairA : TokenResponse :=
  { AccessToken := demoSign "test-secret" 1 (1767225600 + 300), RefreshToken := demoTokenA }

/-- A first refresh with that token, 200 ms after the sign-up. -/
def demoRefresh1 : Run Store :=
  demoService.RefreshToken demoLib (ambAt t2026 200) demoTokenA demoSignUp.st

/-- A second refresh with the same token, 400 ms after the sign-up. -/
def demoRefresh2 : Run Store :=
  demoService.RefreshToken demoLib (ambAt t2026 400) demoTokenA demoRefresh1.st

/-- A store with one user and a refresh token of theirs that expired an hour
before `t2026`. -/
def demoExpiredStore : Store :=
  { users := [{ ID := 1, Email := "a@x.com", Password := "$2a$10$secret1", CreatedAt := 0 }]
    refresh_tokens := [{ UserID := 1, Token := "expired-refresh-token", ExpiresAt := t2026 - Hour }]
    nextID := 2 }

/-- A run of four calls: sign-up, login, then two refreshes with the first
refresh token. -/
def demoOps : List Op :=
  [ .SignUp t2026 (ambAt t2026 0) demoSignUpRequest
  , .Login t2026 (ambAt t2026 1500) { Email := "a@x.com", Password := "secret1" }
  , .RefreshToken t2026 (ambAt t2026 3000) demoTokenA
  , .RefreshToken t2026 (ambAt t2026 4000) demoTokenA ]

/-- A refresh with that token two seconds after the sign-up. -/
def demoRefreshLater : Run Store :=
  demoService.RefreshToken demoLib (ambAt t2026 2000) demoTokenA demoSignUp.st

end user

namespace circuitbreaker

open user (Time Duration Second t2026)

/-- One call of `ExecuteWithBreaker`, with everything it reads: the two clock
readings, the case the `select` takes and the pair the work returns. -/
structure BreakerCall (α : Type) where
  nowBefore : Time
  nowAfter : Time
  sel : Select
  fn : Option α × Option Error

/-- The request handed to the breaker returns a non-nil error. -/
def BreakerCall.fails {α : Type} (call : BreakerCall α) : Bool :=
  (CircuitBreaker.Execute call.sel call.fn).2.isSome

/-- The call made on the breaker `c`. -/
def BreakerCall.run {α : Type} (call : BreakerCall α) (c : CircuitBreaker) : Done α :=
  c.ExecuteWithBreaker call.nowBefore call.nowAfter call.sel call.fn

/-- A sequential run of calls: the breaker it leaves and, per call, whether the
work was invoked. -/
def runCalls {α : Type} (c : CircuitBreaker) : List (BreakerCall α) → CircuitBreaker × List Bool
  | [] => (c, [])
  | call :: rest =>
    match call.run c with
    | d =>
      match runCalls d.breaker rest with
      | (c2, flags) => (c2, d.invoked :: flags)

/-- The trip predicate "more than `N` consecutive failures". -/
def tripAbove (N : Nat) : gobreaker.Counts → Bool :=
  fun counts => decide (counts.ConsecutiveFailures > N)

/-- A closed breaker tripping above `N` whose count of consecutive failures is
at most `k`. -/
def ClosedBelow (N k : Nat) (c : CircuitBreaker) : Prop :=
  c.cb.state = .StateClosed ∧ c.cb.readyToTrip = tripAbove N ∧
    c.cb.counts.ConsecutiveFailures ≤ k

/-- A closed breaker tripping above `N` whose count of consecutive failures is
`k` and whose counting window ends at `E`. -/
def ClosedAt (N k : Nat) (E : Time) (c : CircuitBreaker) : Prop :=
  c.cb.state = .StateClosed ∧ c.cb.readyToTrip = tripAbove N ∧
    c.cb.counts.ConsecutiveFailures = k ∧ c.cb.expiry = E

/-- Both clock readings of every call are no later than `E`. -/
def Within {α : Type} (E : Time) (calls : List (BreakerCall α)) : Prop :=
  ∀ call ∈ calls, call.nowBefore ≤ E ∧ call.nowAfter ≤ E

/-- A call `ms` milliseconds after `t2026` whose context is cancelled before
the work returns. -/
def cancelledAt (ms : Int) : BreakerCall String :=
  { nowBefore := user.t2026 + ms * 1000000, nowAfter := user.t2026 + ms * 1000000 + 1000
    sel := .ctxDone .Canceled, fn := (some "row", none) }

/-- A call `ms` milliseconds after `t2026` whose work returns an error. -/
def failingAt (ms : Int) : BreakerCall String :=
  { nowBefore := user.t2026 + ms * 1000000, nowAfter := user.t2026 + ms * 1000000 + 1000
    sel := .resultFirst, fn := (none, some (.other "connection refused")) }

/-- Five failing calls, 100 ms apart, from 100 ms after `t2026`. -/
def fiveFailures : List (BreakerCall String) :=
  [failingAt 100, failingAt 200, cancelledAt 300, failingAt 400, failingAt 500]

/-- The breaker of `New` with no options, built at `t2026`, after those five
failing calls. -/
def afterFiveFailures : CircuitBreaker := (runCalls (New [] t2026) fiveFailures).1

/-- Six failing calls within one second. -/
def sixFailures : List (BreakerCall String) := fiveFailures ++ [failingAt 600]

/-- Six failing calls, the sixth 10.6 s after `t2026`. -/
def sixFailuresApart : List (BreakerCall String) := fiveFailures ++ [failingAt 10600]

/-- Three failing calls within one second. -/
def threeFailures : List (BreakerCall String) := [failingAt 100, cancelledAt 200, failingAt 300]

/-- Four failing calls within one second. -/
def fourFailures : List (BreakerCall String) := threeFailures ++ [failingAt 400]

/-- Four failing calls, the fourth 30.4 s after `t2026`. -/
def fourFailuresApart : List (BreakerCall String) := threeFailures ++ [failingAt 30400]

/-- A breaker with the settings of `New` with no options, half-open, with all
five probe requests of the window admitted and none of them finished. -/
def halfOpenExhausted : CircuitBreaker :=
  { cb :=
    { maxRequests := 5, interval := 10 * Second, timeout := 5 * Second
      readyToTrip := fun counts => decide (counts.ConsecutiveFailures > 5)
      state := .StateHalfOpen, generation := 3
      counts :=
        { Requests := 5, TotalSuccesses := 0, TotalFailures := 0
          ConsecutiveSuccesses := 0, ConsecutiveFailures := 0 }
      expiry := gobreaker.zeroTime } }

end circuitbreaker

namespace circuitbreaker

open user (Time Duration Second t2026)

/-- A half-open breaker with probe quota `M` in which `k` probe calls have been
admitted, one after the other, and all `k` have succeeded. -/
def HalfOpenAt (M k : Nat) (c : CircuitBreaker) : Prop :=
  c.cb.state = .StateHalfOpen ∧ c.cb.maxRequests = M ∧ c.cb.counts.Requests = k ∧
    c.cb.counts.ConsecutiveSuccesses = k

/-- A call `ms` milliseconds after `t2026` whose work returns a row. -/
def succeedingAt (ms : Int) : BreakerCall String :=
  { nowBefore := user.t2026 + ms * 1000000, nowAfter := user.t2026 + ms * 1000000 + 1000
    sel := .resultFirst, fn := (some "row", none) }

/-- The breaker of `NewMySQL` (three probes), just turned half-open. -/
def halfOpenFresh : CircuitBreaker :=
  { cb :=
    { maxRequests := 3, interval := 30 * Second, timeout := 10 * Second
      readyToTrip := fun counts => decide (counts.ConsecutiveFailures > 3)
      state := .StateHalfOpen, generation := 3
      counts := gobreaker.Counts.clear
      expiry := gobreaker.zeroTime } }

end circuitbreaker

namespace user

/-- A repository whose every call reports the storage error `e` and leaves the
store as it is (a test double in the manner of `MockRepository`). -/
def errorRepository (e : Err) : Repository Store where
  CreateUser := fun _ st => (some e, st)
  GetUserByEmail := fun _ st => ((none, some e), st)
  GetUserByID := fun _ st => ((none, some e), st)
  StoreRefreshToken := fun _ _ _ st => (some e, st)
  GetRefreshToken := fun _ st => ((none, some e), st)
  DeleteRefreshToken := fun _ st => (some e, st)

/-- The error of a database that cannot be reached, as `db.MySQL.Exec` wraps it. -/
def demoStorageError : Err := .other "failed to execute query: dial tcp: connection refused"

/-- The library functions of `demoLib` with the length limit of bcrypt: a
password of more than 72 bytes is refused with an error. -/
def strictLib : Lib :=
  { demoLib with
    GenerateFromPassword := fun password _ =>
      if password.utf8ByteSize > 72 then
        .error (.other "bcrypt: password length exceeds 72 bytes")
      else .ok ("$2a$10$" ++ password) }

/-- A sign-up request with a password of 73 bytes. -/
def longPasswordRequest : SignUpRequest :=
  { Email := "a@x.com", Password := String.mk (List.replicate 73 'a') }

end user

namespace circuitbreaker

/-- What happens around one `Execute`: the error the context reports once it is
done (`none`: it never fires), the pair the work function returns (`none`: it
never returns), and the case the `select` takes when both are ready. -/
structure Race (α : Type) where
  ctx : Option CtxErr
  work : Option (Option α × Option Error)
  preferCtx : Bool

/-- The case of the `select` (breaker.go:126-131) that is taken, `none` when
neither channel ever becomes ready and `Execute` blocks for ever. -/
def Race.select {α : Type} (r : Race α) : Option Select :=
  match r.ctx, r.work with
  | none, none => none
  | some e, none => some (.ctxDone e)
  | none, some _ => some .resultFirst
  | some e, some _ => some (if r.preferCtx then .ctxDone e else .resultFirst)

/-- The method `Execute` (breaker.go:109-132) over a context and a work
function that may each never fire: the pair returned, `none` when it never
returns. -/
def CircuitBreaker.ExecuteRace {α : Type} (r : Race α) : Option (Option α × Option Error) :=
  match r.select with
  | none => none
  | some sel => some (CircuitBreaker.Execute sel (r.work.getD (none, none)))

end circuitbreaker

/-! ## pkg/authmiddleware/auth.go and pkg/middleware/auth.go

The request-authentication boundary. The imported parser
(`jwt.ParseWithClaims`, `jwt.Parse` of golang-jwt) is taken as given: a function
of the token string, the key and the clock reading of its validation that
yields the claims when it returns a nil error and a valid token. With
`MapClaims` every JSON number among the claims is a `float64`. -/

namespace authmiddleware

open user (Time)

/-- A finite `float64`, as the number `mant * 2 ^ exp`. -/
structure Float64 where
  mant : Int
  exp : Int
  deriving DecidableEq, Repr

/-- How many low bits a natural number has beyond 53 (`fuel ≥ a` is enough). -/
def excessBits : Nat → Nat → Nat
  | 0, _ => 0
  | fuel + 1, a => if a < 9007199254740992 then 0 else 1 + excessBits fuel (a / 2)

/-- The `float64` a JSON integer decodes to: the nearest number with a 53-bit
significand, ties to the even one. -/
def Float64.ofInt (n : Int) : Float64 :=
  let a := n.natAbs
  let k := excessBits a a
  let q := a / 2 ^ k
  let r := a % 2 ^ k
  let up := decide (2 * r > 2 ^ k) || (decide (2 * r = 2 ^ k) && decide (q % 2 = 1))
  let q1 := if up then q + 1 else q
  { mant := if n < 0 then -(q1 : Int) else (q1 : Int), exp := k }

/-- The conversion `int64(x)` of a `float64`: the fraction is dropped; a value
outside the range of `int64` gives the most negative `int64` (the result is
implementation-specific; this is the one of amd64). -/
def Float64.toInt64 (x : Float64) : Int :=
  let v := if 0 ≤ x.exp then x.mant * 2 ^ x.exp.toNat else Int.tdiv x.mant (2 ^ (-x.exp).toNat)
  if -9223372036854775808 ≤ v ∧ v < 9223372036854775808 then v else -9223372036854775808

/-- The dynamic value found under a key of `MapClaims`: no entry, a number, or
a value of another type (string, bool, object, array, null). -/
inductive Value where
  | absent
  | number (x : Float64)
  | other
  deriving DecidableEq, Repr

abbrev MapClaims := String → Value

/-- The imported parser: token string, key and clock reading to the claims of
a token that verifies and is valid, `none` when it reports an error. -/
abbrev Parser := String → String → Time → Option MapClaims

/-- The parts of a request the middleware reads; `Authorization` is the value
of `r.Header.Get("Authorization")`, empty when the header is absent. -/
structure Request where
  Path : String
  Authorization : String
  deriving DecidableEq, Repr

/-- What the middleware does with a request: it calls the next handler, with
the `user_id` it put in the request context (`none`: the context is left as it
was); it answers 401 with a message; or it panics. -/
inductive Result where
  | next (user_id : Option Int)
  | unauthorized (msg : String)
  | panicked
  deriving DecidableEq, Repr

/-- The call `strings.Split(s, " ")`. -/
def Split : List Char → List (List Char)
  | [] => [[]]
  | c :: cs =>
    if c = ' ' then [] :: Split cs
    else
      match Split cs with
      | p :: ps => (c :: p) :: ps
      | [] => [[c]]

/-- The handler `AuthMiddleware(jwtSecret)(next)` (authmiddleware/auth.go:11-49);
`now` is the clock reading of the parser's validation. -/
def AuthMiddleware (parse : Parser) (jwtSecret : String) (now : Time) (r : Request) : Result :=
  if r.Path = "/health" then .next none
  else if r.Authorization = "" then .unauthorized "Authorization header is required"
  else
    match (Split r.Authorization.data).map String.mk with
    | [p0, tokenString] =>
      if p0 ≠ "Bearer" then .unauthorized "Invalid authorization header format"
      else
        match parse tokenString jwtSecret now with
        | none => .unauthorized "Invalid token"
        | some claims =>
          match claims "user_id" with
          | .number x => .next (some x.toInt64)
          | _ => .panicked
    | _ => .unauthorized "Invalid authorization header format"

end authmiddleware

namespace middleware

open user (Time Unix)
open authmiddleware (Parser Request Result Value Float64)

/-- The handler `Auth(jwtSecret)(next)` (middleware/auth.go:11-60); `now` is
the clock reading of the parser's validation and `now2` the one of line 43.
The whole header value is the token string here. The assertion of line 31
always holds, `jwt.Parse` filling a `MapClaims`, so its 401 has no case. -/
def Auth (parse : Parser) (jwtSecret : String) (now now2 : Time) (r : Request) : Result :=
  if r.Authorization = "" then .unauthorized "Missing authorization token"
  else
    match parse r.Authorization jwtSecret now with
    | none => .unauthorized "Invalid token"
    | some claims =>
      match claims "exp" with
      | .number exp =>
        if Unix now2 > exp.toInt64 then .unauthorized "Token expired"
        else
          match claims "user_id" with
          | .number userID => .next (some userID.toInt64)
          | _ => .unauthorized "Invalid user ID claim"
      | _ => .unauthorized "Invalid expiration claim"

end middleware

namespace authmiddleware

open user (Time encInt demoSign t2026 Second)

/-- Reads back binary digits up to the dot. -/
def decBits : List Char → Option (Nat × List Char)
  | [] => none
  | c :: cs =>
    if c = '.' then some (0, cs)
    else if c = '0' then (decBits cs).map (fun p => (2 * p.1, p.2))
    else if c = '1' then (decBits cs).map (fun p => (2 * p.1 + 1, p.2))
    else none

/-- Reads back an integer written by `encInt`. -/
def decInt : List Char → Option (Int × List Char)
  | [] => none
  | c :: cs =>
    if c = '+' then (decBits cs).map (fun p => ((p.1 : Int), p.2))
    else if c = '-' then (decBits cs).map (fun p => (-(p.1 : Int), p.2))
    else none

/-- A stand-in for the HS256 signed string of the claims `exp` alone, with no
`user_id`. -/
def demoSignExpOnly (secret : String) (exp : Int) : String :=
  String.mk ('~' :: (encInt exp ++ secret.data))

/-- The claims of a stand-in token as `MapClaims` holds them. -/
def demoClaims (user_id : Option Int) (exp : Int) : MapClaims :=
  fun key =>
    if key = "exp" then .number (Float64.ofInt exp)
    else if key = "user_id" then
      match user_id with
      | some u => .number (Float64.ofInt u)
      | none => .absent
    else .absent

/-- Reads a stand-in token back: the claim `user_id` if it has one, the claim
`exp`, and the key it was written with. -/
def demoDecode (token : String) : Option (Option Int × Int × List Char) :=
  match token.data with
  | '~' :: rest =>
    match decInt rest with
    | some (e, key) => some (none, e, key)
    | none => none
  | cs =>
    match decInt cs with
    | some (u, rest) =>
      match decInt rest with
      | some (e, key) => some (some u, e, key)
      | none => none
    | none => none

/-- A stand-in for the imported parser on the strings of `demoSign` and
`demoSignExpOnly`: it reads the claims back, checks the key, and accepts the
token strictly before the second `exp`. -/
def demoParse : Parser := fun token secret now =>
  match demoDecode token with
  | some (u, e, key) =>
    if key = secret.data ∧ now < e * 1000000000 then some (demoClaims u e) else none
  | none => none

/-- The access token of the demo sign-up (user 1, expiring 5 minutes after
`t2026`). -/
def demoAccessToken : String := demoSign "test-secret" 1 (1767225600 + 300)

/-- An access token for the user id `2^53 + 1`. -/
def demoBigToken : String := demoSign "test-secret" 9007199254740993 (1767225600 + 300)

/-- A token signed with the secret whose claims hold `exp` and no `user_id`. -/
def demoNoUserToken : String := demoSignExpOnly "test-secret" (1767225600 + 300)

end authmiddleware

/-! ## database/sql as `internal/db` and the repository use it

`sql.Row` of the standard library has two unexported fields, `err` and `rows`.
`Row.Scan` returns `err` when it is set; otherwise it reads `rows`, which the
zero `Row` leaves nil: a nil-pointer dereference. -/

namespace sql

/-- The errors `Row.Scan` returns: `ErrNoRows`, or any other (driver, context,
conversion). -/
inductive Error where
  | ErrNoRows
  | other (msg : String)
  deriving DecidableEq, Repr

/-- The result set behind a `Row`, as far as `Row.Scan` reads it: its first row,
no row, or an error on the way. -/
inductive Rows (ρ : Type) where
  | first (vals : ρ)
  | empty
  | failed (msg : String)
  deriving DecidableEq, Repr

structure Row (ρ : Type) where
  err : Option Error
  rows : Option (Rows ρ)
  deriving DecidableEq, Repr

/-- What a call of `Row.Scan` does: it fills the destinations and returns nil,
returns an error, or panics. -/
inductive Scanned (ρ : Type) where
  | ok (vals : ρ)
  | error (e : Error)
  | panicked
  deriving DecidableEq, Repr

/-- The method `Row.Scan`. -/
def Row.Scan {ρ : Type} (r : Row ρ) : Scanned ρ :=
  match r.err with
  | some e => .error e
  | none =>
    match r.rows with
    | none => .panicked
    | some (.first vals) => .ok vals
    | some .empty => .error .ErrNoRows
    | some (.failed msg) => .error (.other msg)

end sql

namespace db

open user (Time Second t2026)

/-- The function literal `QueryRow` hands to `ExecuteWithBreaker`
(mysql.go:70-73), as the pair it returns: `answer` is the row `QueryRowContext`
gives. -/
def MySQL.QueryRow_work {ρ : Type} (answer : sql.Row ρ) :
    Option (sql.Row ρ) × Option circuitbreaker.Error :=
  (some answer, none)

/-- The method `MySQL.QueryRow` (mysql.go:66-81): `answer` is the row
`QueryRowContext` gives; the result is the row returned and the breaker left. -/
def MySQL.QueryRow {ρ : Type} (cb : circuitbreaker.CircuitBreaker) (nowBefore nowAfter : Time)
    (sel : circuitbreaker.Select) (answer : sql.Row ρ) :
    sql.Row ρ × circuitbreaker.CircuitBreaker :=
  match cb.ExecuteWithBreaker nowBefore nowAfter sel (MySQL.QueryRow_work answer) with
  | d =>
    match d.err with
    | some _ => ({ err := none, rows := none }, d.breaker)
    | none => (answer, d.breaker)

end db

namespace user

/-- What a repository lookup does when the database is reached through
`db.MySQL`: it returns its Go result, or panics. -/
inductive Lookup where
  | returned (u : Option User) (err : Option Err)
  | panicked
  deriving DecidableEq, Repr

/-- The method `MySQLRepository.GetUserByEmail` (mysql_repository.go:38-56) over
`db.MySQL.QueryRow`: `answer` is the row the database gives for the query. -/
def MySQLRepository.GetUserByEmail_db (cb : circuitbreaker.CircuitBreaker)
    (nowBefore nowAfter : Time) (sel : circuitbreaker.Select) (answer : sql.Row User) :
    Lookup × circuitbreaker.CircuitBreaker :=
  match db.MySQL.QueryRow cb nowBefore nowAfter sel answer with
  | (row, cb1) =>
    match row.Scan with
    | .ok user => (.returned (some user) none, cb1)
    | .error .ErrNoRows => (.returned none (some Err.ErrUserNotFound), cb1)
    | .error (.other msg) => (.returned none (some (Err.other msg)), cb1)
    | .panicked => (.panicked, cb1)

/-- The row the database gives for the user of the demo sign-up. -/
def demoUserRow : sql.Row User :=
  { err := none
    rows := some (.first
      { ID := 1, Email := "a@x.com", Password := "$2a$10$secret1", CreatedAt := t2026 }) }

end user

namespace db

open user (Time Second t2026)

/-- The breaker of `NewMySQL`, built at `t2026`, after four failing calls
within one second: open until 10 s after the fourth. -/
def openMySQLBreaker : circuitbreaker.CircuitBreaker :=
  (circuitbreaker.runCalls (NewMySQL_cb t2026) circuitbreaker.fourFailures).1

end db

namespace db

open user (Time Second t2026)

/-- One `QueryRow` call whose context is not cancelled: the two clock readings
of the breaker and the row the database gives, whatever it holds. -/
structure QueryRowCall (ρ : Type) where
  nowBefore : Time
  nowAfter : Time
  answer : sql.Row ρ

/-- A sequential run of such calls: the breaker it leaves and the rows
returned. -/
def runQueryRows {ρ : Type} (cb : circuitbreaker.CircuitBreaker) :
    List (QueryRowCall ρ) → circuitbreaker.CircuitBreaker × List (sql.Row ρ)
  | [] => (cb, [])
  | call :: rest =>
    match MySQL.QueryRow cb call.nowBefore call.nowAfter .resultFirst call.answer with
    | (row, cb1) =>
      match runQueryRows cb1 rest with
      | (cb2, rows) => (cb2, row :: rows)

/-- A lookup `ms` milliseconds after `t2026` that finds no row. -/
def emptyLookupAt (ms : Int) : QueryRowCall user.User :=
  { nowBefore := t2026 + ms * 1000000, nowAfter := t2026 + ms * 1000000 + 1000
    answer := { err := none, rows := some .empty } }

/-- A lookup `ms` milliseconds after `t2026` on which the driver reports an
error. -/
def brokenLookupAt (ms : Int) : QueryRowCall user.User :=
  { nowBefore := t2026 + ms * 1000000, nowAfter := t2026 + ms * 1000000 + 1000
    answer := { err := some (.other "driver: bad connection"), rows := none } }

/-- Six failing lookups within one second. -/
def sixFailingLookups : List (QueryRowCall user.User) :=
  [ brokenLookupAt 100, brokenLookupAt 200, emptyLookupAt 300, brokenLookupAt 400
  , brokenLookupAt 500, brokenLookupAt 600 ]

end db

namespace user

/-- The surroundings of a call `ms` milliseconds after `t2026` in a process
whose two duration variables are both set to `24h`. -/
def sameDurations (ms : Int) : Ambient :=
  { ambAt t2026 ms with
    Getenv := fun key =>
      if key = "ACCESS_TOKEN_DURATION" ∨ key = "REFRESH_TOKEN_DURATION" then "24h" else "" }

end user

namespace user

/-- A repository that answers like `repo`, except that its call number `k`
(every call through the interface counts, from 0) reports the error `e` and
does not reach the store; the second component of the state is the number of
calls made so far. A test double in the manner of `MockRepository`, for a
single statement the database refuses. -/
def Repository.failNth {σ : Type} (repo : Repository σ) (k : Nat) (e : Err) :
    Repository (σ × Nat) where
  CreateUser := fun u st =>
    if st.2 = k then (some e, (st.1, st.2 + 1))
    else ((repo.CreateUser u st.1).1, ((repo.CreateUser u st.1).2, st.2 + 1))
  GetUserByEmail := fun email st =>
    if st.2 = k then ((none, some e), (st.1, st.2 + 1))
    else ((repo.GetUserByEmail email st.1).1, ((repo.GetUserByEmail email st.1).2, st.2 + 1))
  GetUserByID := fun id st =>
    if st.2 = k then ((none, some e), (st.1, st.2 + 1))
    else ((repo.GetUserByID id st.1).1, ((repo.GetUserByID id st.1).2, st.2 + 1))
  StoreRefreshToken := fun userID token expiresAt st =>
    if st.2 = k then (some e, (st.1, st.2 + 1))
    else ((repo.StoreRefreshToken userID token expiresAt st.1).1,
      ((repo.StoreRefreshToken userID token expiresAt st.1).2, st.2 + 1))
  GetRefreshToken := fun token st =>
    if st.2 = k then ((none, some e), (st.1, st.2 + 1))
    else ((repo.GetRefreshToken token st.1).1, ((repo.GetRefreshToken token st.1).2, st.2 + 1))
  DeleteRefreshToken := fun token st =>
    if st.2 = k then (some e, (st.1, st.2 + 1))
    else ((repo.DeleteRefreshToken token st.1).1,
      ((repo.DeleteRefreshToken token st.1).2, st.2 + 1))

/-- The service over the MySQL repository whose call number `k` fails with `e`. -/
def failingService (dbNow : Time) (jwtSecret : String) (k : Nat) (e : Err) :
    Service (Store × Nat) :=
  NewService ((NewMySQLRepository dbNow).failNth k e) jwtSecret

end user

/-! ## internal/config/config.go -/

namespace config

open user (Duration)

structure Config where
  DBHost : String
  DBPort : String
  DBUser : String
  DBPassword : String
  DBName : String
  JWTSecret : String
  AccessTokenDuration : Duration
  RefreshTokenDuration : Duration
  ServerPort : String
  MaxOpenConns : Int
  MaxIdleConns : Int
  ConnMaxLifetime : Duration
  deriving DecidableEq, Repr

/-- The process environment as `os.LookupEnv` reads it: `none` for a variable
that is not set, `some v` for one set to `v` (the empty string included). -/
abbrev Env := String → Option String

/-- The library functions `Load` calls, taken as given: `time.ParseDuration` and
`strconv.Atoi`, each with the text of its error. -/
structure Lib where
  ParseDuration : String → Except String Duration
  Atoi : String → Except String Int

/-- What `Load` does: `(cfg, nil)`, `(nil, err)` with the text of the error, or a
run-time panic with its text. -/
inductive LoadResult where
  | ok (cfg : Config)
  | error (msg : String)
  | panicked (msg : String)
  deriving DecidableEq, Repr

/-- The function `getEnv` (config.go:107-116); `defaultValue` is the variadic
argument. -/
def getEnv (env : Env) (key : String) (defaultValue : List String) : String :=
  match env key with
  | none =>
    match defaultValue with
    | d :: _ => d
    | [] => ""
  | some value => value

/-- The slice expression `s[:n]` on a string: its first `n` bytes, a run-time
panic when the string has fewer. -/
def sliceTo (s : String) (n : Nat) : Except String (List UInt8) :=
  if n ≤ s.utf8ByteSize then .ok (s.toUTF8.data.toList.take n)
  else
    .error ("runtime error: slice bounds out of range [:" ++ toString n ++ "] with length " ++
      toString s.utf8ByteSize)

/-- The function `Load` (config.go:32-105). The lines `fmt.Printf` writes are not
kept; the argument of each is evaluated, in order. -/
def Load (lib : Lib) (env : Env) : LoadResult :=
  match lib.ParseDuration (getEnv env "ACCESS_TOKEN_DURATION" ["5m"]) with
  | .error err => .error ("Invalid ACCESS_TOKEN_DURATION: " ++ err)
  | .ok accessTokenDuration =>
  match lib.ParseDuration (getEnv env "REFRESH_TOKEN_DURATION" ["24h"]) with
  | .error err => .error ("Invalid REFRESH_TOKEN_DURATION: " ++ err)
  | .ok refreshTokenDuration =>
  match lib.ParseDuration (getEnv env "DB_CONN_MAX_LIFETIME" ["5m"]) with
  | .error err => .error ("Invalid DB_CONN_MAX_LIFETIME: " ++ err)
  | .ok connMaxLifetime =>
  match lib.Atoi (getEnv env "DB_MAX_OPEN_CONNS" ["25"]) with
  | .error err => .error ("Invalid DB_MAX_OPEN_CONNS: " ++ err)
  | .ok maxOpenConns =>
  match lib.Atoi (getEnv env "DB_MAX_IDLE_CONNS" ["25"]) with
  | .error err => .error ("Invalid DB_MAX_IDLE_CONNS: " ++ err)
  | .ok maxIdleConns =>
    let cfg : Config :=
      { DBHost := getEnv env "DB_HOST" ["localhost"]
        DBPort := getEnv env "DB_PORT" ["3306"]
        DBUser := getEnv env "DB_USER" ["root"]
        DBPassword := getEnv env "DB_PASSWORD" []
        DBName := getEnv env "DB_NAME" ["brokerapp"]
        JWTSecret := getEnv env "JWT_SECRET" []
        AccessTokenDuration := accessTokenDuration
        RefreshTokenDuration := refreshTokenDuration
        ServerPort := getEnv env "SERVER_PORT" ["8080"]
        MaxOpenConns := maxOpenConns
        MaxIdleConns := maxIdleConns
        ConnMaxLifetime := connMaxLifetime }
    if cfg.DBPassword = "" then .error "DB_PASSWORD is required"
    else if cfg.JWTSecret = "" then .error "JWT_SECRET is required"
    else
      match sliceTo cfg.JWTSecret 5 with
      | .error p => .panicked p
      | .ok _ => .ok cfg

/-- A concrete instance of the library functions: each knows a few literals and
answers every other string, the empty one included, with the error text of Go. -/
def demoLib : Lib where
  ParseDuration := fun s =>
    if s = "1s" then .ok user.Second
    else if s = "5m" then .ok (5 * user.Minute)
    else if s = "24h" then .ok (24 * user.Hour)
    else .error ("time: invalid duration \"" ++ s ++ "\"")
  Atoi := fun s =>
    if s = "10" then .ok 10
    else if s = "25" then .ok 25
    else if s = "100" then .ok 100
    else .error ("strconv.Atoi: parsing \"" ++ s ++ "\": invalid syntax")

/-- The environment in which only `DB_PASSWORD` and `JWT_SECRET` are set. -/
def envWith (dbPassword jwtSecret : String) : Env := fun key =>
  if key = "DB_PASSWORD" then some dbPassword
  else if key = "JWT_SECRET" then some jwtSecret
  else none

end config

namespace user

/-- A store in which user 1 has two refresh-token rows and user 2 has one. -/
def twoTokenStore : Store :=
  { users := []
    refresh_tokens :=
      [ { UserID := 1, Token := "old-1", ExpiresAt := t2026 }
      , { UserID := 2, Token := "other", ExpiresAt := t2026 }
      , { UserID := 1, Token := "old-2", ExpiresAt := t2026 } ]
    nextID := 3 }

/-- The empty database on which the seventh statement to come is refused: in
the run `demoOps`, the `DELETE` inside the `StoreRefreshToken` of the login. -/
def demoFaultyDatabase : Database :=
  { store := emptyStore
    answers :=
      [.ok, .ok, .ok, .ok, .ok, .ok,
        .failed "failed to execute query: dial tcp: connection refused"] }

end user

namespace db

open user (Time Second t2026)

/-- A lookup that starts 29.9 s after `t2026` and ends 30.1 s after it: on the
breaker of `NewMySQL` built at `t2026`, across the end of the first counting
window. -/
def straddlingLookup : QueryRowCall user.User :=
  { nowBefore := t2026 + 29900 * 1000000, nowAfter := t2026 + 30100 * 1000000
    answer := user.demoUserRow }

end db

/-! # Theorems -/

namespace user

/-! ## Helper lemmas: the repository on a database that runs every statement -/

theorem healthy_CreateUser (dbNow : Time) (user : User) (st : Store) :
    (NewMySQLRepository dbNow).CreateUser user st =
      (none, { st with
        users := st.users ++
          [{ ID := st.nextID, Email := user.Email, Password := user.Password
             CreatedAt := dbNow }]
        nextID := st.nextID + 1 }) := rfl

theorem healthy_GetUserByEmail (dbNow : Time) (email : String) (st : Store) :
    (NewMySQLRepository dbNow).GetUserByEmail email st =
      (match st.users.find? (fun u => u.Email == email) with
        | some u => ((some u, none), st)
        | none => ((none, some Err.ErrUserNotFound), st)) := by
  simp only [NewMySQLRepository, onTables, MySQLRepository.GetUserByEmail, Database.QueryRow]
  cases st.users.find? (fun u => u.Email == email) <;> rfl

theorem healthy_GetUserByID (dbNow : Time) (id : Int) (st : Store) :
    (NewMySQLRepository dbNow).GetUserByID id st =
      (match st.users.find? (fun u => u.ID == id) with
        | some u => ((some u, none), st)
        | none => ((none, some Err.ErrUserNotFound), st)) := by
  simp only [NewMySQLRepository, onTables, MySQLRepository.GetUserByID, Database.QueryRow]
  cases st.users.find? (fun u => u.ID == id) <;> rfl

theorem healthy_StoreRefreshToken (dbNow : Time) (userID : Int) (token : String)
    (expiresAt : Time) (st : Store) :
    (NewMySQLRepository dbNow).StoreRefreshToken userID token expiresAt st =
      (none, { st with
        refresh_tokens := st.refresh_tokens.filter (fun r => r.UserID != userID) ++
          [{ UserID := userID, Token := token, ExpiresAt := expiresAt }] }) := rfl

theorem healthy_GetRefreshToken (dbNow : Time) (token : String) (st : Store) :
    (NewMySQLRepository dbNow).GetRefreshToken token st =
      (match st.refresh_tokens.find? (fun r => r.Token == token) with
        | some r => ((some r, none), st)
        | none => ((none, some Err.ErrRefreshTokenNotFound), st)) := by
  simp only [NewMySQLRepository, onTables, MySQLRepository.GetRefreshToken, Database.QueryRow]
  cases st.refresh_tokens.find? (fun r => r.Token == token) <;> rfl

theorem healthy_DeleteRefreshToken (dbNow : Time) (token : String) (st : Store) :
    (NewMySQLRepository dbNow).DeleteRefreshToken token st =
      (none, { st with
        refresh_tokens := st.refresh_tokens.filter (fun r => r.Token != token) }) := rfl

end user

namespace user

/-! ## Helper lemmas: the refresh-token table -/

theorem find_token_filter_ne (rows : List RefreshToken) (t : String) :
    (rows.filter (fun r => r.Token != t)).find? (fun r => r.Token == t) = none := by
  rw [List.find?_eq_none]
  intro r hr
  simp only [List.mem_filter] at hr
  simpa using hr.2

theorem find_token_none_of_forall (rows : List RefreshToken) (t : String)
    (h : ∀ r ∈ rows, r.Token ≠ t) :
    rows.find? (fun r => r.Token == t) = none := by
  rw [List.find?_eq_none]
  intro r hr
  simpa using h r hr

/-- A refresh on the MySQL repository with a stored token that has not expired:
the row is deleted and a pair is issued for the row's user. -/
theorem RefreshToken_live (lib : Lib) (dbNow : Time) (secret : String) (amb : Ambient)
    (t : String) (st : Store) (row : RefreshToken)
    (hfind : st.refresh_tokens.find? (fun r => r.Token == t) = some row)
    (hlive : After amb.nowCheck row.ExpiresAt = false) :
    (mysqlService dbNow secret).RefreshToken lib amb t st =
      { out := .ok
          { AccessToken :=
              lib.SignedString secret row.UserID (Unix (amb.nowAccess + accessTokenDuration lib amb))
            RefreshToken :=
              lib.SignedString secret row.UserID
                (Unix (amb.nowRefresh + refreshTokenDuration lib amb)) }
        st :=
          { st with
            refresh_tokens :=
              ((st.refresh_tokens.filter (fun r => r.Token != t)).filter
                  (fun r => r.UserID != row.UserID)) ++
                [{ UserID := row.UserID
                   Token := lib.SignedString secret row.UserID
                     (Unix (amb.nowRefresh + refreshTokenDuration lib amb))
                   ExpiresAt := amb.nowStore + refreshTokenDuration lib amb }] }
        calls :=
          [ .GetRefreshToken t, .DeleteRefreshToken t
          , .StoreRefreshToken row.UserID
              (lib.SignedString secret row.UserID
                (Unix (amb.nowRefresh + refreshTokenDuration lib amb)))
              (amb.nowStore + refreshTokenDuration lib amb) ] } := by
  simp [Service.RefreshToken, mysqlService, NewService, healthy_CreateUser, healthy_GetUserByEmail, healthy_GetUserByID,
    healthy_StoreRefreshToken, healthy_GetRefreshToken, healthy_DeleteRefreshToken,
    Service.generateTokens, Run.after, hfind, hlive]

/-- A refresh on the MySQL repository that issues the presented string again
(same user, same expiry second) stores it again: a second refresh with it
succeeds as long as the new row has not expired. This holds for every signing
function. -/
theorem RefreshToken_replay (lib : Lib) (dbNow1 dbNow2 : Time) (secret : String)
    (amb1 amb2 : Ambient) (t : String) (st : Store) (row : RefreshToken)
    (hfind : st.refresh_tokens.find? (fun r => r.Token == t) = some row)
    (hlive : After amb1.nowCheck row.ExpiresAt = false)
    (hsame : lib.SignedString secret row.UserID
        (Unix (amb1.nowRefresh + refreshTokenDuration lib amb1)) = t)
    (hlive2 : After amb2.nowCheck (amb1.nowStore + refreshTokenDuration lib amb1) = false) :
    ((mysqlService dbNow2 secret).RefreshToken lib amb2 t
        ((mysqlService dbNow1 secret).RefreshToken lib amb1 t st).st).out =
      .ok (issuedPair lib secret amb2 row.UserID) := by
  rw [RefreshToken_live lib dbNow1 secret amb1 t st row hfind hlive]
  have hfind2 :
      (((st.refresh_tokens.filter (fun r => r.Token != t)).filter
            (fun r => r.UserID != row.UserID)) ++
          [({ UserID := row.UserID
              Token := lib.SignedString secret row.UserID
                (Unix (amb1.nowRefresh + refreshTokenDuration lib amb1))
              ExpiresAt := amb1.nowStore + refreshTokenDuration lib amb1 } : RefreshToken)]).find?
        (fun r => r.Token == t) =
      some { UserID := row.UserID
             Token := lib.SignedString secret row.UserID
               (Unix (amb1.nowRefresh + refreshTokenDuration lib amb1))
             ExpiresAt := amb1.nowStore + refreshTokenDuration lib amb1 } := by
    rw [List.find?_append, find_token_none_of_forall]
    · simp [hsame]
    · intro r hr
      simp only [List.mem_filter] at hr
      simpa using hr.1.2
  rw [RefreshToken_live lib dbNow2 secret amb2 t _ _ hfind2 hlive2]
  rfl

/-- A refresh on the MySQL repository with a token no row carries. -/
theorem RefreshToken_absent (lib : Lib) (dbNow : Time) (secret : String) (amb : Ambient)
    (t : String) (st : Store)
    (hfind : st.refresh_tokens.find? (fun r => r.Token == t) = none) :
    (mysqlService dbNow secret).RefreshToken lib amb t st =
      { out := .error Err.ErrRefreshTokenNotFound, st := st, calls := [.GetRefreshToken t] } := by
  simp [Service.RefreshToken, mysqlService, NewService, healthy_CreateUser, healthy_GetUserByEmail, healthy_GetUserByID,
    healthy_StoreRefreshToken, healthy_GetRefreshToken, healthy_DeleteRefreshToken, hfind]

end user

namespace user

/-! ## C1: refresh tokens are single-use -/

/-- C1, as stated, fails: the token returned by a sign-up is stored and not
expired, a refresh with it 200 ms later succeeds, and a second refresh with the
same token 400 ms after the sign-up succeeds again (it does not fail with
`ErrRefreshTokenNotFound`): the pair issued by the first refresh carries the
same claims, so the same string was stored again. -/
theorem C1_counterexample :
    demoSignUp.out = .ok demoPairA ∧
    demoSignUp.st.refresh_tokens.find? (fun r => r.Token == demoPairA.RefreshToken) =
      some { UserID := 1, Token := demoPairA.RefreshToken, ExpiresAt := t2026 + 24 * Hour } ∧
    After (ambAt t2026 200).nowCheck (t2026 + 24 * Hour) = false ∧
    demoRefresh1.out = .ok demoPairA ∧
    demoRefresh2.out = .ok demoPairA ∧
    demoRefresh2.out ≠ .error Err.ErrRefreshTokenNotFound := by
  decide

/-- C1, amended: on the MySQL repository, for every store, every stored token
`t` (the row a lookup by `t` returns is `row`) that is not expired at the first
call, and every reading of the clock and of the environment in both calls,
`RefreshToken(t)` succeeds, and a second `RefreshToken(t)` fails with
`ErrRefreshTokenNotFound` and changes nothing, provided the refresh token the
first call issues is not the string `t` itself. -/
theorem C1_refresh_single_use (lib : Lib) (dbNow1 dbNow2 : Time) (secret : String)
    (amb1 amb2 : Ambient) (t : String) (st : Store) (row : RefreshToken)
    (hfind : st.refresh_tokens.find? (fun r => r.Token == t) = some row)
    (hlive : After amb1.nowCheck row.ExpiresAt = false)
    (hnew : lib.SignedString secret row.UserID
        (Unix (amb1.nowRefresh + refreshTokenDuration lib amb1)) ≠ t) :
    (∃ resp, ((mysqlService dbNow1 secret).RefreshToken lib amb1 t st).out = .ok resp) ∧
    (mysqlService dbNow2 secret).RefreshToken lib amb2 t
        ((mysqlService dbNow1 secret).RefreshToken lib amb1 t st).st =
      { out := .error Err.ErrRefreshTokenNotFound
        st := ((mysqlService dbNow1 secret).RefreshToken lib amb1 t st).st
        calls := [.GetRefreshToken t] } := by
  rw [RefreshToken_live lib dbNow1 secret amb1 t st row hfind hlive]
  refine ⟨⟨_, rfl⟩, ?_⟩
  apply RefreshToken_absent
  apply find_token_none_of_forall
  intro r hr
  simp only [List.mem_append, List.mem_filter, List.mem_singleton] at hr
  rcases hr with ⟨⟨_, h⟩, _⟩ | rfl
  · simpa using h
  · exact hnew

/-- C1, amended, at a concrete input: the refresh two seconds after the
sign-up, followed by a second presentation of the same token. -/
theorem C1_refresh_single_use_witness :
    (∃ resp, demoRefreshLater.out = .ok resp) ∧
    demoService.RefreshToken demoLib (ambAt t2026 2400) demoTokenA demoRefreshLater.st =
      { out := .error Err.ErrRefreshTokenNotFound
        st := demoRefreshLater.st
        calls := [.GetRefreshToken demoTokenA] } :=
  C1_refresh_single_use demoLib t2026 t2026 "test-secret" (ambAt t2026 2000) (ambAt t2026 2400)
    demoTokenA demoSignUp.st
    { UserID := 1, Token := demoTokenA, ExpiresAt := t2026 + 0 * 1000000 + 24 * Hour }
    (by decide) (by decide) (by decide)

end user

namespace user

/-! ## Helper lemmas: the stand-in signing function reads back its claims -/

theorem bitsAux_delimited :
    ∀ (f f2 n m : Nat) (xs ys : List Char), n ≤ f → m ≤ f2 →
      bitsAux f n ++ '.' :: xs = bitsAux f2 m ++ '.' :: ys → n = m ∧ xs = ys := by
  intro f
  induction f with
  | zero =>
    intro f2 n m xs ys hn hm h
    have hn0 : n = 0 := by omega
    subst hn0
    cases f2 with
    | zero =>
      have hm0 : m = 0 := by omega
      subst hm0
      simpa [bitsAux] using h
    | succ f2 =>
      by_cases hm0 : m = 0
      · subst hm0
        simpa [bitsAux] using h
      · exfalso
        by_cases hb : m % 2 = 1 <;> simp [bitsAux, hm0, hb] at h
  | succ f ih =>
    intro f2 n m xs ys hn hm h
    by_cases hn0 : n = 0
    · subst hn0
      cases f2 with
      | zero =>
        have hm0 : m = 0 := by omega
        subst hm0
        simpa [bitsAux] using h
      | succ f2 =>
        by_cases hm0 : m = 0
        · subst hm0
          simpa [bitsAux] using h
        · exfalso
          by_cases hb : m % 2 = 1 <;> simp [bitsAux, hm0, hb] at h
    · cases f2 with
      | zero =>
        have hm0 : m = 0 := by omega
        subst hm0
        exfalso
        by_cases hb : n % 2 = 1 <;> simp [bitsAux, hn0, hb] at h
      | succ f2 =>
        by_cases hm0 : m = 0
        · subst hm0
          exfalso
          by_cases hb : n % 2 = 1 <;> simp [bitsAux, hn0, hb] at h
        · have hn2 : n / 2 ≤ f := by omega
          have hm2 : m / 2 ≤ f2 := by omega
          by_cases hb : n % 2 = 1 <;> by_cases hc : m % 2 = 1 <;>
            simp [bitsAux, hn0, hm0, hb, hc] at h
          · obtain ⟨h1, h2⟩ := ih f2 (n / 2) (m / 2) xs ys hn2 hm2 h
            exact ⟨by omega, h2⟩
          · obtain ⟨h1, h2⟩ := ih f2 (n / 2) (m / 2) xs ys hn2 hm2 h
            exact ⟨by omega, h2⟩

theorem encInt_delimited (i j : Int) (xs ys : List Char)
    (h : encInt i ++ xs = encInt j ++ ys) : i = j ∧ xs = ys := by
  simp only [encInt, List.cons_append, List.append_assoc, List.singleton_append,
    List.cons.injEq] at h
  obtain ⟨hs, hb⟩ := h
  obtain ⟨hab, hxs⟩ :=
    bitsAux_delimited i.natAbs j.natAbs i.natAbs j.natAbs xs ys le_rfl le_rfl hb
  refine ⟨?_, hxs⟩
  by_cases hi : i < 0 <;> by_cases hj : j < 0 <;> simp [hi, hj] at hs <;> omega

theorem demoSign_claims (secret : String) (u e u2 e2 : Int)
    (h : demoSign secret u e = demoSign secret u2 e2) : u = u2 ∧ e = e2 := by
  have hd := congrArg String.data h
  simp only [demoSign, List.append_assoc] at hd
  obtain ⟨hu, h1⟩ := encInt_delimited u u2 _ _ hd
  obtain ⟨he, _⟩ := encInt_delimited e e2 _ _ h1
  exact ⟨hu, he⟩

end user

namespace user

/-! ## Helper lemmas: what a successful call returns, over any repository -/

theorem generateTokens_ok {σ : Type} (s : Service σ) (lib : Lib) (amb : Ambient)
    (userID : Int) (st : σ) (A : TokenResponse)
    (h : (s.generateTokens lib amb userID st).out = .ok A) :
    A = issuedPair lib s.jwtSecret amb userID := by
  simp only [Service.generateTokens] at h
  split at h
  · simp at h
  · simp only [Outcome.ok.injEq] at h
    rw [← h]; rfl

theorem SignUp_ok {σ : Type} (s : Service σ) (lib : Lib) (amb : Ambient)
    (req : SignUpRequest) (st : σ) (A : TokenResponse)
    (h : (s.SignUp lib amb req st).out = .ok A) :
    ∃ userID, A = issuedPair lib s.jwtSecret amb userID := by
  simp only [Service.SignUp, Run.after] at h
  repeat' split at h
  all_goals first
    | (simp at h; done)
    | exact ⟨_, generateTokens_ok s lib amb _ _ A h⟩

theorem Login_ok {σ : Type} (s : Service σ) (lib : Lib) (amb : Ambient)
    (req : LoginRequest) (st : σ) (A : TokenResponse)
    (h : (s.Login lib amb req st).out = .ok A) :
    ∃ userID, A = issuedPair lib s.jwtSecret amb userID := by
  simp only [Service.Login, Run.after] at h
  repeat' split at h
  all_goals first
    | (simp at h; done)
    | exact ⟨_, generateTokens_ok s lib amb _ _ A h⟩

theorem RefreshToken_ok {σ : Type} (s : Service σ) (lib : Lib) (amb : Ambient)
    (t : String) (st : σ) (A : TokenResponse)
    (h : (s.RefreshToken lib amb t st).out = .ok A) :
    ∃ userID, A = issuedPair lib s.jwtSecret amb userID := by
  simp only [Service.RefreshToken, Run.after] at h
  repeat' split at h
  all_goals first
    | (simp at h; done)
    | exact ⟨_, generateTokens_ok s lib amb _ _ A h⟩

/-! ## C2: rotation replaces the token -/

/-- C2, as stated, fails: the sign-up returns the pair `demoPairA`, and the
refresh with its refresh token 200 ms later returns a pair `B` that is the
same pair, refresh token included. -/
theorem C2_counterexample :
    demoSignUp.out = .ok demoPairA ∧
    demoService.RefreshToken demoLib (ambAt t2026 200) demoPairA.RefreshToken demoSignUp.st
      = demoRefresh1 ∧
    demoRefresh1.out = .ok demoPairA :=
  ⟨by decide, rfl, by decide⟩

/-- C2, amended: over any repository, if SignUp or Login returns the pair `A`
and a later `RefreshToken(A.RefreshToken)` returns the pair `B`, then `B` and
its refresh token differ from `A` and its refresh token whenever the two
refresh expiries (the clock reading plus the refresh duration, line 137) fall
in different Unix seconds; the claims are taken to be readable from a signed
string. -/
theorem C2_rotation_replaces {σ : Type} (s : Service σ) (lib : Lib)
    (ambA ambB : Ambient) (reqS : SignUpRequest) (reqL : LoginRequest) (st st2 : σ)
    (A B : TokenResponse)
    (hinj : ∀ u e u2 e2 : Int,
      lib.SignedString s.jwtSecret u e = lib.SignedString s.jwtSecret u2 e2 → u = u2 ∧ e = e2)
    (hA : (s.SignUp lib ambA reqS st).out = .ok A ∨ (s.Login lib ambA reqL st).out = .ok A)
    (hB : (s.RefreshToken lib ambB A.RefreshToken st2).out = .ok B)
    (hsec : Unix (ambA.nowRefresh + refreshTokenDuration lib ambA) ≠
      Unix (ambB.nowRefresh + refreshTokenDuration lib ambB)) :
    B.RefreshToken ≠ A.RefreshToken ∧ B ≠ A := by
  have hA2 : ∃ userID, A = issuedPair lib s.jwtSecret ambA userID := by
    rcases hA with hA | hA
    · exact SignUp_ok s lib ambA reqS st A hA
    · exact Login_ok s lib ambA reqL st A hA
  obtain ⟨uA, rfl⟩ := hA2
  obtain ⟨uB, rfl⟩ := RefreshToken_ok s lib ambB _ st2 B hB
  have hne : (issuedPair lib s.jwtSecret ambB uB).RefreshToken ≠
      (issuedPair lib s.jwtSecret ambA uA).RefreshToken := by
    intro h
    exact hsec (hinj _ _ _ _ h).2.symm
  exact ⟨hne, fun h => hne (by rw [h])⟩

/-- C2, amended, at a concrete input: the sign-up at `t2026` and the refresh
two seconds later. -/
theorem C2_rotation_replaces_witness :
    (issuedPair demoLib "test-secret" (ambAt t2026 2000) 1).RefreshToken ≠ demoPairA.RefreshToken ∧
    issuedPair demoLib "test-secret" (ambAt t2026 2000) 1 ≠ demoPairA :=
  C2_rotation_replaces demoService demoLib (ambAt t2026 0) (ambAt t2026 2000)
    demoSignUpRequest { Email := "a@x.com", Password := "secret1" } emptyStore demoSignUp.st
    demoPairA (issuedPair demoLib "test-secret" (ambAt t2026 2000) 1)
    (fun u e u2 e2 h => demoSign_claims "test-secret" u e u2 e2 h)
    (Or.inl (by decide)) (by decide) (by decide)

end user

namespace user

/-! ## C3: an expired refresh token is consumed -/

/-- A refresh on the database with a stored token that has expired, when the
lookup and the `DELETE` both run. -/
theorem RefreshToken_expired_run (lib : Lib) (dbNow : Time) (secret : String) (amb : Ambient)
    (t : String) (db : Database) (row : RefreshToken)
    (hfind : db.store.refresh_tokens.find? (fun r => r.Token == t) = some row)
    (hexp : row.ExpiresAt < amb.nowCheck)
    (hrun : ∀ a ∈ db.answers.take 2, a = Answer.ok) :
    (dbService dbNow secret).RefreshToken lib amb t db =
      { out := .error Err.ErrTokenExpired
        st :=
          { store :=
              { db.store with
                refresh_tokens := db.store.refresh_tokens.filter (fun r => r.Token != t) }
            answers := db.answers.drop 2 }
        calls := [.GetRefreshToken t, .DeleteRefreshToken t] } := by
  obtain ⟨st, answers⟩ := db
  simp only at hfind
  rcases answers with _ | ⟨a, _ | ⟨b, rest⟩⟩
  · simp [Service.RefreshToken, dbService, NewService, MySQLRepository.over,
      MySQLRepository.GetRefreshToken, MySQLRepository.DeleteRefreshToken, Database.QueryRow,
      Database.Exec, hfind, After, hexp]
  · have ha : a = Answer.ok := hrun a (by simp)
    subst ha
    simp [Service.RefreshToken, dbService, NewService, MySQLRepository.over,
      MySQLRepository.GetRefreshToken, MySQLRepository.DeleteRefreshToken, Database.QueryRow,
      Database.Exec, hfind, After, hexp]
  · have ha : a = Answer.ok := hrun a (by simp)
    have hb : b = Answer.ok := hrun b (by simp)
    subst ha
    subst hb
    simp [Service.RefreshToken, dbService, NewService, MySQLRepository.over,
      MySQLRepository.GetRefreshToken, MySQLRepository.DeleteRefreshToken, Database.QueryRow,
      Database.Exec, hfind, After, hexp]

/-- A refresh on the database whose lookup the database refuses. -/
theorem RefreshToken_lookup_refused (lib : Lib) (dbNow : Time) (secret : String)
    (amb : Ambient) (t : String) (db : Database) (msg : String)
    (hmsg : db.answers.head? = some (.failed msg)) :
    (dbService dbNow secret).RefreshToken lib amb t db =
      { out := .error (.other msg)
        st := { store := db.store, answers := db.answers.tail }
        calls := [.GetRefreshToken t] } := by
  obtain ⟨st, answers⟩ := db
  cases answers with
  | nil => simp at hmsg
  | cons a rest =>
    simp only [List.head?_cons, Option.some.injEq] at hmsg
    subst hmsg
    simp [Service.RefreshToken, dbService, NewService, MySQLRepository.over,
      MySQLRepository.GetRefreshToken, Database.QueryRow]

/-- A refresh on the database with a stored token, when the lookup runs and the
database refuses the `DELETE`: the error is returned and the tables are as they
were. -/
theorem RefreshToken_delete_refused (lib : Lib) (dbNow : Time) (secret : String)
    (amb : Ambient) (t : String) (st : Store) (row : RefreshToken) (msg : String)
    (rest : List Answer)
    (hfind : st.refresh_tokens.find? (fun r => r.Token == t) = some row) :
    (dbService dbNow secret).RefreshToken lib amb t
        { store := st, answers := .ok :: .failed msg :: rest } =
      { out := .error (.other msg)
        st := { store := st, answers := rest }
        calls := [.GetRefreshToken t, .DeleteRefreshToken t] } := by
  by_cases hexp : After amb.nowCheck row.ExpiresAt = true <;>
  simp [Service.RefreshToken, dbService, NewService, MySQLRepository.over,
    MySQLRepository.GetRefreshToken, MySQLRepository.DeleteRefreshToken, Database.QueryRow,
    Database.Exec, hfind, hexp]

/-- A refresh on the database with a stored token, when the lookup and the
`DELETE` run and `RowsAffected` of its result reports an error: the error is
returned, and the rows of the token are gone. -/
theorem RefreshToken_delete_uncounted (lib : Lib) (dbNow : Time) (secret : String)
    (amb : Ambient) (t : String) (st : Store) (row : RefreshToken) (msg : String)
    (rest : List Answer)
    (hfind : st.refresh_tokens.find? (fun r => r.Token == t) = some row) :
    (dbService dbNow secret).RefreshToken lib amb t
        { store := st, answers := .ok :: .noCount msg :: rest } =
      { out := .error (.other msg)
        st :=
          { store :=
              { st with refresh_tokens := st.refresh_tokens.filter (fun r => r.Token != t) }
            answers := rest }
        calls := [.GetRefreshToken t, .DeleteRefreshToken t] } := by
  by_cases hexp : After amb.nowCheck row.ExpiresAt = true <;>
  simp [Service.RefreshToken, dbService, NewService, MySQLRepository.over,
    MySQLRepository.GetRefreshToken, MySQLRepository.DeleteRefreshToken, Database.QueryRow,
    Database.Exec, hfind, hexp]

/-- A refresh on the database with a token no row carries, when the lookup is
answered. -/
theorem RefreshToken_absent_run (lib : Lib) (dbNow : Time) (secret : String) (amb : Ambient)
    (t : String) (db : Database)
    (hfind : db.store.refresh_tokens.find? (fun r => r.Token == t) = none)
    (hrun : ∀ msg, db.answers.head? ≠ some (.failed msg)) :
    (dbService dbNow secret).RefreshToken lib amb t db =
      { out := .error Err.ErrRefreshTokenNotFound
        st := { store := db.store, answers := db.answers.tail }
        calls := [.GetRefreshToken t] } := by
  obtain ⟨st, answers⟩ := db
  simp only at hfind
  rcases answers with _ | ⟨_ | msg | msg, rest⟩
  · simp [Service.RefreshToken, dbService, NewService, MySQLRepository.over,
      MySQLRepository.GetRefreshToken, Database.QueryRow, hfind]
  · simp [Service.RefreshToken, dbService, NewService, MySQLRepository.over,
      MySQLRepository.GetRefreshToken, Database.QueryRow, hfind]
  · exact absurd rfl (hrun msg)
  · simp [Service.RefreshToken, dbService, NewService, MySQLRepository.over,
      MySQLRepository.GetRefreshToken, Database.QueryRow, hfind]

/-- A refresh on the database with a stored token that has expired never calls
`StoreRefreshToken` and never returns a pair, whatever the database does. -/
theorem RefreshToken_expired_no_store (lib : Lib) (dbNow : Time) (secret : String)
    (amb : Ambient) (t : String) (db : Database) (row : RefreshToken)
    (hfind : db.store.refresh_tokens.find? (fun r => r.Token == t) = some row)
    (hexp : row.ExpiresAt < amb.nowCheck) :
    (∀ c ∈ ((dbService dbNow secret).RefreshToken lib amb t db).calls,
      c = .GetRefreshToken t ∨ c = .DeleteRefreshToken t) ∧
    (∀ resp, ((dbService dbNow secret).RefreshToken lib amb t db).out ≠ .ok resp) := by
  obtain ⟨st, answers⟩ := db
  simp only at hfind
  rcases answers with _ | ⟨_ | m | m, _ | ⟨_ | m2 | m2, rest⟩⟩ <;>
  simp [Service.RefreshToken, dbService, NewService, MySQLRepository.over,
    MySQLRepository.GetRefreshToken, MySQLRepository.DeleteRefreshToken, Database.QueryRow,
    Database.Exec, hfind, After, hexp]

end user

namespace user

/-- C3, as stated, fails: the store holds a refresh token that expired an hour
earlier; the lookup runs and the database refuses the `DELETE` (connection
refused). `RefreshToken` returns that error and not `ErrTokenExpired`, the row
stays, and a second presentation of the token, with every statement running,
yields `ErrTokenExpired`, not `ErrRefreshTokenNotFound`. -/
theorem C3_counterexample :
    demoExpiredStore.refresh_tokens.find? (fun r => r.Token == "expired-refresh-token") =
      some { UserID := 1, Token := "expired-refresh-token", ExpiresAt := t2026 - Hour } ∧
    t2026 - Hour < (ambAt t2026 0).nowCheck ∧
    ((dbService t2026 "test-secret").RefreshToken demoLib (ambAt t2026 0)
        "expired-refresh-token"
        { store := demoExpiredStore
          answers := [.ok, .failed "failed to execute query: dial tcp: connection refused"] }).out =
      .error (.other "failed to execute query: dial tcp: connection refused") ∧
    ((dbService t2026 "test-secret").RefreshToken demoLib (ambAt t2026 0)
        "expired-refresh-token"
        { store := demoExpiredStore
          answers := [.ok, .failed "failed to execute query: dial tcp: connection refused"] }).st =
      { store := demoExpiredStore, answers := [] } ∧
    ((dbService t2026 "test-secret").RefreshToken demoLib (ambAt t2026 5000)
        "expired-refresh-token" { store := demoExpiredStore, answers := [] }).out =
      .error Err.ErrTokenExpired := by
  decide

/-- C3, amended: on the MySQL repository, for every database and every stored
token `t` whose row has `ExpiresAt` before the clock reading of line 96:
whatever the database does, `RefreshToken(t)` calls nothing but
`GetRefreshToken` and `DeleteRefreshToken` (no `StoreRefreshToken`) and returns
no pair. When the lookup and the `DELETE` run, it returns
`(nil, ErrTokenExpired)` and leaves the table without any row of token `t` and
otherwise as it was, and a second `RefreshToken(t)` whose lookup is answered,
at any clock reading, returns `(nil, ErrRefreshTokenNotFound)`. When the lookup
fails with a storage error, that error is returned. When the `DELETE` fails with
a storage error, that error is returned, the tables are as they were, and a
second `RefreshToken(t)` whose two statements run returns `(nil, ErrTokenExpired)`
again. When the `DELETE` runs and only `RowsAffected` reports an error, that
error is returned and the rows of token `t` are gone. -/
theorem C3_expired_token_consumed (lib : Lib) (dbNow1 dbNow2 : Time) (secret : String)
    (amb1 amb2 : Ambient) (t : String) (db : Database) (row : RefreshToken)
    (hfind : db.store.refresh_tokens.find? (fun r => r.Token == t) = some row)
    (hexp : row.ExpiresAt < amb1.nowCheck) :
    ((∀ c ∈ ((dbService dbNow1 secret).RefreshToken lib amb1 t db).calls,
        c = .GetRefreshToken t ∨ c = .DeleteRefreshToken t) ∧
      (∀ resp, ((dbService dbNow1 secret).RefreshToken lib amb1 t db).out ≠ .ok resp)) ∧
    ((∀ a ∈ db.answers.take 2, a = Answer.ok) →
      (dbService dbNow1 secret).RefreshToken lib amb1 t db =
        { out := .error Err.ErrTokenExpired
          st :=
            { store :=
                { db.store with
                  refresh_tokens := db.store.refresh_tokens.filter (fun r => r.Token != t) }
              answers := db.answers.drop 2 }
          calls := [.GetRefreshToken t, .DeleteRefreshToken t] } ∧
      (∀ r ∈ ((dbService dbNow1 secret).RefreshToken lib amb1 t db).st.store.refresh_tokens,
        r.Token ≠ t) ∧
      ((∀ msg, (db.answers.drop 2).head? ≠ some (.failed msg)) →
        (dbService dbNow2 secret).RefreshToken lib amb2 t
            ((dbService dbNow1 secret).RefreshToken lib amb1 t db).st =
          { out := .error Err.ErrRefreshTokenNotFound
            st :=
              { store := ((dbService dbNow1 secret).RefreshToken lib amb1 t db).st.store
                answers := (db.answers.drop 2).tail }
            calls := [.GetRefreshToken t] })) ∧
    (∀ msg, db.answers.head? = some (.failed msg) →
      (dbService dbNow1 secret).RefreshToken lib amb1 t db =
        { out := .error (.other msg)
          st := { store := db.store, answers := db.answers.tail }
          calls := [.GetRefreshToken t] }) ∧
    (∀ msg rest, db.answers = .ok :: .failed msg :: rest →
      (dbService dbNow1 secret).RefreshToken lib amb1 t db =
        { out := .error (.other msg)
          st := { store := db.store, answers := rest }
          calls := [.GetRefreshToken t, .DeleteRefreshToken t] } ∧
      (row.ExpiresAt < amb2.nowCheck → (∀ a ∈ rest.take 2, a = Answer.ok) →
        ((dbService dbNow2 secret).RefreshToken lib amb2 t
            ((dbService dbNow1 secret).RefreshToken lib amb1 t db).st).out =
          .error Err.ErrTokenExpired)) ∧
    (∀ msg rest, db.answers = .ok :: .noCount msg :: rest →
      (dbService dbNow1 secret).RefreshToken lib amb1 t db =
        { out := .error (.other msg)
          st :=
            { store :=
                { db.store with
                  refresh_tokens := db.store.refresh_tokens.filter (fun r => r.Token != t) }
              answers := rest }
          calls := [.GetRefreshToken t, .DeleteRefreshToken t] }) := by
  refine ⟨RefreshToken_expired_no_store lib dbNow1 secret amb1 t db row hfind hexp, ?_, ?_, ?_,
    ?_⟩
  · intro hrun
    have h1 := RefreshToken_expired_run lib dbNow1 secret amb1 t db row hfind hexp hrun
    refine ⟨h1, ?_, ?_⟩
    · rw [h1]
      intro r hr
      simp only [List.mem_filter] at hr
      simpa using hr.2
    · intro hrun2
      rw [h1]
      exact RefreshToken_absent_run lib dbNow2 secret amb2 t _
        (find_token_filter_ne db.store.refresh_tokens t) hrun2
  · intro msg hmsg
    exact RefreshToken_lookup_refused lib dbNow1 secret amb1 t db msg hmsg
  · intro msg rest hans
    obtain ⟨st, answers⟩ := db
    simp only at hans hfind
    subst hans
    have h1 := RefreshToken_delete_refused lib dbNow1 secret amb1 t st row msg rest hfind
    refine ⟨h1, ?_⟩
    intro hexp2 hrun2
    rw [h1, RefreshToken_expired_run lib dbNow2 secret amb2 t { store := st, answers := rest } row
      hfind hexp2 hrun2]
  · intro msg rest hans
    obtain ⟨st, answers⟩ := db
    simp only at hans hfind
    subst hans
    exact RefreshToken_delete_uncounted lib dbNow1 secret amb1 t st row msg rest hfind

/-- C3, amended, at concrete inputs: a store with one user and a refresh token
of theirs that expired an hour earlier, presented twice; with every statement
running, and with the first `DELETE` refused. -/
theorem C3_expired_token_consumed_witness :
    (dbService t2026 "test-secret").RefreshToken demoLib (ambAt t2026 0)
        "expired-refresh-token" { store := demoExpiredStore, answers := [] } =
      { out := .error Err.ErrTokenExpired
        st :=
          { store :=
              { demoExpiredStore with
                refresh_tokens :=
                  demoExpiredStore.refresh_tokens.filter
                    (fun r => r.Token != "expired-refresh-token") }
            answers := [] }
        calls := [.GetRefreshToken "expired-refresh-token",
          .DeleteRefreshToken "expired-refresh-token"] } ∧
    (dbService t2026 "test-secret").RefreshToken demoLib (ambAt t2026 5000)
        "expired-refresh-token"
        ((dbService t2026 "test-secret").RefreshToken demoLib (ambAt t2026 0)
          "expired-refresh-token" { store := demoExpiredStore, answers := [] }).st =
      { out := .error Err.ErrRefreshTokenNotFound
        st :=
          { store := ((dbService t2026 "test-secret").RefreshToken demoLib (ambAt t2026 0)
              "expired-refresh-token" { store := demoExpiredStore, answers := [] }).st.store
            answers := [] }
        calls := [.GetRefreshToken "expired-refresh-token"] } ∧
    (dbService t2026 "test-secret").RefreshToken demoLib (ambAt t2026 0)
        "expired-refresh-token"
        { store := demoExpiredStore
          answers := [.ok, .failed "failed to execute query: dial tcp: connection refused"] } =
      { out := .error (.other "failed to execute query: dial tcp: connection refused")
        st := { store := demoExpiredStore, answers := [] }
        calls := [.GetRefreshToken "expired-refresh-token",
          .DeleteRefreshToken "expired-refresh-token"] } ∧
    ((dbService t2026 "test-secret").RefreshToken demoLib (ambAt t2026 5000)
        "expired-refresh-token"
        ((dbService t2026 "test-secret").RefreshToken demoLib (ambAt t2026 0)
          "expired-refresh-token"
          { store := demoExpiredStore
            answers :=
              [.ok, .failed "failed to execute query: dial tcp: connection refused"] }).st).out =
      .error Err.ErrTokenExpired :=
  ⟨((C3_expired_token_consumed demoLib t2026 t2026 "test-secret" (ambAt t2026 0)
      (ambAt t2026 5000) "expired-refresh-token" { store := demoExpiredStore, answers := [] }
      { UserID := 1, Token := "expired-refresh-token", ExpiresAt := t2026 - Hour }
      (by decide) (by decide)).2.1 (by decide)).1,
   ((C3_expired_token_consumed demoLib t2026 t2026 "test-secret" (ambAt t2026 0)
      (ambAt t2026 5000) "expired-refresh-token" { store := demoExpiredStore, answers := [] }
      { UserID := 1, Token := "expired-refresh-token", ExpiresAt := t2026 - Hour }
      (by decide) (by decide)).2.1 (by decide)).2.2 (fun _ hmsg => by cases hmsg),
   ((C3_expired_token_consumed demoLib t2026 t2026 "test-secret" (ambAt t2026 0)
      (ambAt t2026 5000) "expired-refresh-token"
      { store := demoExpiredStore
        answers := [.ok, .failed "failed to execute query: dial tcp: connection refused"] }
      { UserID := 1, Token := "expired-refresh-token", ExpiresAt := t2026 - Hour }
      (by decide) (by decide)).2.2.2.1
      "failed to execute query: dial tcp: connection refused" [] rfl).1,
   ((C3_expired_token_consumed demoLib t2026 t2026 "test-secret" (ambAt t2026 0)
      (ambAt t2026 5000) "expired-refresh-token"
      { store := demoExpiredStore
        answers := [.ok, .failed "failed to execute query: dial tcp: connection refused"] }
      { UserID := 1, Token := "expired-refresh-token", ExpiresAt := t2026 - Hour }
      (by decide) (by decide)).2.2.2.1
      "failed to execute query: dial tcp: connection refused" [] rfl).2 (by decide)
      (by decide)⟩

/-! ## C4: login failures are indistinguishable -/

/-- C4: over any repository, for every email and password, when `GetUserByEmail`
reports `ErrUserNotFound` (whatever user value comes with it), and also when it
returns a user with a nil error and the password does not verify against the
stored hash, `Login` returns `(nil, ErrInvalidCredentials)`, its only repository
call is that `GetUserByEmail` (so no refresh token is stored), and the store is
as the lookup left it. -/
theorem C4_login_failures_indistinguishable {σ : Type} (s : Service σ) (lib : Lib)
    (amb : Ambient) (req : LoginRequest) (st : σ)
    (h : (∃ u, (s.repo.GetUserByEmail req.Email st).1 = (u, some Err.ErrUserNotFound)) ∨
      (∃ user, (s.repo.GetUserByEmail req.Email st).1 = (some user, none) ∧
        lib.CompareHashAndPassword user.Password req.Password = false)) :
    s.Login lib amb req st =
      { out := .error Err.ErrInvalidCredentials
        st := (s.repo.GetUserByEmail req.Email st).2
        calls := [.GetUserByEmail req.Email] } := by
  rcases hq : s.repo.GetUserByEmail req.Email st with ⟨⟨u, e⟩, st1⟩
  rw [hq] at h
  rcases h with ⟨u2, h⟩ | ⟨user, h, hpw⟩
  · simp only [Prod.mk.injEq] at h
    obtain ⟨rfl, rfl⟩ := h
    simp [Service.Login, hq]
  · simp only [Prod.mk.injEq] at h
    obtain ⟨rfl, rfl⟩ := h
    simp [Service.Login, hq, hpw]

/-- C4 at concrete inputs: an unknown email, on the store the sign-up left. -/
theorem C4_login_failures_indistinguishable_witness :
    demoService.Login demoLib (ambAt t2026 100) { Email := "b@x.com", Password := "secret1" }
        demoSignUp.st =
      { out := .error Err.ErrInvalidCredentials
        st := (demoService.repo.GetUserByEmail "b@x.com" demoSignUp.st).2
        calls := [.GetUserByEmail "b@x.com"] } :=
  C4_login_failures_indistinguishable demoService demoLib (ambAt t2026 100)
    { Email := "b@x.com", Password := "secret1" } demoSignUp.st
    (Or.inl ⟨none, by decide⟩)

/-! ## C5: sign-up with a registered email -/

/-- C5, as stated, fails: the store holds a user with the email `a@x.com`, the
database refuses the lookup of the sign-up (connection refused), and `SignUp`
returns that error; it does not return `ErrEmailAlreadyExists`. -/
theorem C5_counterexample :
    demoSignUp.st.users.find? (fun u => u.Email == "a@x.com") =
      some { ID := 1, Email := "a@x.com", Password := "$2a$10$secret1", CreatedAt := t2026 } ∧
    ((dbService t2026 "test-secret").SignUp demoLib (ambAt t2026 900)
        { Email := "a@x.com", Password := "other-pw" }
        { store := demoSignUp.st, answers := [.failed "dial tcp: connection refused"] }).out =
      .error (.other "dial tcp: connection refused") ∧
    ((dbService t2026 "test-secret").SignUp demoLib (ambAt t2026 900)
        { Email := "a@x.com", Password := "other-pw" }
        { store := demoSignUp.st, answers := [.failed "dial tcp: connection refused"] }).out ≠
      .error Err.ErrEmailAlreadyExists := by
  decide

/-- C5, amended: on the MySQL repository, for every sign-up request whose email
is the email of a stored user and every database: when the lookup is answered,
`SignUp` returns `(nil, ErrEmailAlreadyExists)`; when the lookup fails with a
storage error, `SignUp` returns that error; in both cases its only repository
call is the `GetUserByEmail` lookup (neither `CreateUser` nor
`StoreRefreshToken` is called) and the tables are unchanged. -/
theorem C5_signup_existing_email (lib : Lib) (dbNow : Time) (secret : String) (amb : Ambient)
    (req : SignUpRequest) (db : Database)
    (h : ∃ u ∈ db.store.users, u.Email = req.Email) :
    ((∀ msg, db.answers.head? ≠ some (.failed msg)) →
      (dbService dbNow secret).SignUp lib amb req db =
        { out := .error Err.ErrEmailAlreadyExists
          st := { store := db.store, answers := db.answers.tail }
          calls := [.GetUserByEmail req.Email] }) ∧
    (∀ msg, db.answers.head? = some (.failed msg) →
      (dbService dbNow secret).SignUp lib amb req db =
        { out := .error (.other msg)
          st := { store := db.store, answers := db.answers.tail }
          calls := [.GetUserByEmail req.Email] }) := by
  obtain ⟨u, hu, hemail⟩ := h
  have hsome : (db.store.users.find? (fun u => u.Email == req.Email)).isSome = true := by
    rw [List.find?_isSome]
    exact ⟨u, hu, by simpa using hemail⟩
  obtain ⟨v, hv⟩ := Option.isSome_iff_exists.mp hsome
  obtain ⟨st, answers⟩ := db
  simp only at hv
  constructor
  · intro hrun
    cases answers with
    | nil =>
      simp [Service.SignUp, dbService, NewService, MySQLRepository.over,
        MySQLRepository.GetUserByEmail, Database.QueryRow, hv]
    | cons a rest =>
      cases a with
      | failed msg => exact absurd rfl (hrun msg)
      | ok =>
        simp [Service.SignUp, dbService, NewService, MySQLRepository.over,
          MySQLRepository.GetUserByEmail, Database.QueryRow, hv]
      | noCount msg =>
        simp [Service.SignUp, dbService, NewService, MySQLRepository.over,
          MySQLRepository.GetUserByEmail, Database.QueryRow, hv]
  · intro msg hmsg
    cases answers with
    | nil => simp at hmsg
    | cons a rest =>
      simp only [List.head?_cons, Option.some.injEq] at hmsg
      subst hmsg
      simp [Service.SignUp, dbService, NewService, MySQLRepository.over,
        MySQLRepository.GetUserByEmail, Database.QueryRow]

/-- C5, amended, at concrete inputs: a second sign-up of `a@x.com`, answered and
refused. -/
theorem C5_signup_existing_email_witness :
    (dbService t2026 "test-secret").SignUp demoLib (ambAt t2026 900)
        { Email := "a@x.com", Password := "other-pw" }
        { store := demoSignUp.st, answers := [.ok] } =
      { out := .error Err.ErrEmailAlreadyExists
        st := { store := demoSignUp.st, answers := [] }
        calls := [.GetUserByEmail "a@x.com"] } ∧
    (dbService t2026 "test-secret").SignUp demoLib (ambAt t2026 900)
        { Email := "a@x.com", Password := "other-pw" }
        { store := demoSignUp.st, answers := [.failed "dial tcp: connection refused"] } =
      { out := .error (.other "dial tcp: connection refused")
        st := { store := demoSignUp.st, answers := [] }
        calls := [.GetUserByEmail "a@x.com"] } :=
  ⟨(C5_signup_existing_email demoLib t2026 "test-secret" (ambAt t2026 900)
      { Email := "a@x.com", Password := "other-pw" }
      { store := demoSignUp.st, answers := [.ok] }
      ⟨{ ID := 1, Email := "a@x.com", Password := "$2a$10$secret1", CreatedAt := t2026 },
        by decide, rfl⟩).1 (fun _ hmsg => by cases hmsg),
   (C5_signup_existing_email demoLib t2026 "test-secret" (ambAt t2026 900)
      { Email := "a@x.com", Password := "other-pw" }
      { store := demoSignUp.st, answers := [.failed "dial tcp: connection refused"] }
      ⟨{ ID := 1, Email := "a@x.com", Password := "$2a$10$secret1", CreatedAt := t2026 },
        by decide, rfl⟩).2 "dial tcp: connection refused" rfl⟩

end user

namespace user

/-! ## Helper lemmas: a property every repository method keeps is kept by the service -/

theorem generateTokens_preserves {σ : Type} (s : Service σ) (P : σ → Prop)
    (hr : s.repo.Preserves P) (lib : Lib) (amb : Ambient) (userID : Int) (st : σ) (hP : P st) :
    P (s.generateTokens lib amb userID st).st := by
  have h1 := hr.2.2.2.1 userID
    (lib.SignedString s.jwtSecret userID (Unix (amb.nowRefresh + refreshTokenDuration lib amb)))
    (amb.nowStore + refreshTokenDuration lib amb) st hP
  simp only [Service.generateTokens]
  rcases hq : s.repo.StoreRefreshToken userID
    (lib.SignedString s.jwtSecret userID (Unix (amb.nowRefresh + refreshTokenDuration lib amb)))
    (amb.nowStore + refreshTokenDuration lib amb) st with ⟨e, st1⟩
  rw [hq] at h1
  cases e <;> exact h1

theorem SignUp_preserves {σ : Type} (s : Service σ) (P : σ → Prop)
    (hr : s.repo.Preserves P) (lib : Lib) (amb : Ambient) (req : SignUpRequest) (st : σ)
    (hP : P st) : P (s.SignUp lib amb req st).st := by
  have h1 := hr.2.1 req.Email st hP
  unfold Service.SignUp
  rcases hq1 : s.repo.GetUserByEmail req.Email st with ⟨⟨eu, err⟩, st1⟩
  rw [hq1] at h1
  simp only [Run.after]
  split_ifs
  · exact h1
  · exact h1
  · cases hg : lib.GenerateFromPassword req.Password amb.salt with
    | error e => exact h1
    | ok hashedPassword =>
      simp only
      have h2 := hr.1
        { ID := 0, Email := req.Email, Password := hashedPassword, CreatedAt := amb.nowCreated }
        st1 h1
      rcases hq2 : s.repo.CreateUser
        { ID := 0, Email := req.Email, Password := hashedPassword, CreatedAt := amb.nowCreated }
        st1 with ⟨e2, st2⟩
      rw [hq2] at h2
      cases e2 with
      | some e => exact h2
      | none =>
        simp only
        have h3 := hr.2.1 req.Email st2 h2
        rcases hq3 : s.repo.GetUserByEmail req.Email st2 with ⟨⟨cu, e3⟩, st3⟩
        rw [hq3] at h3
        cases e3 with
        | some e => simp only; exact h3
        | none =>
          cases cu with
          | none => exact h3
          | some createdUser => exact generateTokens_preserves s P hr lib amb _ st3 h3

theorem Login_preserves {σ : Type} (s : Service σ) (P : σ → Prop)
    (hr : s.repo.Preserves P) (lib : Lib) (amb : Ambient) (req : LoginRequest) (st : σ)
    (hP : P st) : P (s.Login lib amb req st).st := by
  have h1 := hr.2.1 req.Email st hP
  simp only [Service.Login, Run.after]
  rcases hq1 : s.repo.GetUserByEmail req.Email st with ⟨⟨u, err⟩, st1⟩
  rw [hq1] at h1
  cases err with
  | some e =>
    simp only
    split_ifs <;> exact h1
  | none =>
    cases u with
    | none => exact h1
    | some user =>
      simp only
      split_ifs
      · exact generateTokens_preserves s P hr lib amb _ st1 h1
      · exact h1

theorem RefreshToken_preserves {σ : Type} (s : Service σ) (P : σ → Prop)
    (hr : s.repo.Preserves P) (lib : Lib) (amb : Ambient) (t : String) (st : σ)
    (hP : P st) : P (s.RefreshToken lib amb t st).st := by
  have h1 := hr.2.2.2.2.1 t st hP
  simp only [Service.RefreshToken, Run.after]
  rcases hq1 : s.repo.GetRefreshToken t st with ⟨⟨tok, err⟩, st1⟩
  rw [hq1] at h1
  have h2 := hr.2.2.2.2.2 t st1 h1
  cases err with
  | some e => simp only; exact h1
  | none =>
    cases tok with
    | none => exact h1
    | some token =>
      simp only
      rcases hq2 : s.repo.DeleteRefreshToken t st1 with ⟨e2, st2⟩
      rw [hq2] at h2
      cases e2 with
      | some e => split_ifs <;> exact h2
      | none =>
        split_ifs
        · exact h2
        · exact generateTokens_preserves s P hr lib amb _ st2 h2

/-! ## C6: at most one live refresh token per user -/

theorem filter_user_store (rows : List RefreshToken) (userID : Int) (token : String)
    (expiresAt : Time) :
    ((rows.filter (fun r => r.UserID != userID)) ++
        [({ UserID := userID, Token := token, ExpiresAt := expiresAt } : RefreshToken)]).filter
      (fun r => r.UserID == userID) =
    [{ UserID := userID, Token := token, ExpiresAt := expiresAt }] := by
  rw [List.filter_append, List.filter_filter]
  have h0 : rows.filter (fun r => (r.UserID == userID) && (r.UserID != userID)) = [] := by
    rw [List.filter_eq_nil_iff]
    intro r _
    by_cases h : r.UserID = userID <;> simp [h]
  rw [h0]
  simp

theorem atMostOne_filter (st : Store) (p : RefreshToken → Bool) (h : AtMostOnePerUser st) :
    AtMostOnePerUser { st with refresh_tokens := st.refresh_tokens.filter p } := by
  intro u
  have hsub : ((st.refresh_tokens.filter p).filter (fun r => r.UserID == u)).length ≤
      (st.refresh_tokens.filter (fun r => r.UserID == u)).length := by
    apply List.Sublist.length_le
    exact List.Sublist.filter _ (List.filter_sublist _)
  exact le_trans hsub (h u)

/-- Replacing the rows of one user by a single row keeps "at most one row per
user". -/
theorem atMostOne_store (st : Store) (userID : Int) (token : String) (expiresAt : Time)
    (h : AtMostOnePerUser st) :
    AtMostOnePerUser
      { st with
        refresh_tokens := st.refresh_tokens.filter (fun r => r.UserID != userID) ++
          [{ UserID := userID, Token := token, ExpiresAt := expiresAt }] } := by
  intro u
  by_cases hu : u = userID
  · subst hu
    simp only
    rw [filter_user_store]
    simp
  · simp only
    rw [List.filter_append]
    have hlast : ([{ UserID := userID, Token := token, ExpiresAt := expiresAt }] :
        List RefreshToken).filter (fun r => r.UserID == u) = [] := by
      simp [Ne.symm hu]
    rw [hlast, List.append_nil]
    exact atMostOne_filter st _ h u

/-- What `StoreRefreshToken` returns and leaves, by what the database does with
its two statements. -/
theorem StoreRefreshToken_cases (userID : Int) (token : String) (expiresAt : Time)
    (db : Database) :
    ((MySQLRepository.StoreRefreshToken userID token expiresAt db).1 = none ∧
      (MySQLRepository.StoreRefreshToken userID token expiresAt db).2.store =
        { db.store with
          refresh_tokens := db.store.refresh_tokens.filter (fun r => r.UserID != userID) ++
            [{ UserID := userID, Token := token, ExpiresAt := expiresAt }] }) ∨
    ((MySQLRepository.StoreRefreshToken userID token expiresAt db).1 ≠ none ∧
      ((MySQLRepository.StoreRefreshToken userID token expiresAt db).2.store = db.store ∨
        (MySQLRepository.StoreRefreshToken userID token expiresAt db).2.store =
          { db.store with
            refresh_tokens :=
              db.store.refresh_tokens.filter (fun r => r.UserID != userID) })) := by
  obtain ⟨st, answers⟩ := db
  rcases answers with _ | ⟨_ | m | m, _ | ⟨_ | m2 | m2, rest⟩⟩ <;>
  simp [MySQLRepository.StoreRefreshToken, MySQLRepository.DeleteAllRefreshTokens,
    Database.Exec]

/-- What `DeleteRefreshToken` leaves: the tables as they were, or without the
rows of the token. -/
theorem DeleteRefreshToken_cases (token : String) (db : Database) :
    (MySQLRepository.DeleteRefreshToken token db).2.store = db.store ∨
    (MySQLRepository.DeleteRefreshToken token db).2.store =
      { db.store with
        refresh_tokens := db.store.refresh_tokens.filter (fun r => r.Token != token) } := by
  obtain ⟨st, answers⟩ := db
  rcases answers with _ | ⟨_ | m | m, rest⟩ <;>
  simp [MySQLRepository.DeleteRefreshToken, Database.Exec]

theorem QueryRow_store {ρ : Type} (db : Database) (select : Store → Option ρ) :
    (db.QueryRow select).2.store = db.store := by
  obtain ⟨st, answers⟩ := db
  rcases answers with _ | ⟨_ | m | m, rest⟩ <;> simp [Database.QueryRow]

theorem over_preserves_atMostOne (dbNow : Time) :
    (MySQLRepository.over dbNow).Preserves (fun db => AtMostOnePerUser db.store) := by
  refine ⟨?_, ?_, ?_, ?_, ?_, ?_⟩
  · intro u db h
    obtain ⟨st, answers⟩ := db
    rcases answers with _ | ⟨_ | m | m, rest⟩ <;>
    simpa [MySQLRepository.over, MySQLRepository.CreateUser, Database.Exec, AtMostOnePerUser]
      using h
  · intro email db h
    have hs := QueryRow_store db (fun st => st.users.find? (fun u => u.Email == email))
    simp only [MySQLRepository.over, MySQLRepository.GetUserByEmail]
    split <;> simp_all
  · intro id db h
    have hs := QueryRow_store db (fun st => st.users.find? (fun u => u.ID == id))
    simp only [MySQLRepository.over, MySQLRepository.GetUserByID]
    split <;> simp_all
  · intro userID token expiresAt db h
    simp only [MySQLRepository.over]
    rcases StoreRefreshToken_cases userID token expiresAt db with ⟨_, hs⟩ | ⟨_, hs | hs⟩
    · rw [hs]
      exact atMostOne_store db.store userID token expiresAt h
    · rw [hs]
      exact h
    · rw [hs]
      exact atMostOne_filter db.store _ h
  · intro token db h
    have hs := QueryRow_store db (fun st => st.refresh_tokens.find? (fun r => r.Token == token))
    simp only [MySQLRepository.over, MySQLRepository.GetRefreshToken]
    split <;> simp_all
  · intro token db h
    simp only [MySQLRepository.over]
    rcases DeleteRefreshToken_cases token db with hs | hs
    · rw [hs]
      exact h
    · rw [hs]
      exact atMostOne_filter db.store _ h

theorem atMostOne_apply (lib : Lib) (secret : String) (op : Op) (db : Database)
    (h : AtMostOnePerUser db.store) : AtMostOnePerUser (op.apply lib secret db).store := by
  cases op with
  | SignUp dbNow amb req =>
    exact SignUp_preserves (dbService dbNow secret) _ (over_preserves_atMostOne dbNow)
      lib amb req db h
  | Login dbNow amb req =>
    exact Login_preserves (dbService dbNow secret) _ (over_preserves_atMostOne dbNow)
      lib amb req db h
  | RefreshToken dbNow amb t =>
    exact RefreshToken_preserves (dbService dbNow secret) _ (over_preserves_atMostOne dbNow)
      lib amb t db h

theorem atMostOne_runOps (lib : Lib) (secret : String) (ops : List Op) :
    ∀ db : Database, AtMostOnePerUser db.store →
      AtMostOnePerUser (runOps lib secret ops db).store := by
  induction ops with
  | nil => intro db h; exact h
  | cons op ops ih =>
    intro db h
    exact ih _ (atMostOne_apply lib secret op db h)

end user

namespace user

/-- C6: on the MySQL repository, for every database (whatever its tables hold
and whatever it does with the statements to come) and every `userID`, `token`
and `expiresAt`: `StoreRefreshToken(userID, token, expiresAt)` succeeds when its
two statements run, and whenever it succeeds the table then is the old one
without the rows of `userID`, followed by the row `(userID, token, expiresAt)`,
which is the only row of `userID`; when it fails it adds no row (the table is
as it was, or without the rows of `userID`). And every sequential run of
SignUp, Login and RefreshToken calls, whatever each call reads and returns and
whichever statements the database refuses, started on tables in which no user
has more than one refresh token, ends on such tables. -/
theorem C6_one_refresh_token_per_user (lib : Lib) (secret : String) (db : Database)
    (userID : Int) (token : String) (expiresAt : Time) (ops : List Op) :
    ((∀ a ∈ db.answers.take 2, a = Answer.ok) →
      (MySQLRepository.StoreRefreshToken userID token expiresAt db).1 = none) ∧
    ((MySQLRepository.StoreRefreshToken userID token expiresAt db).1 = none →
      (MySQLRepository.StoreRefreshToken userID token expiresAt db).2.store.refresh_tokens =
        db.store.refresh_tokens.filter (fun r => r.UserID != userID) ++
          [{ UserID := userID, Token := token, ExpiresAt := expiresAt }] ∧
      (MySQLRepository.StoreRefreshToken userID token expiresAt db).2.store.refresh_tokens.filter
          (fun r => r.UserID == userID) =
        [{ UserID := userID, Token := token, ExpiresAt := expiresAt }]) ∧
    ((MySQLRepository.StoreRefreshToken userID token expiresAt db).1 ≠ none →
      (MySQLRepository.StoreRefreshToken userID token expiresAt db).2.store = db.store ∨
      (MySQLRepository.StoreRefreshToken userID token expiresAt db).2.store =
        { db.store with
          refresh_tokens := db.store.refresh_tokens.filter (fun r => r.UserID != userID) }) ∧
    (AtMostOnePerUser db.store → AtMostOnePerUser (runOps lib secret ops db).store) := by
  refine ⟨?_, ?_, ?_, atMostOne_runOps lib secret ops db⟩
  · intro hrun
    obtain ⟨st, answers⟩ := db
    rcases answers with _ | ⟨a, _ | ⟨b, rest⟩⟩
    · simp [MySQLRepository.StoreRefreshToken, MySQLRepository.DeleteAllRefreshTokens,
        Database.Exec]
    · have ha : a = Answer.ok := hrun a (by simp)
      subst ha
      simp [MySQLRepository.StoreRefreshToken, MySQLRepository.DeleteAllRefreshTokens,
        Database.Exec]
    · have ha : a = Answer.ok := hrun a (by simp)
      have hb : b = Answer.ok := hrun b (by simp)
      subst ha
      subst hb
      simp [MySQLRepository.StoreRefreshToken, MySQLRepository.DeleteAllRefreshTokens,
        Database.Exec]
  · intro hok
    rcases StoreRefreshToken_cases userID token expiresAt db with ⟨_, hs⟩ | ⟨hno, _⟩
    · rw [hs]
      exact ⟨rfl, filter_user_store _ _ _ _⟩
    · exact absurd hok hno
  · intro hfail
    rcases StoreRefreshToken_cases userID token expiresAt db with ⟨hok, _⟩ | ⟨_, hs⟩
    · exact absurd hok hfail
    · exact hs

/-- C6 at concrete inputs: `StoreRefreshToken` on a store in which the user has
two rows already, and the run sign-up, login, refresh, refresh on the empty
database, in which the store of the login's token is refused. -/
theorem C6_one_refresh_token_per_user_witness :
    (MySQLRepository.StoreRefreshToken 1 "valid-refresh-token" (t2026 + 24 * Hour)
      { store := twoTokenStore, answers := [] }).1 = none ∧
    ((MySQLRepository.StoreRefreshToken 1 "valid-refresh-token" (t2026 + 24 * Hour)
        { store := twoTokenStore, answers := [] }).2.store.refresh_tokens =
      twoTokenStore.refresh_tokens.filter (fun r => r.UserID != 1) ++
        [{ UserID := 1, Token := "valid-refresh-token", ExpiresAt := t2026 + 24 * Hour }] ∧
     (MySQLRepository.StoreRefreshToken 1 "valid-refresh-token" (t2026 + 24 * Hour)
        { store := twoTokenStore, answers := [] }).2.store.refresh_tokens.filter
        (fun r => r.UserID == 1) =
      [{ UserID := 1, Token := "valid-refresh-token", ExpiresAt := t2026 + 24 * Hour }]) ∧
    AtMostOnePerUser (runOps demoLib "test-secret" demoOps demoFaultyDatabase).store :=
  ⟨(C6_one_refresh_token_per_user demoLib "test-secret" { store := twoTokenStore, answers := [] }
      1 "valid-refresh-token" (t2026 + 24 * Hour) demoOps).1 (by decide),
   (C6_one_refresh_token_per_user demoLib "test-secret" { store := twoTokenStore, answers := [] }
      1 "valid-refresh-token" (t2026 + 24 * Hour) demoOps).2.1 (by decide),
   (C6_one_refresh_token_per_user demoLib "test-secret" demoFaultyDatabase
      1 "valid-refresh-token" (t2026 + 24 * Hour) demoOps).2.2.2 (fun _ => Nat.zero_le 1)⟩

end user

namespace gobreaker

open user (Time Duration Second)

/-! ## Helper lemmas: the steps of the imported breaker -/

theorem currentState_closed (cb : CircuitBreaker) (now : Time)
    (hclosed : cb.state = .StateClosed) (hwin : cb.expiry = zeroTime ∨ now ≤ cb.expiry) :
    cb.currentState now = cb := by
  have hroll : ¬ (cb.expiry ≠ zeroTime ∧ cb.expiry < now) := by
    rcases hwin with h | h
    · simp [h]
    · intro hh; exact absurd hh.2 (not_lt.mpr h)
  simp [CircuitBreaker.currentState, hclosed, hroll]

theorem currentState_open (cb : CircuitBreaker) (now : Time)
    (hopen : cb.state = .StateOpen) (hcool : now ≤ cb.expiry) :
    cb.currentState now = cb := by
  simp [CircuitBreaker.currentState, hopen, not_lt.mpr hcool]

theorem currentState_halfOpen (cb : CircuitBreaker) (now : Time)
    (hhalf : cb.state = .StateHalfOpen) : cb.currentState now = cb := by
  simp [CircuitBreaker.currentState, hhalf]

theorem beforeRequest_closed (cb : CircuitBreaker) (now : Time)
    (hclosed : cb.state = .StateClosed) (hwin : cb.expiry = zeroTime ∨ now ≤ cb.expiry) :
    cb.beforeRequest now = (.ok cb.generation, { cb with counts := cb.counts.onRequest }) := by
  simp [CircuitBreaker.beforeRequest, currentState_closed cb now hclosed hwin, hclosed]

theorem beforeRequest_open (cb : CircuitBreaker) (now : Time)
    (hopen : cb.state = .StateOpen) (hcool : now ≤ cb.expiry) :
    cb.beforeRequest now = (.error .ErrOpenState, cb) := by
  simp [CircuitBreaker.beforeRequest, currentState_open cb now hopen hcool, hopen]

theorem beforeRequest_halfOpen_full (cb : CircuitBreaker) (now : Time)
    (hhalf : cb.state = .StateHalfOpen) (hfull : cb.counts.Requests ≥ cb.maxRequests) :
    cb.beforeRequest now = (.error .ErrTooManyRequests, cb) := by
  simp [CircuitBreaker.beforeRequest, currentState_halfOpen cb now hhalf, hhalf, hfull]

theorem afterRequest_closed_failure (cb : CircuitBreaker) (now : Time)
    (hclosed : cb.state = .StateClosed) (hwin : cb.expiry = zeroTime ∨ now ≤ cb.expiry) :
    cb.afterRequest cb.generation false now = cb.onFailure .StateClosed now := by
  simp [CircuitBreaker.afterRequest, currentState_closed cb now hclosed hwin, hclosed]

end gobreaker

namespace circuitbreaker

open user (Time Duration Second t2026)
open gobreaker (zeroTime)

/-! ## Helper lemmas: one call through `ExecuteWithBreaker` -/

theorem fails_iff {α : Type} (call : BreakerCall α) :
    call.fails = true ↔ (CircuitBreaker.Execute call.sel call.fn).2.isNone = false := by
  simp only [BreakerCall.fails]
  cases (CircuitBreaker.Execute call.sel call.fn).2 <;> simp

/-- A failing call on a closed breaker whose counting window does not roll
over during the call: the work is invoked and the failure is recorded. -/
theorem run_closed_fail {α : Type} (c : CircuitBreaker) (call : BreakerCall α)
    (hclosed : c.cb.state = .StateClosed)
    (hwin : c.cb.expiry = zeroTime ∨ (call.nowBefore ≤ c.cb.expiry ∧ call.nowAfter ≤ c.cb.expiry))
    (hfail : call.fails = true) :
    (call.run c).invoked = true ∧
    (call.run c).breaker.cb =
      ({ c.cb with counts := c.cb.counts.onRequest } : gobreaker.CircuitBreaker).onFailure
        .StateClosed call.nowAfter := by
  have hb := gobreaker.beforeRequest_closed c.cb call.nowBefore hclosed
    (hwin.imp id (fun h => h.1))
  have ha := gobreaker.afterRequest_closed_failure
    ({ c.cb with counts := c.cb.counts.onRequest } : gobreaker.CircuitBreaker) call.nowAfter
    hclosed (hwin.imp id (fun h => h.2))
  have hf := (fails_iff call).mp hfail
  simp only [BreakerCall.run, CircuitBreaker.ExecuteWithBreaker, gobreakerExecute, hb, hf]
  simp only at ha
  rw [ha]
  constructor
  · split <;> [split_ifs; skip] <;> rfl
  · split <;> [split_ifs; skip] <;> rfl

/-- A call on an open breaker before its cool-down has elapsed is rejected
with `ErrCircuitOpen`, the work is not invoked and the breaker is unchanged. -/
theorem run_open {α : Type} (c : CircuitBreaker) (call : BreakerCall α)
    (hopen : c.cb.state = .StateOpen) (hcool : call.nowBefore ≤ c.cb.expiry) :
    call.run c = { val := none, err := some .ErrCircuitOpen, breaker := c, invoked := false } := by
  simp [BreakerCall.run, CircuitBreaker.ExecuteWithBreaker, gobreakerExecute,
    gobreaker.beforeRequest_open c.cb call.nowBefore hopen hcool, ofRejection]

end circuitbreaker

namespace circuitbreaker

open user (Time Duration Second t2026)
open gobreaker (zeroTime)

/-! ## C7: what a context cancellation counts as -/

/-- C7, as stated, fails: on a breaker fresh from `New` with no options, one
call whose context is cancelled before the work returns raises the failure
counts from 0 to 1, and six such calls in a row open the breaker. -/
theorem C7_counterexample :
    (New [] t2026).cb.counts.TotalFailures = 0 ∧
    (New [] t2026).cb.counts.ConsecutiveFailures = 0 ∧
    ((cancelledAt 100).run (New [] t2026)).err = some .Canceled ∧
    ((cancelledAt 100).run (New [] t2026)).breaker.cb.counts.TotalFailures = 1 ∧
    ((cancelledAt 100).run (New [] t2026)).breaker.cb.counts.ConsecutiveFailures = 1 ∧
    (New [] t2026).cb.state = .StateClosed ∧
    (runCalls (New [] t2026)
      [cancelledAt 100, cancelledAt 200, cancelledAt 300, cancelledAt 400, cancelledAt 500,
        cancelledAt 600]).1.cb.state = .StateOpen := by
  decide

/-- C7, amended: a context cancellation is counted as a failure. For every
breaker state, a call whose context fires before the work completes leaves the
breaker exactly as the same call would had its work returned an error
(and invokes the work in the same cases); when it is admitted it returns
`(nil, ctx.Err())`; and on a closed breaker whose counting window does not roll
over during the call, the work is invoked and the failure is recorded: the
request and failure counts go up by one and the breaker trips if `ReadyToTrip`
then holds. -/
theorem C7_cancellation_counts_as_failure {α : Type} (c : CircuitBreaker)
    (nowBefore nowAfter : Time) (e : CtxErr) (fn : Option α × Option Error) (msg : String) :
    ((c.ExecuteWithBreaker nowBefore nowAfter (.ctxDone e) fn).breaker =
        (c.ExecuteWithBreaker nowBefore nowAfter .resultFirst
          ((none : Option α), some (Error.other msg))).breaker ∧
      (c.ExecuteWithBreaker nowBefore nowAfter (.ctxDone e) fn).invoked =
        (c.ExecuteWithBreaker nowBefore nowAfter .resultFirst
          ((none : Option α), some (Error.other msg))).invoked) ∧
    ((c.ExecuteWithBreaker nowBefore nowAfter (.ctxDone e) fn).invoked = true →
      (c.ExecuteWithBreaker nowBefore nowAfter (.ctxDone e) fn).val = none ∧
      (c.ExecuteWithBreaker nowBefore nowAfter (.ctxDone e) fn).err = some e.toError) ∧
    (c.cb.state = .StateClosed →
      (c.cb.expiry = zeroTime ∨ (nowBefore ≤ c.cb.expiry ∧ nowAfter ≤ c.cb.expiry)) →
      (c.ExecuteWithBreaker nowBefore nowAfter (.ctxDone e) fn).invoked = true ∧
      (c.ExecuteWithBreaker nowBefore nowAfter (.ctxDone e) fn).breaker.cb =
        ({ c.cb with counts := c.cb.counts.onRequest } : gobreaker.CircuitBreaker).onFailure
          .StateClosed nowAfter) := by
  refine ⟨?_, ?_, ?_⟩
  · simp only [CircuitBreaker.ExecuteWithBreaker, gobreakerExecute, CircuitBreaker.Execute]
    rcases hb : c.cb.beforeRequest nowBefore with ⟨r | g, cb1⟩
    · cases r <;> simp [ofRejection]
    · cases e <;> simp [CtxErr.toError]
  · simp only [CircuitBreaker.ExecuteWithBreaker, gobreakerExecute, CircuitBreaker.Execute]
    rcases hb : c.cb.beforeRequest nowBefore with ⟨r | g, cb1⟩
    · cases r <;> simp [ofRejection]
    · cases e <;> simp [CtxErr.toError]
  · intro hclosed hwin
    exact run_closed_fail c
      { nowBefore := nowBefore, nowAfter := nowAfter, sel := .ctxDone e, fn := fn }
      hclosed hwin (by cases e <;> rfl)

/-- C7, amended, at a concrete input: a cancelled call on a fresh breaker. -/
theorem C7_cancellation_counts_as_failure_witness :
    ((cancelledAt 100).run (New [] t2026)).invoked = true ∧
    ((cancelledAt 100).run (New [] t2026)).breaker.cb =
      ({ (New [] t2026).cb with counts := (New [] t2026).cb.counts.onRequest } :
        gobreaker.CircuitBreaker).onFailure .StateClosed (cancelledAt 100).nowAfter :=
  (C7_cancellation_counts_as_failure (New [] t2026) (cancelledAt 100).nowBefore
    (cancelledAt 100).nowAfter .Canceled (some "row", none) "").2.2 (by decide)
    (Or.inr (by decide))

/-! ## C8: half-open with the probe quota exhausted -/

/-- C8, as stated, fails: on a half-open breaker with all five probes of the
window admitted, the call is rejected without invoking the work, but the error
it returns is `ErrTooManyRequests` of the imported breaker, which
`ExecuteWithBreaker` passes on unchanged; it is not `ErrCircuitOpen`. -/
theorem C8_counterexample :
    halfOpenExhausted.cb.state = .StateHalfOpen ∧
    halfOpenExhausted.cb.counts.Requests ≥ halfOpenExhausted.cb.maxRequests ∧
    ((failingAt 100).run halfOpenExhausted).invoked = false ∧
    ((failingAt 100).run halfOpenExhausted).err = some .ErrTooManyRequests ∧
    ((failingAt 100).run halfOpenExhausted).err ≠ some .ErrCircuitOpen := by
  decide

/-- C8, amended: when the breaker is half-open and the probe quota
(`MaxRequests`) of the window is exhausted, `ExecuteWithBreaker` returns
`(nil, ErrTooManyRequests)`, the error of the imported breaker passed on
unchanged, without invoking the work and without changing the breaker. -/
theorem C8_half_open_quota_exhausted {α : Type} (c : CircuitBreaker)
    (nowBefore nowAfter : Time) (sel : Select) (fn : Option α × Option Error)
    (hhalf : c.cb.state = .StateHalfOpen)
    (hfull : c.cb.counts.Requests ≥ c.cb.maxRequests) :
    c.ExecuteWithBreaker nowBefore nowAfter sel fn =
      { val := none, err := some .ErrTooManyRequests, breaker := c, invoked := false } := by
  simp [CircuitBreaker.ExecuteWithBreaker, gobreakerExecute,
    gobreaker.beforeRequest_halfOpen_full c.cb nowBefore hhalf hfull, ofRejection]

/-- C8, amended, at a concrete input. -/
theorem C8_half_open_quota_exhausted_witness :
    halfOpenExhausted.ExecuteWithBreaker (t2026 + 1) (t2026 + 2) .resultFirst
        (some "row", none) =
      { val := none, err := some .ErrTooManyRequests, breaker := halfOpenExhausted
        invoked := false } :=
  C8_half_open_quota_exhausted halfOpenExhausted (t2026 + 1) (t2026 + 2) .resultFirst
    (some "row", none) (by decide) (by decide)

/-! ## Helper lemmas: failing calls on a closed breaker -/

theorem uint32_succ_le (n : Nat) : gobreaker.uint32 (n + 1) ≤ n + 1 :=
  Nat.mod_le _ _

theorem closedBelow_mono (N k : Nat) (c : CircuitBreaker) (h : ClosedBelow N k c) :
    ClosedBelow N (k + 1) c :=
  ⟨h.1, h.2.1, Nat.le_succ_of_le h.2.2⟩

theorem closedBelow_currentState (N k : Nat) (c : CircuitBreaker) (now : Time)
    (h : ClosedBelow N k c) : ClosedBelow N k { cb := c.cb.currentState now } := by
  obtain ⟨hclosed, htrip, hcf⟩ := h
  simp only [ClosedBelow, gobreaker.CircuitBreaker.currentState, hclosed]
  split_ifs
  · exact ⟨hclosed, htrip, Nat.zero_le k⟩
  · exact ⟨hclosed, htrip, hcf⟩

theorem closedBelow_beforeRequest (N k : Nat) (c : CircuitBreaker) (now : Time)
    (h : ClosedBelow N k c) :
    c.cb.beforeRequest now =
        (.ok (c.cb.currentState now).generation,
          { c.cb.currentState now with counts := (c.cb.currentState now).counts.onRequest }) ∧
      ClosedBelow N k
        { cb :=
          { c.cb.currentState now with counts := (c.cb.currentState now).counts.onRequest } } := by
  obtain ⟨hclosed, htrip, hcf⟩ := closedBelow_currentState N k c now h
  simp only at hclosed htrip hcf
  refine ⟨?_, hclosed, htrip, hcf⟩
  simp [gobreaker.CircuitBreaker.beforeRequest, hclosed]

theorem closedBelow_afterRequest (N k : Nat) (c : CircuitBreaker) (before : Nat) (now : Time)
    (h : ClosedBelow N k c) (hk : k < N) :
    ClosedBelow N (k + 1) { cb := c.cb.afterRequest before false now } := by
  have hcur := closedBelow_currentState N k c now h
  obtain ⟨hclosed, htrip, hcf⟩ := hcur
  simp only at hclosed htrip hcf
  simp only [gobreaker.CircuitBreaker.afterRequest, Bool.false_eq_true, if_false]
  split_ifs with hgen
  · exact ⟨hclosed, htrip, Nat.le_succ_of_le hcf⟩
  · have hle := uint32_succ_le (c.cb.currentState now).counts.ConsecutiveFailures
    have hno : tripAbove N (c.cb.currentState now).counts.onFailure = false := by
      simp only [tripAbove, gobreaker.Counts.onFailure, decide_eq_false_iff_not, not_lt]
      omega
    simp only [gobreaker.CircuitBreaker.onFailure, hclosed, htrip, hno, Bool.false_eq_true,
      if_false]
    exact ⟨rfl, rfl, by simp only [gobreaker.Counts.onFailure]; omega⟩

/-- One failing call on a closed breaker that trips above `N`, with fewer than
`N` consecutive failures counted, at any clock readings: the work is invoked
and the breaker stays closed with at most one more failure counted. -/
theorem run_closedBelow {α : Type} (N k : Nat) (c : CircuitBreaker) (call : BreakerCall α)
    (h : ClosedBelow N k c) (hk : k < N) (hfail : call.fails = true) :
    (call.run c).invoked = true ∧ ClosedBelow N (k + 1) (call.run c).breaker := by
  obtain ⟨hb, hinv⟩ := closedBelow_beforeRequest N k c call.nowBefore h
  have ha := closedBelow_afterRequest N k _ (c.cb.currentState call.nowBefore).generation
    call.nowAfter hinv hk
  have hf := (fails_iff call).mp hfail
  simp only [BreakerCall.run, CircuitBreaker.ExecuteWithBreaker, gobreakerExecute, hb, hf]
  simp only at ha
  constructor
  · split <;> [split_ifs; skip] <;> rfl
  · split <;> [split_ifs; skip] <;> exact ha

end circuitbreaker

namespace circuitbreaker

open user (Time Duration Second t2026)
open gobreaker (zeroTime)

theorem runCalls_closedBelow {α : Type} (N : Nat) :
    ∀ (calls : List (BreakerCall α)) (c : CircuitBreaker) (k : Nat),
      ClosedBelow N k c → k + calls.length ≤ N → (∀ call ∈ calls, call.fails = true) →
      ClosedBelow N (k + calls.length) (runCalls c calls).1 ∧
        (runCalls c calls).2 = List.replicate calls.length true := by
  intro calls
  induction calls with
  | nil =>
    intro c k h _ _
    exact ⟨h, rfl⟩
  | cons call rest ih =>
    intro c k h hlen hfail
    simp only [List.length_cons] at hlen
    obtain ⟨hinv, hstep⟩ := run_closedBelow N k c call h (by omega)
      (hfail call (List.mem_cons_self _ _))
    obtain ⟨h1, h2⟩ := ih (call.run c).breaker (k + 1) hstep (by omega)
      (fun x hx => hfail x (List.mem_cons_of_mem _ hx))
    simp only [runCalls, List.length_cons, List.replicate_succ, hinv, h2]
    refine ⟨?_, trivial⟩
    have hk : k + (rest.length + 1) = k + 1 + rest.length := by omega
    rw [hk]
    exact h1

/-- One failing call inside the counting window, below the threshold: the
failure is counted and the breaker stays closed. -/
theorem run_closedAt_step {α : Type} (N k : Nat) (E : Time) (c : CircuitBreaker)
    (call : BreakerCall α) (h : ClosedAt N k E c) (hk : k < N) (hN : N < 4294967295)
    (hfail : call.fails = true) (hwin : call.nowBefore ≤ E ∧ call.nowAfter ≤ E) :
    (call.run c).invoked = true ∧ ClosedAt N (k + 1) E (call.run c).breaker := by
  obtain ⟨hclosed, htrip, hcf, hexp⟩ := h
  obtain ⟨hinv, hcb⟩ := run_closed_fail c call hclosed (Or.inr (by rw [hexp]; exact hwin)) hfail
  refine ⟨hinv, ?_⟩
  have hu : gobreaker.uint32 (k + 1) = k + 1 := Nat.mod_eq_of_lt (by omega)
  have hno : tripAbove N c.cb.counts.onRequest.onFailure = false := by
    simp only [tripAbove, gobreaker.Counts.onFailure, gobreaker.Counts.onRequest, hcf, hu,
      decide_eq_false_iff_not, not_lt]
    omega
  simp only [ClosedAt, hcb, gobreaker.CircuitBreaker.onFailure, htrip, hno, Bool.false_eq_true,
    if_false]
  exact ⟨hclosed, trivial, by simp only [gobreaker.Counts.onFailure, gobreaker.Counts.onRequest,
    hcf, hu], hexp⟩

/-- One failing call inside the counting window, at the threshold: the breaker
opens. -/
theorem run_closedAt_trip {α : Type} (N : Nat) (E : Time) (c : CircuitBreaker)
    (call : BreakerCall α) (h : ClosedAt N N E c) (hN : N < 4294967295)
    (hfail : call.fails = true) (hwin : call.nowBefore ≤ E ∧ call.nowAfter ≤ E) :
    (call.run c).invoked = true ∧ (call.run c).breaker.cb.state = .StateOpen := by
  obtain ⟨hclosed, htrip, hcf, hexp⟩ := h
  obtain ⟨hinv, hcb⟩ := run_closed_fail c call hclosed (Or.inr (by rw [hexp]; exact hwin)) hfail
  refine ⟨hinv, ?_⟩
  have hu : gobreaker.uint32 (N + 1) = N + 1 := Nat.mod_eq_of_lt (by omega)
  have hyes : tripAbove N c.cb.counts.onRequest.onFailure = true := by
    simp only [tripAbove, gobreaker.Counts.onFailure, gobreaker.Counts.onRequest, hcf, hu,
      decide_eq_true_eq]
    omega
  simp [hcb, gobreaker.CircuitBreaker.onFailure, htrip, hyes, gobreaker.CircuitBreaker.setState,
    hclosed, gobreaker.CircuitBreaker.toNewGeneration]

theorem runCalls_trip {α : Type} (N : Nat) (E : Time) (hN : N < 4294967295) :
    ∀ (calls : List (BreakerCall α)) (c : CircuitBreaker) (k : Nat),
      ClosedAt N k E c → k ≤ N → k + calls.length = N + 1 →
      (∀ call ∈ calls, call.fails = true) → Within E calls →
      (runCalls c calls).1.cb.state = .StateOpen ∧
        (runCalls c calls).2 = List.replicate calls.length true := by
  intro calls
  induction calls with
  | nil =>
    intro c k _ hk hlen _ _
    simp only [List.length_nil] at hlen
    omega
  | cons call rest ih =>
    intro c k h hk hlen hfail hwin
    simp only [List.length_cons] at hlen
    by_cases hkN : k = N
    · subst hkN
      have hrest : rest = [] := List.length_eq_zero.mp (by omega)
      subst hrest
      obtain ⟨hinv, hopen⟩ := run_closedAt_trip k E c call h hN
        (hfail call (List.mem_cons_self _ _)) (hwin call (List.mem_cons_self _ _))
      simp [runCalls, hinv, hopen]
    · obtain ⟨hinv, hstep⟩ := run_closedAt_step N k E c call h (by omega) hN
        (hfail call (List.mem_cons_self _ _)) (hwin call (List.mem_cons_self _ _))
      obtain ⟨h1, h2⟩ := ih (call.run c).breaker (k + 1) hstep (by omega) (by omega)
        (fun x hx => hfail x (List.mem_cons_of_mem _ hx))
        (fun x hx => hwin x (List.mem_cons_of_mem _ hx))
      simp only [runCalls, List.length_cons, List.replicate_succ, hinv, h2]
      exact ⟨h1, trivial⟩

theorem New_closedAt (t0 : Time) : ClosedAt 5 0 (t0 + 10 * Second) (New [] t0) := by
  refine ⟨rfl, rfl, rfl, ?_⟩
  simp [New, gobreaker.NewCircuitBreaker, gobreaker.CircuitBreaker.toNewGeneration, Second]

theorem NewMySQL_closedAt (t0 : Time) :
    ClosedAt 3 0 (t0 + 30 * Second) (db.NewMySQL_cb t0) := by
  refine ⟨rfl, rfl, rfl, ?_⟩
  simp [db.NewMySQL_cb, New, gobreaker.NewCircuitBreaker,
    gobreaker.CircuitBreaker.toNewGeneration, Second, WithMaxRequests, WithInterval,
    WithTimeout, WithReadyToTrip]

theorem closedBelow_of_closedAt (N k : Nat) (E : Time) (c : CircuitBreaker)
    (h : ClosedAt N k E c) : ClosedBelow N k c :=
  ⟨h.1, h.2.1, le_of_eq h.2.2.1⟩

end circuitbreaker

namespace gobreaker

open user (Time Duration Second)

theorem onFailure_timeout (cb : CircuitBreaker) (state : State) (now : Time) :
    (cb.onFailure state now).timeout = cb.timeout := by
  cases state <;> simp only [CircuitBreaker.onFailure, CircuitBreaker.setState,
    CircuitBreaker.toNewGeneration] <;> split_ifs <;> rfl

end gobreaker

namespace circuitbreaker

open user (Time Duration Second t2026)
open gobreaker (zeroTime)

theorem runCalls_append {α : Type} :
    ∀ (xs ys : List (BreakerCall α)) (c : CircuitBreaker),
      runCalls c (xs ++ ys) =
        ((runCalls (runCalls c xs).1 ys).1, (runCalls c xs).2 ++ (runCalls (runCalls c xs).1 ys).2) := by
  intro xs
  induction xs with
  | nil => intro ys c; rfl
  | cons x xs ih =>
    intro ys c
    show runCalls c (x :: (xs ++ ys)) = _
    simp only [runCalls]
    rw [ih]
    rfl

/-- A run of failing calls inside the counting window that stays at or below
the threshold: every failure is counted, the breaker stays closed and keeps its
cool-down setting. -/
theorem runCalls_closedAt {α : Type} (N : Nat) (E : Time) (hN : N < 4294967295) :
    ∀ (calls : List (BreakerCall α)) (c : CircuitBreaker) (k : Nat),
      ClosedAt N k E c → k + calls.length ≤ N →
      (∀ call ∈ calls, call.fails = true) → Within E calls →
      ClosedAt N (k + calls.length) E (runCalls c calls).1 ∧
        (runCalls c calls).2 = List.replicate calls.length true ∧
        (runCalls c calls).1.cb.timeout = c.cb.timeout := by
  intro calls
  induction calls with
  | nil =>
    intro c k h _ _ _
    exact ⟨h, rfl, rfl⟩
  | cons call rest ih =>
    intro c k h hlen hfail hwin
    simp only [List.length_cons] at hlen
    obtain ⟨hinv, hstep⟩ := run_closedAt_step N k E c call h (by omega) hN
      (hfail call (List.mem_cons_self _ _)) (hwin call (List.mem_cons_self _ _))
    have hw := hwin call (List.mem_cons_self _ _)
    have hcb := (run_closed_fail c call h.1 (Or.inr (by rw [h.2.2.2]; exact hw))
      (hfail call (List.mem_cons_self _ _))).2
    have htime : (call.run c).breaker.cb.timeout = c.cb.timeout := by
      rw [hcb]
      exact gobreaker.onFailure_timeout _ _ _
    obtain ⟨h1, h2, h3⟩ := ih (call.run c).breaker (k + 1) hstep (by omega)
      (fun x hx => hfail x (List.mem_cons_of_mem _ hx))
      (fun x hx => hwin x (List.mem_cons_of_mem _ hx))
    simp only [runCalls, List.length_cons, List.replicate_succ, hinv, h2]
    refine ⟨?_, trivial, ?_⟩
    · have hk : k + (rest.length + 1) = k + 1 + rest.length := by omega
      rw [hk]
      exact h1
    · rw [h3, htime]

/-- The failing call that takes a closed breaker over its threshold inside the
counting window opens it until `Timeout` after the call, and a call made no
later than that is rejected with `ErrCircuitOpen` without invoking the work. -/
theorem run_trip_then_rejected {α : Type} (N : Nat) (E : Time) (c : CircuitBreaker)
    (call1 call2 : BreakerCall α) (hN : N < 4294967295)
    (h : ClosedAt N N E c)
    (hfail : call1.fails = true)
    (hwin : call1.nowBefore ≤ E ∧ call1.nowAfter ≤ E)
    (hcool : call2.nowBefore ≤ call1.nowAfter + c.cb.timeout) :
    (call1.run c).invoked = true ∧
    (call1.run c).breaker.cb.state = .StateOpen ∧
    call2.run (call1.run c).breaker =
      { val := none, err := some .ErrCircuitOpen, breaker := (call1.run c).breaker
        invoked := false } := by
  obtain ⟨hclosed, htrip, hcf, hexp⟩ := h
  obtain ⟨hinv, hcb⟩ := run_closed_fail c call1 hclosed (Or.inr (by rw [hexp]; exact hwin)) hfail
  have hu : gobreaker.uint32 (N + 1) = N + 1 := Nat.mod_eq_of_lt (by omega)
  have hyes : c.cb.readyToTrip c.cb.counts.onRequest.onFailure = true := by
    rw [htrip]
    simp only [tripAbove, gobreaker.Counts.onFailure, gobreaker.Counts.onRequest, hcf, hu,
      decide_eq_true_eq]
    omega
  have hstate : (call1.run c).breaker.cb.state = .StateOpen := by
    rw [hcb]
    simp [gobreaker.CircuitBreaker.onFailure, hyes, gobreaker.CircuitBreaker.setState, hclosed,
      gobreaker.CircuitBreaker.toNewGeneration]
  have hexp2 : (call1.run c).breaker.cb.expiry = call1.nowAfter + c.cb.timeout := by
    rw [hcb]
    simp [gobreaker.CircuitBreaker.onFailure, hyes, gobreaker.CircuitBreaker.setState, hclosed,
      gobreaker.CircuitBreaker.toNewGeneration]
  refine ⟨hinv, hstate, ?_⟩
  exact run_open _ call2 hstate (by rw [hexp2]; exact hcool)

/-- A failing call that starts after the end of the counting window of a closed
breaker finds the counts cleared: the work is invoked and the breaker stays
closed with at most one failure counted, whatever was counted before. -/
theorem run_closed_rollover {α : Type} (N : Nat) (c : CircuitBreaker) (call : BreakerCall α)
    (hN : 0 < N) (hclosed : c.cb.state = .StateClosed) (htrip : c.cb.readyToTrip = tripAbove N)
    (hroll : c.cb.expiry ≠ zeroTime ∧ c.cb.expiry < call.nowBefore)
    (hfail : call.fails = true) :
    (call.run c).invoked = true ∧ ClosedBelow N 1 (call.run c).breaker := by
  have hcur : ClosedBelow N 0 { cb := c.cb.currentState call.nowBefore } := by
    simp [ClosedBelow, gobreaker.CircuitBreaker.currentState, hclosed, hroll,
      gobreaker.CircuitBreaker.toNewGeneration, gobreaker.Counts.clear, htrip]
  have hb : c.cb.beforeRequest call.nowBefore =
      (.ok (c.cb.currentState call.nowBefore).generation,
        { c.cb.currentState call.nowBefore with
          counts := (c.cb.currentState call.nowBefore).counts.onRequest }) := by
    have hs := hcur.1
    simp only at hs
    simp [gobreaker.CircuitBreaker.beforeRequest, hs]
  have hinv : ClosedBelow N 0
      { cb :=
        { c.cb.currentState call.nowBefore with
          counts := (c.cb.currentState call.nowBefore).counts.onRequest } } :=
    ⟨hcur.1, hcur.2.1, hcur.2.2⟩
  have ha := closedBelow_afterRequest N 0 _ (c.cb.currentState call.nowBefore).generation
    call.nowAfter hinv hN
  have hf := (fails_iff call).mp hfail
  simp only [BreakerCall.run, CircuitBreaker.ExecuteWithBreaker, gobreakerExecute, hb, hf]
  simp only at ha
  constructor
  · split <;> [split_ifs; skip] <;> rfl
  · split <;> [split_ifs; skip] <;> exact ha

end circuitbreaker

namespace circuitbreaker

open user (Time Duration Second t2026)
open gobreaker (zeroTime)

/-! ## C9: the call after the trip -/

/-- C9, as stated, fails: on the breaker of `New` with no options built at
`t2026`, six calls in a row are admitted and fail (more consecutive failures of
completed calls than the threshold 5), the sixth coming 10.6 s after
construction, after the counting interval has cleared the counts. The breaker
is still closed, and the very next call, 100 ms later, is admitted: the work is
invoked and its own error comes back, not `ErrCircuitOpen`. -/
theorem C9_counterexample :
    (∀ call ∈ sixFailuresApart, call.fails = true) ∧
    (runCalls (New [] t2026) sixFailuresApart).2 = [true, true, true, true, true, true] ∧
    (failingAt 10700).nowBefore ≤ (failingAt 10600).nowAfter + (New [] t2026).cb.timeout ∧
    ((failingAt 10700).run (runCalls (New [] t2026) sixFailuresApart).1).invoked = true ∧
    ((failingAt 10700).run (runCalls (New [] t2026) sixFailuresApart).1).err =
      some (.other "connection refused") ∧
    ((failingAt 10700).run (runCalls (New [] t2026) sixFailuresApart).1).err ≠
      some .ErrCircuitOpen := by
  decide

/-- C9, amended: on a closed breaker that trips above `N` consecutive failures
and has `k` of them counted in its current counting window, once a run of
failing calls (work error or done context), all recorded within that window,
takes the count to `N + 1`, every call of the run has invoked the work, the
breaker is open, and the very next call, made no later than `Timeout` after the
last call of the run, returns `(nil, ErrCircuitOpen)`, does not invoke the work
and leaves the breaker as it was. -/
theorem C9_next_call_rejected {α : Type} (N k : Nat) (E : Time) (c : CircuitBreaker)
    (calls : List (BreakerCall α)) (last next : BreakerCall α)
    (hN : N < 4294967295)
    (hc : ClosedAt N k E c)
    (hlen : k + calls.length = N)
    (hfail : ∀ call ∈ calls ++ [last], call.fails = true)
    (hwin : Within E (calls ++ [last]))
    (hcool : next.nowBefore ≤ last.nowAfter + c.cb.timeout) :
    (runCalls c (calls ++ [last])).2 = List.replicate (calls.length + 1) true ∧
    (runCalls c (calls ++ [last])).1.cb.state = .StateOpen ∧
    next.run (runCalls c (calls ++ [last])).1 =
      { val := none, err := some .ErrCircuitOpen
        breaker := (runCalls c (calls ++ [last])).1, invoked := false } := by
  obtain ⟨h1, h2, h3⟩ := runCalls_closedAt N E hN calls c k hc (by omega)
    (fun x hx => hfail x (List.mem_append_left _ hx))
    (fun x hx => hwin x (List.mem_append_left _ hx))
  rw [hlen] at h1
  obtain ⟨g1, g2, g3⟩ := run_trip_then_rejected N E (runCalls c calls).1 last next hN h1
    (hfail last (List.mem_append_right _ (List.mem_singleton_self _)))
    (hwin last (List.mem_append_right _ (List.mem_singleton_self _)))
    (by rw [h3]; exact hcool)
  rw [runCalls_append]
  simp only [runCalls, h2, g1]
  refine ⟨?_, g2, g3⟩
  rw [List.replicate_succ']

/-- C9, amended, at a concrete input: six failing calls within one second on
the breaker of `New` with no options, and a call 100 ms later. -/
theorem C9_next_call_rejected_witness :
    (runCalls (New [] t2026) (fiveFailures ++ [failingAt 600])).2 =
      List.replicate (fiveFailures.length + 1) true ∧
    (runCalls (New [] t2026) (fiveFailures ++ [failingAt 600])).1.cb.state = .StateOpen ∧
    (failingAt 700).run (runCalls (New [] t2026) (fiveFailures ++ [failingAt 600])).1 =
      { val := none, err := some .ErrCircuitOpen
        breaker := (runCalls (New [] t2026) (fiveFailures ++ [failingAt 600])).1
        invoked := false } :=
  C9_next_call_rejected 5 0 (t2026 + 10 * Second) (New [] t2026) fiveFailures (failingAt 600)
    (failingAt 700) (by decide) (New_closedAt t2026) (by decide) (by decide)
    (by unfold Within; decide) (by decide)

end circuitbreaker

namespace circuitbreaker

open user (Time Duration Second t2026)
open gobreaker (zeroTime)

/-! ## C10: the breaker below and at the trip threshold -/

/-- C10, as stated, fails in its last part: on the breaker of `New` with no
options built at `t2026`, six consecutive failing calls of which the sixth
comes 10.6 s later (after the 10 s counting interval, which clears the counts)
all invoke the work and leave the breaker closed; likewise four consecutive
failing calls on the breaker of `NewMySQL` when the fourth comes after the 30 s
interval. -/
theorem C10_counterexample :
    (∀ call ∈ sixFailuresApart, call.fails = true) ∧
    (runCalls (New [] t2026) sixFailuresApart).2 = [true, true, true, true, true, true] ∧
    (runCalls (New [] t2026) sixFailuresApart).1.cb.state = .StateClosed ∧
    (∀ call ∈ fourFailuresApart, call.fails = true) ∧
    (runCalls (db.NewMySQL_cb t2026) fourFailuresApart).2 = [true, true, true, true] ∧
    (runCalls (db.NewMySQL_cb t2026) fourFailuresApart).1.cb.state = .StateClosed := by
  decide

/-- C10, amended: the breaker of `New` with no options starts closed, trips
above 5 consecutive failures and counts in a window of 10 s; the breaker of
`NewMySQL` starts closed, trips above 3 and counts in a window of 30 s. For
every closed breaker that trips above `N` and has `k` consecutive failures
counted in a window ending at `E` (`k = 0` for a breaker fresh from its
constructor): every run of consecutive failing calls that keeps the total at or
below `N`, at any clock readings, invokes the work each time and leaves the
breaker closed; a run that takes the total to `N + 1` with all its clock
readings no later than `E` invokes the work each time and leaves the breaker
open; and a failing call that starts after `E` finds the counts cleared: it
invokes the work and leaves the breaker closed with at most one failure
counted. -/
theorem C10_threshold {α : Type} (N k : Nat) (E : Time) (c : CircuitBreaker)
    (calls : List (BreakerCall α)) (t0 : Time)
    (hN : 0 < N ∧ N < 4294967295)
    (hc : ClosedAt N k E c)
    (hfail : ∀ call ∈ calls, call.fails = true) :
    (ClosedAt 5 0 (t0 + 10 * Second) (New [] t0) ∧
      ClosedAt 3 0 (t0 + 30 * Second) (db.NewMySQL_cb t0)) ∧
    (k + calls.length ≤ N →
      (runCalls c calls).1.cb.state = .StateClosed ∧
      (runCalls c calls).2 = List.replicate calls.length true) ∧
    (k ≤ N → k + calls.length = N + 1 → Within E calls →
      (runCalls c calls).1.cb.state = .StateOpen ∧
      (runCalls c calls).2 = List.replicate calls.length true) ∧
    (∀ call : BreakerCall α, call.fails = true → E ≠ zeroTime → E < call.nowBefore →
      (call.run c).invoked = true ∧
      (call.run c).breaker.cb.state = .StateClosed ∧
      (call.run c).breaker.cb.counts.ConsecutiveFailures ≤ 1) := by
  refine ⟨⟨New_closedAt t0, NewMySQL_closedAt t0⟩, ?_, ?_, ?_⟩
  · intro hlen
    obtain ⟨h1, h2⟩ := runCalls_closedBelow N calls c k
      (closedBelow_of_closedAt _ _ _ _ hc) hlen hfail
    exact ⟨h1.1, h2⟩
  · intro hk hlen hwin
    exact runCalls_trip N E hN.2 calls c k hc hk hlen hfail hwin
  · intro call hcall hE hlate
    obtain ⟨hinv, hb⟩ := run_closed_rollover N c call hN.1 hc.1 hc.2.1
      ⟨by rw [hc.2.2.2]; exact hE, by rw [hc.2.2.2]; exact hlate⟩ hcall
    exact ⟨hinv, hb.1, hb.2.2⟩

/-- C10, amended, at concrete inputs: five and six failing calls within one
second on the breaker of `New`, three and four on the breaker of `NewMySQL`,
and on the breaker of `New` that has counted five failures a sixth within the
window and a sixth after it. -/
theorem C10_threshold_witness :
    ((runCalls (New [] t2026) fiveFailures).1.cb.state = .StateClosed ∧
      (runCalls (New [] t2026) fiveFailures).2 = List.replicate fiveFailures.length true) ∧
    ((runCalls (New [] t2026) sixFailures).1.cb.state = .StateOpen ∧
      (runCalls (New [] t2026) sixFailures).2 = List.replicate sixFailures.length true) ∧
    ((runCalls (db.NewMySQL_cb t2026) threeFailures).1.cb.state = .StateClosed ∧
      (runCalls (db.NewMySQL_cb t2026) threeFailures).2 =
        List.replicate threeFailures.length true) ∧
    ((runCalls (db.NewMySQL_cb t2026) fourFailures).1.cb.state = .StateOpen ∧
      (runCalls (db.NewMySQL_cb t2026) fourFailures).2 =
        List.replicate fourFailures.length true) ∧
    ((runCalls afterFiveFailures [failingAt 600]).1.cb.state = .StateOpen ∧
      (runCalls afterFiveFailures [failingAt 600]).2 = List.replicate 1 true) ∧
    (((failingAt 10600).run afterFiveFailures).invoked = true ∧
      ((failingAt 10600).run afterFiveFailures).breaker.cb.state = .StateClosed ∧
      ((failingAt 10600).run afterFiveFailures).breaker.cb.counts.ConsecutiveFailures ≤ 1) :=
  ⟨(C10_threshold 5 0 (t2026 + 10 * Second) (New [] t2026) fiveFailures t2026
      (by decide) (New_closedAt t2026) (by decide)).2.1 (by decide),
   (C10_threshold 5 0 (t2026 + 10 * Second) (New [] t2026) sixFailures t2026
      (by decide) (New_closedAt t2026) (by decide)).2.2.1 (by decide) (by decide)
      (by unfold Within; decide),
   (C10_threshold 3 0 (t2026 + 30 * Second) (db.NewMySQL_cb t2026) threeFailures t2026
      (by decide) (NewMySQL_closedAt t2026) (by decide)).2.1 (by decide),
   (C10_threshold 3 0 (t2026 + 30 * Second) (db.NewMySQL_cb t2026) fourFailures t2026
      (by decide) (NewMySQL_closedAt t2026) (by decide)).2.2.1 (by decide) (by decide)
      (by unfold Within; decide),
   (C10_threshold 5 5 (t2026 + 10 * Second) afterFiveFailures [failingAt 600] t2026
      (by decide) ⟨by decide, rfl, by decide, by decide⟩ (by decide)).2.2.1 (by decide)
      (by decide) (by unfold Within; decide),
   (C10_threshold 5 5 (t2026 + 10 * Second) afterFiveFailures ([] : List (BreakerCall String))
      t2026 (by decide) ⟨by decide, rfl, by decide, by decide⟩ (by simp)).2.2.2
      (failingAt 10600) (by decide) (by decide) (by decide)⟩

end circuitbreaker

namespace circuitbreaker

open user (Time Duration Second t2026)
open gobreaker (zeroTime)

/-! ## C11: probes in the half-open state -/

theorem succeeds_iff {α : Type} (call : BreakerCall α) :
    call.fails = false ↔ (CircuitBreaker.Execute call.sel call.fn).2 = none := by
  simp only [BreakerCall.fails]
  cases (CircuitBreaker.Execute call.sel call.fn).2 <;> simp

/-- A call on a half-open breaker below its probe quota is admitted, and its
result is recorded in the same generation. -/
theorem run_halfOpen {α : Type} (c : CircuitBreaker) (call : BreakerCall α)
    (hhalf : c.cb.state = .StateHalfOpen) (hroom : c.cb.counts.Requests < c.cb.maxRequests) :
    (call.run c).invoked = true ∧
    (call.run c).breaker.cb =
      if call.fails then
        ({ c.cb with counts := c.cb.counts.onRequest } : gobreaker.CircuitBreaker).onFailure
          .StateHalfOpen call.nowAfter
      else
        ({ c.cb with counts := c.cb.counts.onRequest } : gobreaker.CircuitBreaker).onSuccess
          .StateHalfOpen call.nowAfter := by
  have hb : c.cb.beforeRequest call.nowBefore =
      (.ok c.cb.generation, { c.cb with counts := c.cb.counts.onRequest }) := by
    simp [gobreaker.CircuitBreaker.beforeRequest, gobreaker.currentState_halfOpen c.cb _ hhalf,
      hhalf, not_le.mpr hroom]
  have ha : ∀ b : Bool,
      ({ c.cb with counts := c.cb.counts.onRequest } : gobreaker.CircuitBreaker).afterRequest
        c.cb.generation b call.nowAfter =
      if b then
        ({ c.cb with counts := c.cb.counts.onRequest } : gobreaker.CircuitBreaker).onSuccess
          .StateHalfOpen call.nowAfter
      else
        ({ c.cb with counts := c.cb.counts.onRequest } : gobreaker.CircuitBreaker).onFailure
          .StateHalfOpen call.nowAfter := by
    intro b
    simp [gobreaker.CircuitBreaker.afterRequest, gobreaker.CircuitBreaker.currentState, hhalf]
  simp only [BreakerCall.run, CircuitBreaker.ExecuteWithBreaker, gobreakerExecute, hb, ha,
    BreakerCall.fails]
  cases he : (CircuitBreaker.Execute call.sel call.fn).2 with
  | none => simp
  | some e =>
    simp only [Option.isNone_some, Option.isSome_some, if_true, Bool.false_eq_true, if_false]
    constructor <;> split_ifs <;> rfl

end circuitbreaker

namespace circuitbreaker

open user (Time Duration Second t2026)
open gobreaker (zeroTime)

/-- A successful probe that does not complete the quota leaves the breaker
half-open with one more success counted. -/
theorem run_halfOpenAt_step {α : Type} (M k : Nat) (c : CircuitBreaker) (call : BreakerCall α)
    (h : HalfOpenAt M k c) (hk : k + 1 < M) (hM : M < 4294967296)
    (hok : call.fails = false) :
    (call.run c).invoked = true ∧ HalfOpenAt M (k + 1) (call.run c).breaker := by
  obtain ⟨hhalf, hmax, hreq, hcs⟩ := h
  obtain ⟨hinv, hcb⟩ := run_halfOpen c call hhalf (by omega)
  refine ⟨hinv, ?_⟩
  have hu : gobreaker.uint32 (k + 1) = k + 1 := Nat.mod_eq_of_lt (by omega)
  rw [hok] at hcb
  simp only [Bool.false_eq_true, if_false, gobreaker.CircuitBreaker.onSuccess,
    gobreaker.Counts.onSuccess, gobreaker.Counts.onRequest, hreq, hcs, hu, hmax] at hcb
  rw [if_neg (by omega)] at hcb
  simp only [HalfOpenAt, hcb]
  exact ⟨hhalf, trivial, trivial, trivial⟩

/-- The successful probe that completes the quota closes the breaker. -/
theorem run_halfOpenAt_close {α : Type} (M k : Nat) (c : CircuitBreaker) (call : BreakerCall α)
    (h : HalfOpenAt M k c) (hk : k + 1 = M) (hM : M < 4294967296)
    (hok : call.fails = false) :
    (call.run c).invoked = true ∧ (call.run c).breaker.cb.state = .StateClosed := by
  obtain ⟨hhalf, hmax, hreq, hcs⟩ := h
  obtain ⟨hinv, hcb⟩ := run_halfOpen c call hhalf (by omega)
  refine ⟨hinv, ?_⟩
  have hu : gobreaker.uint32 (k + 1) = k + 1 := Nat.mod_eq_of_lt (by omega)
  rw [hok] at hcb
  simp only [Bool.false_eq_true, if_false, gobreaker.CircuitBreaker.onSuccess,
    gobreaker.Counts.onSuccess, gobreaker.Counts.onRequest, hreq, hcs, hu, hmax] at hcb
  rw [if_pos (by omega)] at hcb
  rw [hcb]
  simp [gobreaker.CircuitBreaker.setState, hhalf, gobreaker.CircuitBreaker.toNewGeneration]

theorem runCalls_probes_below {α : Type} (M : Nat) (hM : M < 4294967296) :
    ∀ (calls : List (BreakerCall α)) (c : CircuitBreaker) (k : Nat),
      HalfOpenAt M k c → k + calls.length < M → (∀ call ∈ calls, call.fails = false) →
      HalfOpenAt M (k + calls.length) (runCalls c calls).1 ∧
        (runCalls c calls).2 = List.replicate calls.length true := by
  intro calls
  induction calls with
  | nil =>
    intro c k h _ _
    exact ⟨h, rfl⟩
  | cons call rest ih =>
    intro c k h hlen hok
    simp only [List.length_cons] at hlen
    obtain ⟨hinv, hstep⟩ := run_halfOpenAt_step M k c call h (by omega) hM
      (hok call (List.mem_cons_self _ _))
    obtain ⟨h1, h2⟩ := ih (call.run c).breaker (k + 1) hstep (by omega)
      (fun x hx => hok x (List.mem_cons_of_mem _ hx))
    simp only [runCalls, List.length_cons, List.replicate_succ, hinv, h2]
    refine ⟨?_, trivial⟩
    have hk : k + (rest.length + 1) = k + 1 + rest.length := by omega
    rw [hk]
    exact h1

theorem runCalls_probes_close {α : Type} (M : Nat) (hM : M < 4294967296) :
    ∀ (calls : List (BreakerCall α)) (c : CircuitBreaker) (k : Nat),
      HalfOpenAt M k c → k < M → k + calls.length = M → (∀ call ∈ calls, call.fails = false) →
      (runCalls c calls).1.cb.state = .StateClosed ∧
        (runCalls c calls).2 = List.replicate calls.length true := by
  intro calls
  induction calls with
  | nil =>
    intro c k _ hk hlen _
    simp only [List.length_nil] at hlen
    omega
  | cons call rest ih =>
    intro c k h hk hlen hok
    simp only [List.length_cons] at hlen
    by_cases hlast : k + 1 = M
    · have hrest : rest = [] := List.length_eq_zero.mp (by omega)
      subst hrest
      obtain ⟨hinv, hclosed⟩ := run_halfOpenAt_close M k c call h hlast hM
        (hok call (List.mem_cons_self _ _))
      simp [runCalls, hinv, hclosed]
    · obtain ⟨hinv, hstep⟩ := run_halfOpenAt_step M k c call h (by omega) hM
        (hok call (List.mem_cons_self _ _))
      obtain ⟨h1, h2⟩ := ih (call.run c).breaker (k + 1) hstep (by omega) (by omega)
        (fun x hx => hok x (List.mem_cons_of_mem _ hx))
      simp only [runCalls, List.length_cons, List.replicate_succ, hinv, h2]
      exact ⟨h1, trivial⟩

/-- A failed probe opens the breaker and starts the cool-down at the clock
reading of the failure. -/
theorem run_halfOpen_fail {α : Type} (c : CircuitBreaker) (call : BreakerCall α)
    (hhalf : c.cb.state = .StateHalfOpen) (hroom : c.cb.counts.Requests < c.cb.maxRequests)
    (hfail : call.fails = true) :
    (call.run c).invoked = true ∧ (call.run c).breaker.cb.state = .StateOpen ∧
    (call.run c).breaker.cb.expiry = call.nowAfter + c.cb.timeout ∧
    (call.run c).breaker.cb.maxRequests = c.cb.maxRequests := by
  obtain ⟨hinv, hcb⟩ := run_halfOpen c call hhalf hroom
  rw [hfail] at hcb
  simp only [if_true] at hcb
  refine ⟨hinv, ?_, ?_, ?_⟩ <;> rw [hcb] <;>
    simp [gobreaker.CircuitBreaker.onFailure, gobreaker.CircuitBreaker.setState, hhalf,
      gobreaker.CircuitBreaker.toNewGeneration]

/-- A call on an open breaker after the cool-down has elapsed is admitted as
the first probe. -/
theorem run_open_elapsed {α : Type} (c : CircuitBreaker) (call : BreakerCall α)
    (hopen : c.cb.state = .StateOpen) (hcool : c.cb.expiry < call.nowBefore)
    (hmax : 1 ≤ c.cb.maxRequests) :
    (call.run c).invoked = true := by
  have hb : (c.cb.beforeRequest call.nowBefore).1 =
      .ok (gobreaker.uint64 (c.cb.generation + 1)) := by
    simp [gobreaker.CircuitBreaker.beforeRequest, gobreaker.CircuitBreaker.currentState, hopen,
      hcool, gobreaker.CircuitBreaker.setState, gobreaker.CircuitBreaker.toNewGeneration,
      gobreaker.Counts.clear]
    rw [if_neg (by omega)]
  rcases hq : c.cb.beforeRequest call.nowBefore with ⟨r, cb1⟩
  rw [hq] at hb
  simp only at hb
  subst hb
  simp only [BreakerCall.run, CircuitBreaker.ExecuteWithBreaker, gobreakerExecute, hq]
  split <;> [split_ifs; skip] <;> rfl

end circuitbreaker

namespace circuitbreaker

open user (Time Duration Second t2026)
open gobreaker (zeroTime)

/-- C11: on a half-open breaker with probe quota `M` (`MaxRequests`) on which
`k < M` probes have been admitted one after the other and have all succeeded
(`k = 0` when it has just turned half-open): a run of further successful probe
calls that brings the successes to `M` invokes the work each time and leaves
the breaker closed, and a shorter run leaves it half-open; a single failed
probe call (work error or done context) invokes the work and leaves the breaker
open, after which a call whose clock reading is no later than `Timeout` after
that failure is rejected with `ErrCircuitOpen` without invoking the work, and a
call later than that is admitted. -/
theorem C11_half_open_probes {α : Type} (M k : Nat) (c : CircuitBreaker)
    (probes : List (BreakerCall α)) (failed next : BreakerCall α)
    (h : HalfOpenAt M k c) (hk : k < M) (hM : M < 4294967296)
    (hok : ∀ call ∈ probes, call.fails = false) (hfail : failed.fails = true) :
    (k + probes.length = M →
      (runCalls c probes).1.cb.state = .StateClosed ∧
      (runCalls c probes).2 = List.replicate probes.length true) ∧
    (k + probes.length < M →
      (runCalls c probes).1.cb.state = .StateHalfOpen ∧
      (runCalls c probes).2 = List.replicate probes.length true) ∧
    (failed.run c).invoked = true ∧
    (failed.run c).breaker.cb.state = .StateOpen ∧
    (next.nowBefore ≤ failed.nowAfter + c.cb.timeout →
      next.run (failed.run c).breaker =
        { val := none, err := some .ErrCircuitOpen, breaker := (failed.run c).breaker
          invoked := false }) ∧
    (failed.nowAfter + c.cb.timeout < next.nowBefore →
      (next.run (failed.run c).breaker).invoked = true) := by
  obtain ⟨hinv, hopen, hexp, hmax⟩ :=
    run_halfOpen_fail c failed h.1 (by rw [h.2.2.1, h.2.1]; exact hk) hfail
  refine ⟨?_, ?_, hinv, hopen, ?_, ?_⟩
  · intro hlen
    exact runCalls_probes_close M hM probes c k h hk hlen hok
  · intro hlen
    obtain ⟨h1, h2⟩ := runCalls_probes_below M hM probes c k h hlen hok
    exact ⟨h1.1, h2⟩
  · intro hcool
    exact run_open _ next hopen (by rw [hexp]; exact hcool)
  · intro hcool
    exact run_open_elapsed _ next hopen (by rw [hexp]; exact hcool)
      (by rw [hmax, h.2.1]; omega)

/-- C11 at concrete inputs: the breaker of `NewMySQL` just turned half-open;
three successful probes close it; a failed probe opens it, a call 5 s later is
rejected and a call 11 s later is admitted. -/
theorem C11_half_open_probes_witness :
    ((runCalls halfOpenFresh [succeedingAt 100, succeedingAt 200, succeedingAt 300]).1.cb.state
        = .StateClosed ∧
      (runCalls halfOpenFresh [succeedingAt 100, succeedingAt 200, succeedingAt 300]).2
        = List.replicate 3 true) ∧
    ((failingAt 100).run halfOpenFresh).invoked = true ∧
    ((failingAt 100).run halfOpenFresh).breaker.cb.state = .StateOpen ∧
    (failingAt 5000).run ((failingAt 100).run halfOpenFresh).breaker =
      { val := none, err := some .ErrCircuitOpen
        breaker := ((failingAt 100).run halfOpenFresh).breaker, invoked := false } ∧
    ((succeedingAt 11000).run ((failingAt 100).run halfOpenFresh).breaker).invoked = true :=
  ⟨(C11_half_open_probes 3 0 halfOpenFresh
      [succeedingAt 100, succeedingAt 200, succeedingAt 300] (failingAt 100) (failingAt 5000)
      ⟨rfl, rfl, rfl, rfl⟩ (by decide) (by decide) (by decide) (by decide)).1 rfl,
    (C11_half_open_probes 3 0 halfOpenFresh [] (failingAt 100) (failingAt 5000)
      ⟨rfl, rfl, rfl, rfl⟩ (by decide) (by decide) (by decide) (by decide)).2.2.1,
    (C11_half_open_probes 3 0 halfOpenFresh [] (failingAt 100) (failingAt 5000)
      ⟨rfl, rfl, rfl, rfl⟩ (by decide) (by decide) (by decide) (by decide)).2.2.2.1,
    (C11_half_open_probes 3 0 halfOpenFresh [] (failingAt 100) (failingAt 5000)
      ⟨rfl, rfl, rfl, rfl⟩ (by decide) (by decide) (by decide) (by decide)).2.2.2.2.1
      (by decide),
    (C11_half_open_probes 3 0 halfOpenFresh [] (failingAt 100) (succeedingAt 11000)
      ⟨rfl, rfl, rfl, rfl⟩ (by decide) (by decide) (by decide) (by decide)).2.2.2.2.2
      (by decide)⟩

end circuitbreaker

namespace user

/-! ## C12: the expiries of issued tokens -/

/-- C12: over any repository, for every user id and every reading of the clock
and of the environment, `generateTokens` makes the single repository call
`StoreRefreshToken(userID, refresh, nowStore + D_refresh)` and, unless that call
reports an error (which it returns), returns the access token signed for
`user_id = userID`, `exp = Unix(nowAccess + D_access)` and the refresh token
signed for `user_id = userID`, `exp = Unix(nowRefresh + D_refresh)`; `D_access`
is the value `ParseDuration` gives for `ACCESS_TOKEN_DURATION`, or 5 minutes
when it gives an error (as it does for the empty string of an unset or empty
variable), and `D_refresh` the value for `REFRESH_TOKEN_DURATION`, or 24 hours. -/
theorem C12_token_expiries {σ : Type} (s : Service σ) (lib : Lib) (amb : Ambient)
    (userID : Int) (st : σ) :
    accessTokenDuration lib amb =
        (lib.ParseDuration (amb.Getenv "ACCESS_TOKEN_DURATION")).getD (5 * Minute) ∧
    refreshTokenDuration lib amb =
        (lib.ParseDuration (amb.Getenv "REFRESH_TOKEN_DURATION")).getD (24 * Hour) ∧
    (5 * Minute = 300000000000 ∧ 24 * Hour = 86400000000000) ∧
    (lib.ParseDuration "" = none → amb.Getenv "ACCESS_TOKEN_DURATION" = "" →
      accessTokenDuration lib amb = 5 * Minute) ∧
    (lib.ParseDuration "" = none → amb.Getenv "REFRESH_TOKEN_DURATION" = "" →
      refreshTokenDuration lib amb = 24 * Hour) ∧
    (s.generateTokens lib amb userID st).calls =
      [.StoreRefreshToken userID
        (lib.SignedString s.jwtSecret userID
          (Unix (amb.nowRefresh + refreshTokenDuration lib amb)))
        (amb.nowStore + refreshTokenDuration lib amb)] ∧
    (s.generateTokens lib amb userID st).out =
      (match (s.repo.StoreRefreshToken userID
          (lib.SignedString s.jwtSecret userID
            (Unix (amb.nowRefresh + refreshTokenDuration lib amb)))
          (amb.nowStore + refreshTokenDuration lib amb) st).1 with
        | some e => .error e
        | none =>
          .ok
            { AccessToken :=
                lib.SignedString s.jwtSecret userID
                  (Unix (amb.nowAccess + accessTokenDuration lib amb))
              RefreshToken :=
                lib.SignedString s.jwtSecret userID
                  (Unix (amb.nowRefresh + refreshTokenDuration lib amb)) }) := by
  refine ⟨?_, ?_, ⟨by decide, by decide⟩, ?_, ?_, ?_, ?_⟩
  · simp only [accessTokenDuration]
    cases lib.ParseDuration (amb.Getenv "ACCESS_TOKEN_DURATION") <;> rfl
  · simp only [refreshTokenDuration]
    cases lib.ParseDuration (amb.Getenv "REFRESH_TOKEN_DURATION") <;> rfl
  · intro hp he
    simp only [accessTokenDuration, he, hp]
  · intro hp he
    simp only [refreshTokenDuration, he, hp]
  · simp only [Service.generateTokens]
    split <;> rfl
  · simp only [Service.generateTokens]
    rcases hq : s.repo.StoreRefreshToken userID
        (lib.SignedString s.jwtSecret userID
          (Unix (amb.nowRefresh + refreshTokenDuration lib amb)))
        (amb.nowStore + refreshTokenDuration lib amb) st with ⟨e, st1⟩
    cases e <;> rfl

end user

namespace user

/-! ## C13: a refresh with a live token -/

theorem demoSign_ne_empty (secret : String) (u e : Int) : demoSign secret u e ≠ "" := by
  intro h
  have hd := congrArg String.data h
  simp [demoSign, encInt] at hd

/-- A refresh on the database with a stored token that has not expired, when
the lookup, the `DELETE` of the token and the two statements of
`StoreRefreshToken` all run: every row of the presented token is deleted, then
every row of the user, and the new row is added. -/
theorem RefreshToken_live_run (lib : Lib) (dbNow : Time) (secret : String) (amb : Ambient)
    (t : String) (db : Database) (row : RefreshToken)
    (hfind : db.store.refresh_tokens.find? (fun r => r.Token == t) = some row)
    (hlive : After amb.nowCheck row.ExpiresAt = false)
    (hrun : ∀ a ∈ db.answers.take 4, a = Answer.ok) :
    (dbService dbNow secret).RefreshToken lib amb t db =
      { out := .ok (issuedPair lib secret amb row.UserID)
        st :=
          { store :=
              { db.store with
                refresh_tokens :=
                  ((db.store.refresh_tokens.filter (fun r => r.Token != t)).filter
                      (fun r => r.UserID != row.UserID)) ++
                    [{ UserID := row.UserID
                       Token := (issuedPair lib secret amb row.UserID).RefreshToken
                       ExpiresAt := amb.nowStore + refreshTokenDuration lib amb }] }
            answers := db.answers.drop 4 }
        calls :=
          [ .GetRefreshToken t, .DeleteRefreshToken t
          , .StoreRefreshToken row.UserID (issuedPair lib secret amb row.UserID).RefreshToken
              (amb.nowStore + refreshTokenDuration lib amb) ] } := by
  obtain ⟨st, answers⟩ := db
  simp only at hfind
  rcases answers with _ | ⟨a, _ | ⟨b, _ | ⟨c, _ | ⟨d, rest⟩⟩⟩⟩
  · simp [Service.RefreshToken, dbService, NewService, MySQLRepository.over,
      MySQLRepository.GetRefreshToken, MySQLRepository.DeleteRefreshToken,
      MySQLRepository.StoreRefreshToken, MySQLRepository.DeleteAllRefreshTokens,
      Database.QueryRow, Database.Exec, Service.generateTokens, Run.after, issuedPair, hfind,
      hlive]
  · have ha : a = Answer.ok := hrun a (by simp)
    subst ha
    simp [Service.RefreshToken, dbService, NewService, MySQLRepository.over,
      MySQLRepository.GetRefreshToken, MySQLRepository.DeleteRefreshToken,
      MySQLRepository.StoreRefreshToken, MySQLRepository.DeleteAllRefreshTokens,
      Database.QueryRow, Database.Exec, Service.generateTokens, Run.after, issuedPair, hfind,
      hlive]
  · have ha : a = Answer.ok := hrun a (by simp)
    have hb : b = Answer.ok := hrun b (by simp)
    subst ha
    subst hb
    simp [Service.RefreshToken, dbService, NewService, MySQLRepository.over,
      MySQLRepository.GetRefreshToken, MySQLRepository.DeleteRefreshToken,
      MySQLRepository.StoreRefreshToken, MySQLRepository.DeleteAllRefreshTokens,
      Database.QueryRow, Database.Exec, Service.generateTokens, Run.after, issuedPair, hfind,
      hlive]
  · have ha : a = Answer.ok := hrun a (by simp)
    have hb : b = Answer.ok := hrun b (by simp)
    have hc : c = Answer.ok := hrun c (by simp)
    subst ha
    subst hb
    subst hc
    simp [Service.RefreshToken, dbService, NewService, MySQLRepository.over,
      MySQLRepository.GetRefreshToken, MySQLRepository.DeleteRefreshToken,
      MySQLRepository.StoreRefreshToken, MySQLRepository.DeleteAllRefreshTokens,
      Database.QueryRow, Database.Exec, Service.generateTokens, Run.after, issuedPair, hfind,
      hlive]
  · have ha : a = Answer.ok := hrun a (by simp)
    have hb : b = Answer.ok := hrun b (by simp)
    have hc : c = Answer.ok := hrun c (by simp)
    have hd : d = Answer.ok := hrun d (by simp)
    subst ha
    subst hb
    subst hc
    subst hd
    simp [Service.RefreshToken, dbService, NewService, MySQLRepository.over,
      MySQLRepository.GetRefreshToken, MySQLRepository.DeleteRefreshToken,
      MySQLRepository.StoreRefreshToken, MySQLRepository.DeleteAllRefreshTokens,
      Database.QueryRow, Database.Exec, Service.generateTokens, Run.after, issuedPair, hfind,
      hlive]

/-- A refresh on the database with a stored token that has not expired, when
the lookup and the `DELETE` of the token run and the database refuses the first
statement of `StoreRefreshToken`: the error is returned, the presented token is
gone and no new one is stored. -/
theorem RefreshToken_store_refused (lib : Lib) (dbNow : Time) (secret : String)
    (amb : Ambient) (t : String) (st : Store) (row : RefreshToken) (msg : String)
    (rest : List Answer)
    (hfind : st.refresh_tokens.find? (fun r => r.Token == t) = some row)
    (hlive : After amb.nowCheck row.ExpiresAt = false) :
    (dbService dbNow secret).RefreshToken lib amb t
        { store := st, answers := .ok :: .ok :: .failed msg :: rest } =
      { out := .error (.other msg)
        st :=
          { store :=
              { st with refresh_tokens := st.refresh_tokens.filter (fun r => r.Token != t) }
            answers := rest }
        calls :=
          [ .GetRefreshToken t, .DeleteRefreshToken t
          , .StoreRefreshToken row.UserID (issuedPair lib secret amb row.UserID).RefreshToken
              (amb.nowStore + refreshTokenDuration lib amb) ] } := by
  simp [Service.RefreshToken, dbService, NewService, MySQLRepository.over,
    MySQLRepository.GetRefreshToken, MySQLRepository.DeleteRefreshToken,
    MySQLRepository.StoreRefreshToken, MySQLRepository.DeleteAllRefreshTokens,
    Database.QueryRow, Database.Exec, Service.generateTokens, Run.after, issuedPair, hfind,
    hlive]

/-- C13, as stated, fails: the token the sign-up returned is stored and not
expired; the lookup runs and the database refuses the `DELETE` (connection
refused). `RefreshToken` returns that error and no pair, and the presented
token is still in the store. -/
theorem C13_counterexample :
    demoSignUp.st.refresh_tokens.find? (fun r => r.Token == demoTokenA) =
      some { UserID := 1, Token := demoTokenA, ExpiresAt := t2026 + 24 * Hour } ∧
    After (ambAt t2026 2000).nowCheck (t2026 + 24 * Hour) = false ∧
    ((dbService t2026 "test-secret").RefreshToken demoLib (ambAt t2026 2000) demoTokenA
        { store := demoSignUp.st
          answers := [.ok, .failed "failed to execute query: dial tcp: connection refused"] }).out =
      .error (.other "failed to execute query: dial tcp: connection refused") ∧
    ((dbService t2026 "test-secret").RefreshToken demoLib (ambAt t2026 2000) demoTokenA
        { store := demoSignUp.st
          answers := [.ok, .failed "failed to execute query: dial tcp: connection refused"] }).st.store =
      demoSignUp.st := by
  decide

/-- C13, amended: on the MySQL repository, for every database and every stored
token `t` (the row a lookup by `t` returns is `row`) that is not expired (the
clock reading of line 96 is not after `row.ExpiresAt`): when the lookup, the
`DELETE` of the token and the two statements of `StoreRefreshToken` run,
`RefreshToken(t)` calls `GetRefreshToken(t)`, `DeleteRefreshToken(t)` and then
`StoreRefreshToken` for `row.UserID`, in this order, and returns the pair issued
for `row.UserID`, both tokens non-empty (signed strings being non-empty); the
table then is the old one without the rows of token `t` and without the rows of
`row.UserID`, followed by the row of the new refresh token, so that the row of
the new token is the only one of `row.UserID`. When the `DELETE` of the token
fails with a storage error, `RefreshToken(t)` returns that error and the tables
are as they were; when the first statement of `StoreRefreshToken` fails with a
storage error, `RefreshToken(t)` returns that error, the presented token is
deleted and no new one is stored. -/
theorem C13_refresh_live_token (lib : Lib) (dbNow : Time) (secret : String) (amb : Ambient)
    (t : String) (db : Database) (row : RefreshToken)
    (hfind : db.store.refresh_tokens.find? (fun r => r.Token == t) = some row)
    (hlive : ¬ row.ExpiresAt < amb.nowCheck)
    (hne : ∀ (s : String) (u e : Int), lib.SignedString s u e ≠ "") :
    ((∀ a ∈ db.answers.take 4, a = Answer.ok) →
      (dbService dbNow secret).RefreshToken lib amb t db =
        { out := .ok (issuedPair lib secret amb row.UserID)
          st :=
            { store :=
                { db.store with
                  refresh_tokens :=
                    ((db.store.refresh_tokens.filter (fun r => r.Token != t)).filter
                        (fun r => r.UserID != row.UserID)) ++
                      [{ UserID := row.UserID
                         Token := (issuedPair lib secret amb row.UserID).RefreshToken
                         ExpiresAt := amb.nowStore + refreshTokenDuration lib amb }] }
              answers := db.answers.drop 4 }
          calls :=
            [ .GetRefreshToken t, .DeleteRefreshToken t
            , .StoreRefreshToken row.UserID (issuedPair lib secret amb row.UserID).RefreshToken
                (amb.nowStore + refreshTokenDuration lib amb) ] } ∧
      (issuedPair lib secret amb row.UserID).AccessToken ≠ "" ∧
      (issuedPair lib secret amb row.UserID).RefreshToken ≠ "" ∧
      ((dbService dbNow secret).RefreshToken lib amb t db).st.store.refresh_tokens.filter
          (fun r => r.UserID == row.UserID) =
        [{ UserID := row.UserID
           Token := (issuedPair lib secret amb row.UserID).RefreshToken
           ExpiresAt := amb.nowStore + refreshTokenDuration lib amb }]) ∧
    (∀ msg rest, db.answers = .ok :: .failed msg :: rest →
      (dbService dbNow secret).RefreshToken lib amb t db =
        { out := .error (.other msg)
          st := { store := db.store, answers := rest }
          calls := [.GetRefreshToken t, .DeleteRefreshToken t] }) ∧
    (∀ msg rest, db.answers = .ok :: .ok :: .failed msg :: rest →
      (dbService dbNow secret).RefreshToken lib amb t db =
        { out := .error (.other msg)
          st :=
            { store :=
                { db.store with
                  refresh_tokens := db.store.refresh_tokens.filter (fun r => r.Token != t) }
              answers := rest }
          calls :=
            [ .GetRefreshToken t, .DeleteRefreshToken t
            , .StoreRefreshToken row.UserID (issuedPair lib secret amb row.UserID).RefreshToken
                (amb.nowStore + refreshTokenDuration lib amb) ] }) := by
  have hlive2 : After amb.nowCheck row.ExpiresAt = false := by
    simp [After, hlive]
  refine ⟨?_, ?_, ?_⟩
  · intro hrun
    have h1 := RefreshToken_live_run lib dbNow secret amb t db row hfind hlive2 hrun
    refine ⟨h1, hne _ _ _, hne _ _ _, ?_⟩
    rw [h1]
    exact filter_user_store _ _ _ _
  · intro msg rest hans
    obtain ⟨st, answers⟩ := db
    simp only at hans hfind
    subst hans
    exact RefreshToken_delete_refused lib dbNow secret amb t st row msg rest hfind
  · intro msg rest hans
    obtain ⟨st, answers⟩ := db
    simp only at hans hfind
    subst hans
    exact RefreshToken_store_refused lib dbNow secret amb t st row msg rest hfind hlive2

/-- C13, amended, at concrete inputs: the refresh two seconds after the sign-up,
with every statement running and with the `DELETE` of the token refused. -/
theorem C13_refresh_live_token_witness :
    ((dbService t2026 "test-secret").RefreshToken demoLib (ambAt t2026 2000) demoTokenA
        { store := demoSignUp.st, answers := [] } =
      { out := .ok (issuedPair demoLib "test-secret" (ambAt t2026 2000) 1)
        st :=
          { store :=
              { demoSignUp.st with
                refresh_tokens :=
                  ((demoSignUp.st.refresh_tokens.filter (fun r => r.Token != demoTokenA)).filter
                      (fun r => r.UserID != 1)) ++
                    [{ UserID := 1
                       Token := (issuedPair demoLib "test-secret" (ambAt t2026 2000) 1).RefreshToken
                       ExpiresAt :=
                         (ambAt t2026 2000).nowStore +
                           refreshTokenDuration demoLib (ambAt t2026 2000) }] }
            answers := [] }
        calls :=
          [ .GetRefreshToken demoTokenA, .DeleteRefreshToken demoTokenA
          , .StoreRefreshToken 1
              (issuedPair demoLib "test-secret" (ambAt t2026 2000) 1).RefreshToken
              ((ambAt t2026 2000).nowStore + refreshTokenDuration demoLib (ambAt t2026 2000)) ] } ∧
      (issuedPair demoLib "test-secret" (ambAt t2026 2000) 1).AccessToken ≠ "" ∧
      (issuedPair demoLib "test-secret" (ambAt t2026 2000) 1).RefreshToken ≠ "" ∧
      ((dbService t2026 "test-secret").RefreshToken demoLib (ambAt t2026 2000) demoTokenA
          { store := demoSignUp.st, answers := [] }).st.store.refresh_tokens.filter
          (fun r => r.UserID == 1) =
        [{ UserID := 1
           Token := (issuedPair demoLib "test-secret" (ambAt t2026 2000) 1).RefreshToken
           ExpiresAt :=
             (ambAt t2026 2000).nowStore + refreshTokenDuration demoLib (ambAt t2026 2000) }]) ∧
    (dbService t2026 "test-secret").RefreshToken demoLib (ambAt t2026 2000) demoTokenA
        { store := demoSignUp.st
          answers := [.ok, .failed "failed to execute query: dial tcp: connection refused"] } =
      { out := .error (.other "failed to execute query: dial tcp: connection refused")
        st := { store := demoSignUp.st, answers := [] }
        calls := [.GetRefreshToken demoTokenA, .DeleteRefreshToken demoTokenA] } :=
  ⟨(C13_refresh_live_token demoLib t2026 "test-secret" (ambAt t2026 2000) demoTokenA
      { store := demoSignUp.st, answers := [] }
      { UserID := 1, Token := demoTokenA, ExpiresAt := t2026 + 0 * 1000000 + 24 * Hour }
      (by decide) (by decide) (fun s u e => demoSign_ne_empty s u e)).1 (by decide),
   (C13_refresh_live_token demoLib t2026 "test-secret" (ambAt t2026 2000) demoTokenA
      { store := demoSignUp.st
        answers := [.ok, .failed "failed to execute query: dial tcp: connection refused"] }
      { UserID := 1, Token := demoTokenA, ExpiresAt := t2026 + 0 * 1000000 + 24 * Hour }
      (by decide) (by decide) (fun s u e => demoSign_ne_empty s u e)).2.1
      "failed to execute query: dial tcp: connection refused" [] rfl⟩

/-! ## C14: a sign-up with a new email -/

/-- C14, as stated, fails: on the empty store the lookup of `a@x.com` reports
`ErrUserNotFound` and every repository call would succeed, but hashing the
73-byte password fails, and `SignUp` returns that error after the lookup
alone: no user is created and no token is issued. -/
theorem C14_counterexample :
    ((NewMySQLRepository t2026).GetUserByEmail longPasswordRequest.Email emptyStore).1 =
      (none, some Err.ErrUserNotFound) ∧
    ((mysqlService t2026 "test-secret").SignUp strictLib (ambAt t2026 0) longPasswordRequest
        emptyStore).out = .error (.other "bcrypt: password length exceeds 72 bytes") ∧
    ((mysqlService t2026 "test-secret").SignUp strictLib (ambAt t2026 0) longPasswordRequest
        emptyStore).st = emptyStore ∧
    ((mysqlService t2026 "test-secret").SignUp strictLib (ambAt t2026 0) longPasswordRequest
        emptyStore).calls = [.GetUserByEmail "a@x.com"] := by
  decide

end user

namespace user

/-- A sign-up on the MySQL repository with an email no stored user has, when
hashing the password gives `h`: the four repository calls, the user row added
and the pair issued for the id the database assigned. -/
theorem SignUp_new_email (lib : Lib) (dbNow : Time) (secret : String) (amb : Ambient)
    (req : SignUpRequest) (st : Store) (h : String)
    (hnew : ∀ u ∈ st.users, u.Email ≠ req.Email)
    (hhash : lib.GenerateFromPassword req.Password amb.salt = .ok h) :
    (mysqlService dbNow secret).SignUp lib amb req st =
      { out := .ok (issuedPair lib secret amb st.nextID)
        st :=
          { users := st.users ++
              [{ ID := st.nextID, Email := req.Email, Password := h, CreatedAt := dbNow }]
            refresh_tokens :=
              (st.refresh_tokens.filter (fun r => r.UserID != st.nextID)) ++
                [{ UserID := st.nextID
                   Token := (issuedPair lib secret amb st.nextID).RefreshToken
                   ExpiresAt := amb.nowStore + refreshTokenDuration lib amb }]
            nextID := st.nextID + 1 }
        calls :=
          [ .GetUserByEmail req.Email
          , .CreateUser
              { ID := 0, Email := req.Email, Password := h, CreatedAt := amb.nowCreated }
          , .GetUserByEmail req.Email
          , .StoreRefreshToken st.nextID (issuedPair lib secret amb st.nextID).RefreshToken
              (amb.nowStore + refreshTokenDuration lib amb) ] } := by
  have h1 : st.users.find? (fun u => u.Email == req.Email) = none := by
    rw [List.find?_eq_none]
    intro u hu
    simpa using hnew u hu
  have h2 : (st.users ++
      [({ ID := st.nextID, Email := req.Email, Password := h, CreatedAt := dbNow } : User)]).find?
        (fun u => u.Email == req.Email) =
      some { ID := st.nextID, Email := req.Email, Password := h, CreatedAt := dbNow } := by
    rw [List.find?_append, h1]
    simp
  simp [Service.SignUp, mysqlService, NewService, healthy_CreateUser, healthy_GetUserByEmail, healthy_GetUserByID,
    healthy_StoreRefreshToken, healthy_GetRefreshToken, healthy_DeleteRefreshToken, h1, h2, hhash,
    Service.generateTokens, Run.after, issuedPair]

/-- C14, amended: on the MySQL repository with every statement running, for
every sign-up request whose email no stored user has (the lookup reports
`ErrUserNotFound`). When hashing the password succeeds with the hash `h`
(non-empty and not the plaintext, as a bcrypt hash is): `SignUp` calls
`GetUserByEmail`, `CreateUser`, `GetUserByEmail` and `StoreRefreshToken`, in this
order and once each; it adds exactly one user row, with the request's email and
the password `h`; and it returns the pair of non-empty tokens issued for the id
of that row, leaving exactly one refresh-token row for that id. When hashing
the password fails with the error `e`: `SignUp` returns `(nil, e)`, its only
repository call is the lookup, and the store is unchanged. -/
theorem C14_signup_new_email (lib : Lib) (dbNow : Time) (secret : String) (amb : Ambient)
    (req : SignUpRequest) (st : Store)
    (hnew : ∀ u ∈ st.users, u.Email ≠ req.Email)
    (hne : ∀ (s : String) (u e : Int), lib.SignedString s u e ≠ "") :
    (∀ h : String, lib.GenerateFromPassword req.Password amb.salt = .ok h →
      h ≠ "" ∧ h ≠ req.Password →
      ((mysqlService dbNow secret).SignUp lib amb req st).out =
        .ok (issuedPair lib secret amb st.nextID) ∧
      (issuedPair lib secret amb st.nextID).AccessToken ≠ "" ∧
      (issuedPair lib secret amb st.nextID).RefreshToken ≠ "" ∧
      ((mysqlService dbNow secret).SignUp lib amb req st).calls =
        [ .GetUserByEmail req.Email
        , .CreateUser { ID := 0, Email := req.Email, Password := h, CreatedAt := amb.nowCreated }
        , .GetUserByEmail req.Email
        , .StoreRefreshToken st.nextID (issuedPair lib secret amb st.nextID).RefreshToken
            (amb.nowStore + refreshTokenDuration lib amb) ] ∧
      (∃ created : User,
        ((mysqlService dbNow secret).SignUp lib amb req st).st.users = st.users ++ [created] ∧
        created.ID = st.nextID ∧ created.Email = req.Email ∧ created.Password = h ∧
        created.Password ≠ "" ∧ created.Password ≠ req.Password) ∧
      ((mysqlService dbNow secret).SignUp lib amb req st).st.refresh_tokens.filter
          (fun r => r.UserID == st.nextID) =
        [{ UserID := st.nextID
           Token := (issuedPair lib secret amb st.nextID).RefreshToken
           ExpiresAt := amb.nowStore + refreshTokenDuration lib amb }]) ∧
    (∀ e : Err, lib.GenerateFromPassword req.Password amb.salt = .error e →
      (mysqlService dbNow secret).SignUp lib amb req st =
        { out := .error e, st := st, calls := [.GetUserByEmail req.Email] }) := by
  constructor
  · intro h hhash hh
    rw [SignUp_new_email lib dbNow secret amb req st h hnew hhash]
    refine ⟨rfl, hne _ _ _, hne _ _ _, rfl, ⟨_, rfl, rfl, rfl, rfl, hh.1, hh.2⟩, ?_⟩
    exact filter_user_store _ _ _ _
  · intro e hhash
    have h1 : st.users.find? (fun u => u.Email == req.Email) = none := by
      rw [List.find?_eq_none]
      intro u hu
      simpa using hnew u hu
    simp [Service.SignUp, mysqlService, NewService, healthy_GetUserByEmail, h1, hhash]

/-- C14, amended, at concrete inputs: the sign-up of `a@x.com` on the empty
store, and the sign-up with a 73-byte password that bcrypt refuses. -/
theorem C14_signup_new_email_witness :
    (demoSignUp.out = .ok (issuedPair demoLib "test-secret" (ambAt t2026 0) 1) ∧
      (issuedPair demoLib "test-secret" (ambAt t2026 0) 1).AccessToken ≠ "" ∧
      (issuedPair demoLib "test-secret" (ambAt t2026 0) 1).RefreshToken ≠ "" ∧
      demoSignUp.calls =
        [ .GetUserByEmail "a@x.com"
        , .CreateUser
            { ID := 0, Email := "a@x.com", Password := "$2a$10$secret1"
              CreatedAt := (ambAt t2026 0).nowCreated }
        , .GetUserByEmail "a@x.com"
        , .StoreRefreshToken 1 (issuedPair demoLib "test-secret" (ambAt t2026 0) 1).RefreshToken
            ((ambAt t2026 0).nowStore + refreshTokenDuration demoLib (ambAt t2026 0)) ] ∧
      (∃ created : User,
        demoSignUp.st.users = [] ++ [created] ∧
        created.ID = 1 ∧ created.Email = "a@x.com" ∧ created.Password = "$2a$10$secret1" ∧
        created.Password ≠ "" ∧ created.Password ≠ "secret1") ∧
      demoSignUp.st.refresh_tokens.filter (fun r => r.UserID == 1) =
        [{ UserID := 1
           Token := (issuedPair demoLib "test-secret" (ambAt t2026 0) 1).RefreshToken
           ExpiresAt :=
             (ambAt t2026 0).nowStore + refreshTokenDuration demoLib (ambAt t2026 0) }]) ∧
    (mysqlService t2026 "test-secret").SignUp strictLib (ambAt t2026 0) longPasswordRequest
        emptyStore =
      { out := .error (.other "bcrypt: password length exceeds 72 bytes"), st := emptyStore
        calls := [.GetUserByEmail "a@x.com"] } :=
  ⟨(C14_signup_new_email demoLib t2026 "test-secret" (ambAt t2026 0) demoSignUpRequest
      emptyStore (fun _ hu => by simp [emptyStore] at hu)
      (fun s u e => demoSign_ne_empty s u e)).1 "$2a$10$secret1" rfl ⟨by decide, by decide⟩,
   (C14_signup_new_email strictLib t2026 "test-secret" (ambAt t2026 0) longPasswordRequest
      emptyStore (fun _ hu => by simp [emptyStore] at hu)
      (fun s u e => demoSign_ne_empty s u e)).2
      (.other "bcrypt: password length exceeds 72 bytes") rfl⟩

/-! ## C15: storage errors of the lookup -/

/-- C15: over any repository, when `GetUserByEmail` returns an error `e` other
than `ErrUserNotFound` (whatever user value comes with it), `SignUp` returns
`(nil, e)` and `Login` returns `(nil, e)`, each having made that one repository
call and no other, the store being as the lookup left it. -/
theorem C15_lookup_errors_propagate {σ : Type} (s : Service σ) (lib : Lib) (amb : Ambient)
    (reqS : SignUpRequest) (reqL : LoginRequest) (st : σ) (eS eL : Err)
    (hS : (s.repo.GetUserByEmail reqS.Email st).1.2 = some eS) (hneS : eS ≠ Err.ErrUserNotFound)
    (hL : (s.repo.GetUserByEmail reqL.Email st).1.2 = some eL) (hneL : eL ≠ Err.ErrUserNotFound) :
    s.SignUp lib amb reqS st =
      { out := .error eS, st := (s.repo.GetUserByEmail reqS.Email st).2
        calls := [.GetUserByEmail reqS.Email] } ∧
    s.Login lib amb reqL st =
      { out := .error eL, st := (s.repo.GetUserByEmail reqL.Email st).2
        calls := [.GetUserByEmail reqL.Email] } := by
  constructor
  · rcases hq : s.repo.GetUserByEmail reqS.Email st with ⟨⟨u, e⟩, st1⟩
    rw [hq] at hS
    simp only at hS
    subst hS
    simp [Service.SignUp, hq, hneS]
  · rcases hq : s.repo.GetUserByEmail reqL.Email st with ⟨⟨u, e⟩, st1⟩
    rw [hq] at hL
    simp only at hL
    subst hL
    simp [Service.Login, hq, hneL]

/-- C15 at a concrete input: a repository whose database cannot be reached. -/
theorem C15_lookup_errors_propagate_witness :
    (NewService (errorRepository demoStorageError) "test-secret").SignUp demoLib (ambAt t2026 0)
        demoSignUpRequest emptyStore =
      { out := .error demoStorageError
        st := ((errorRepository demoStorageError).GetUserByEmail "a@x.com" emptyStore).2
        calls := [.GetUserByEmail "a@x.com"] } ∧
    (NewService (errorRepository demoStorageError) "test-secret").Login demoLib (ambAt t2026 0)
        { Email := "a@x.com", Password := "secret1" } emptyStore =
      { out := .error demoStorageError
        st := ((errorRepository demoStorageError).GetUserByEmail "a@x.com" emptyStore).2
        calls := [.GetUserByEmail "a@x.com"] } :=
  C15_lookup_errors_propagate (NewService (errorRepository demoStorageError) "test-secret")
    demoLib (ambAt t2026 0) demoSignUpRequest { Email := "a@x.com", Password := "secret1" }
    emptyStore demoStorageError demoStorageError rfl (by decide) rfl (by decide)

/-! ## C16: a refresh with an unknown token -/

/-- C16, as stated, fails: no row of the store carries the token
`invalid-token`, the database refuses the lookup (connection refused), and
`RefreshToken` returns that error; it does not return
`ErrRefreshTokenNotFound`. -/
theorem C16_counterexample :
    demoSignUp.st.refresh_tokens.find? (fun r => r.Token == "invalid-token") = none ∧
    ((dbService t2026 "test-secret").RefreshToken demoLib (ambAt t2026 100) "invalid-token"
        { store := demoSignUp.st, answers := [.failed "dial tcp: connection refused"] }).out =
      .error (.other "dial tcp: connection refused") ∧
    ((dbService t2026 "test-secret").RefreshToken demoLib (ambAt t2026 100) "invalid-token"
        { store := demoSignUp.st, answers := [.failed "dial tcp: connection refused"] }).out ≠
      .error Err.ErrRefreshTokenNotFound := by
  decide

/-- C16, amended: on the MySQL repository, for every database and every string
`t` that is the token of no stored row: when the lookup is answered,
`RefreshToken(t)` returns `(nil, ErrRefreshTokenNotFound)`; when the lookup fails
with a storage error, `RefreshToken(t)` returns that error; in both cases its
only repository call is `GetRefreshToken(t)` (neither `DeleteRefreshToken` nor
`StoreRefreshToken` is called) and the tables are unchanged. -/
theorem C16_refresh_unknown_token (lib : Lib) (dbNow : Time) (secret : String) (amb : Ambient)
    (t : String) (db : Database) (habsent : ∀ r ∈ db.store.refresh_tokens, r.Token ≠ t) :
    ((∀ msg, db.answers.head? ≠ some (.failed msg)) →
      (dbService dbNow secret).RefreshToken lib amb t db =
        { out := .error Err.ErrRefreshTokenNotFound
          st := { store := db.store, answers := db.answers.tail }
          calls := [.GetRefreshToken t] }) ∧
    (∀ msg, db.answers.head? = some (.failed msg) →
      (dbService dbNow secret).RefreshToken lib amb t db =
        { out := .error (.other msg)
          st := { store := db.store, answers := db.answers.tail }
          calls := [.GetRefreshToken t] }) := by
  have hfind := find_token_none_of_forall _ _ habsent
  obtain ⟨st, answers⟩ := db
  simp only at hfind
  constructor
  · intro hrun
    cases answers with
    | nil =>
      simp [Service.RefreshToken, dbService, NewService, MySQLRepository.over,
        MySQLRepository.GetRefreshToken, Database.QueryRow, hfind]
    | cons a rest =>
      cases a with
      | failed msg => exact absurd rfl (hrun msg)
      | ok =>
        simp [Service.RefreshToken, dbService, NewService, MySQLRepository.over,
          MySQLRepository.GetRefreshToken, Database.QueryRow, hfind]
      | noCount msg =>
        simp [Service.RefreshToken, dbService, NewService, MySQLRepository.over,
          MySQLRepository.GetRefreshToken, Database.QueryRow, hfind]
  · intro msg hmsg
    cases answers with
    | nil => simp at hmsg
    | cons a rest =>
      simp only [List.head?_cons, Option.some.injEq] at hmsg
      subst hmsg
      simp [Service.RefreshToken, dbService, NewService, MySQLRepository.over,
        MySQLRepository.GetRefreshToken, Database.QueryRow]

/-- C16, amended, at concrete inputs: an unknown token on the store the sign-up
left, the lookup answered and refused. -/
theorem C16_refresh_unknown_token_witness :
    (dbService t2026 "test-secret").RefreshToken demoLib (ambAt t2026 100) "invalid-token"
        { store := demoSignUp.st, answers := [] } =
      { out := .error Err.ErrRefreshTokenNotFound
        st := { store := demoSignUp.st, answers := [] }
        calls := [.GetRefreshToken "invalid-token"] } ∧
    (dbService t2026 "test-secret").RefreshToken demoLib (ambAt t2026 100) "invalid-token"
        { store := demoSignUp.st, answers := [.failed "dial tcp: connection refused", .ok] } =
      { out := .error (.other "dial tcp: connection refused")
        st := { store := demoSignUp.st, answers := [.ok] }
        calls := [.GetRefreshToken "invalid-token"] } :=
  ⟨(C16_refresh_unknown_token demoLib t2026 "test-secret" (ambAt t2026 100) "invalid-token"
      { store := demoSignUp.st, answers := [] } (by decide)).1 (fun _ hmsg => by cases hmsg),
   (C16_refresh_unknown_token demoLib t2026 "test-secret" (ambAt t2026 100) "invalid-token"
      { store := demoSignUp.st, answers := [.failed "dial tcp: connection refused", .ok] }
      (by decide)).2 "dial tcp: connection refused" rfl⟩

end user

namespace circuitbreaker

/-! ## C17: the two outcomes of the cancellable executor -/

/-- C17: for every context and work function and every choice of the `select`,
`Execute` returns, if it returns, either `(nil, ctx.Err())` with the context
done, or exactly the pair the work function returned; when the context never
fires and the work returns, it returns the work's pair; when the work never
returns and the context fires, it returns `(nil, ctx.Err())`; and it fails to
return only when the context never fires and the work never returns. -/
theorem C17_execute_outcomes {α : Type} (r : Race α) :
    (∀ res, CircuitBreaker.ExecuteRace r = some res →
      (∃ e, r.ctx = some e ∧ res = (none, some e.toError)) ∨ r.work = some res) ∧
    (r.ctx = none → ∀ w, r.work = some w → CircuitBreaker.ExecuteRace r = some w) ∧
    (r.work = none → ∀ e, r.ctx = some e →
      CircuitBreaker.ExecuteRace r = some (none, some e.toError)) ∧
    (CircuitBreaker.ExecuteRace r = none ↔ r.ctx = none ∧ r.work = none) := by
  rcases r with ⟨ctx, work, p⟩
  cases ctx <;> cases work <;> cases p <;>
    simp [CircuitBreaker.ExecuteRace, Race.select, CircuitBreaker.Execute]

end circuitbreaker

namespace authmiddleware

open user (Time Lib Ambient Unix issuedPair accessTokenDuration demoLib ambAt t2026 Second)

/-! ## Helper lemmas: splitting the header, and integers as `float64` -/

theorem Split_no_space : ∀ cs : List Char, ' ' ∉ cs → Split cs = [cs] := by
  intro cs
  induction cs with
  | nil => intro _; rfl
  | cons c cs ih =>
    intro h
    simp only [List.mem_cons, not_or] at h
    have hc : c ≠ ' ' := fun hh => h.1 hh.symm
    simp [Split, hc, ih h.2]

theorem Split_bearer (token : List Char) (h : ' ' ∉ token) :
    Split ("Bearer ".data ++ token) = ["Bearer".data, token] := by
  have h1 := Split_no_space token h
  simp [Split, h1]

theorem excessBits_small (a : Nat) (h : a < 9007199254740992) : excessBits a a = 0 := by
  cases a with
  | zero => rfl
  | succ n => simp [excessBits, h]

theorem ofInt_small (n : Int) (h : n.natAbs < 9007199254740992) :
    Float64.ofInt n = { mant := n, exp := 0 } := by
  have hk := excessBits_small n.natAbs h
  have hm : (if n < 0 then -(n.natAbs : Int) else (n.natAbs : Int)) = n := by
    by_cases hn : n < 0
    · rw [if_pos hn, Int.ofNat_natAbs_of_nonpos (le_of_lt hn), neg_neg]
    · rw [if_neg hn, Int.natAbs_of_nonneg (not_lt.mp hn)]
  unfold Float64.ofInt
  simp only [hk, pow_zero, Nat.div_one, Nat.mod_one, Nat.mul_zero]
  have hup : (decide ((0 : Nat) > 1) || (decide ((0 : Nat) = 1) && decide (n.natAbs % 2 = 1)))
      = false := by simp
  simp only [hup, Bool.false_eq_true, if_false, hm]
  rfl

/-- An integer of magnitude at most `2^53` survives the passage through
`float64` and back to `int64`. -/
theorem Float64_round_trip (n : Int)
    (h : -9007199254740992 ≤ n ∧ n ≤ 9007199254740992) : (Float64.ofInt n).toInt64 = n := by
  by_cases hlt : n.natAbs < 9007199254740992
  · rw [ofInt_small n hlt]
    simp only [Float64.toInt64, le_refl, if_true, Int.toNat_zero, pow_zero, mul_one]
    rw [if_pos (by omega)]
  · have hcases : n = 9007199254740992 ∨ n = -9007199254740992 := by omega
    rcases hcases with rfl | rfl <;> decide

end authmiddleware

namespace authmiddleware

open user (Time Lib Ambient Unix issuedPair accessTokenDuration demoLib ambAt t2026 Second)

/-- A request with the header `Bearer <token>`, on a path other than `/health`,
whose token (free of spaces) the parser accepts: the middleware reads the
claim `user_id`. -/
theorem AuthMiddleware_bearer (parse : Parser) (jwtSecret : String) (now : Time)
    (path token : String) (claims : MapClaims)
    (hpath : path ≠ "/health") (hspace : ' ' ∉ token.data)
    (hparse : parse token jwtSecret now = some claims) :
    AuthMiddleware parse jwtSecret now { Path := path, Authorization := "Bearer " ++ token } =
      match claims "user_id" with
      | .number x => .next (some x.toInt64)
      | _ => .panicked := by
  have hne : ("Bearer " ++ token) ≠ "" := by
    intro h
    have hd := congrArg String.data h
    simp at hd
  have hsplit : (Split ("Bearer " ++ token).data).map String.mk = ["Bearer", token] := by
    rw [String.data_append, Split_bearer token.data hspace]
    rfl
  simp only [AuthMiddleware, hpath, if_false, hne, hsplit, ne_eq, not_true_eq_false, hparse]

/-! ## C18: issue and verify -/

/-- C18, as stated, fails in two ways. The access token issued for the user id
`2^53 + 1` passes the middleware two seconds after its issue, but the next
handler receives `user_id = 2^53`: the claim is read as a `float64`. And on the
path `/health` the request with the access token of user 1 reaches the next
handler with no `user_id` in its context. -/
theorem C18_counterexample :
    (issuedPair demoLib "test-secret" (ambAt t2026 0) 9007199254740993).AccessToken
      = demoBigToken ∧
    AuthMiddleware demoParse "test-secret" (t2026 + 2 * Second)
        { Path := "/api/profile", Authorization := "Bearer " ++ demoBigToken } =
      .next (some 9007199254740992) ∧
    (issuedPair demoLib "test-secret" (ambAt t2026 0) 1).AccessToken = demoAccessToken ∧
    AuthMiddleware demoParse "test-secret" (t2026 + 2 * Second)
        { Path := "/health", Authorization := "Bearer " ++ demoAccessToken } = .next none := by
  decide

/-- C18, amended: for every user id of magnitude at most `2^53` and the access
token that `generateTokens` issues for it under the secret `s`, a request on a
path other than `/health` that carries the header `Bearer <token>` strictly
before the token's expiry second passes `AuthMiddleware(s)` and reaches the next
handler with the context value `user_id` equal to that user id. The imported
parser is taken to accept the token under the same secret before its expiry
and to yield the claim `user_id` as the `float64` of the id; signed strings hold
no space. -/
theorem C18_issue_verify_round_trip (parse : Parser) (lib : Lib) (secret : String)
    (amb : Ambient) (userID : Int) (now : Time) (path : String)
    (hpath : path ≠ "/health")
    (hsmall : -9007199254740992 ≤ userID ∧ userID ≤ 9007199254740992)
    (hspace : ' ' ∉ (issuedPair lib secret amb userID).AccessToken.data)
    (hbefore : now < Unix (amb.nowAccess + accessTokenDuration lib amb) * 1000000000)
    (hparse : ∀ t : Time, t < Unix (amb.nowAccess + accessTokenDuration lib amb) * 1000000000 →
      ∃ claims, parse (issuedPair lib secret amb userID).AccessToken secret t = some claims ∧
        claims "user_id" = .number (Float64.ofInt userID)) :
    AuthMiddleware parse secret now
        { Path := path
          Authorization := "Bearer " ++ (issuedPair lib secret amb userID).AccessToken } =
      .next (some userID) := by
  obtain ⟨claims, hp, hu⟩ := hparse now hbefore
  rw [AuthMiddleware_bearer parse secret now path _ claims hpath hspace hp, hu]
  simp only [Float64_round_trip userID hsmall]

/-- C18, amended, at a concrete input: the access token of the demo sign-up,
presented two seconds after its issue. -/
theorem C18_issue_verify_round_trip_witness :
    AuthMiddleware demoParse "test-secret" (t2026 + 2 * Second)
        { Path := "/api/profile"
          Authorization :=
            "Bearer " ++ (issuedPair demoLib "test-secret" (ambAt t2026 0) 1).AccessToken } =
      .next (some 1) :=
  C18_issue_verify_round_trip demoParse demoLib "test-secret" (ambAt t2026 0) 1
    (t2026 + 2 * Second) "/api/profile" (by decide) (by decide) (by decide) (by decide)
    (fun t ht => by
      have hdec : demoDecode (issuedPair demoLib "test-secret" (ambAt t2026 0) 1).AccessToken =
          some (some 1, 1767225900, "test-secret".data) := by decide
      have hexp : Unix ((ambAt t2026 0).nowAccess + accessTokenDuration demoLib (ambAt t2026 0))
          = 1767225900 := by decide
      rw [hexp] at ht
      refine ⟨demoClaims (some 1) 1767225900, ?_, rfl⟩
      simp only [demoParse, hdec, ht, and_self, if_true])

end authmiddleware

namespace authmiddleware

open user (Time Lib Ambient Unix issuedPair accessTokenDuration demoLib ambAt t2026 Second)

/-! ## C19: the outcomes of the middleware -/

theorem Split_ne_nil : ∀ cs : List Char, Split cs ≠ [] := by
  intro cs
  induction cs with
  | nil => simp [Split]
  | cons c cs ih =>
    simp only [Split]
    split_ifs
    · simp
    · split
      · simp
      · rename_i h; exact absurd h ih

theorem Split_one : ∀ (cs b : List Char), Split cs = [b] → cs = b ∧ ' ' ∉ b := by
  intro cs
  induction cs with
  | nil =>
    intro b h
    simp only [Split, List.cons.injEq, and_true] at h
    subst h
    simp
  | cons c cs ih =>
    intro b h
    simp only [Split] at h
    split_ifs at h with hc
    · simp only [List.cons.injEq] at h
      exact absurd h.2 (Split_ne_nil cs)
    · split at h
      · rename_i p ps hsp
        simp only [List.cons.injEq] at h
        obtain ⟨hb, hps⟩ := h
        subst hb
        subst hps
        obtain ⟨h1, h2⟩ := ih p hsp
        refine ⟨by rw [h1], ?_⟩
        simp only [List.mem_cons, not_or]
        exact ⟨fun hh => hc hh.symm, h2⟩
      · rename_i hnil
        exact absurd hnil (Split_ne_nil cs)

/-- A header that splits at its spaces into exactly two parts is the first
part, one space and the second part, neither holding a space. -/
theorem Split_two : ∀ (cs a b : List Char), Split cs = [a, b] →
    cs = a ++ ' ' :: b ∧ ' ' ∉ a ∧ ' ' ∉ b := by
  intro cs
  induction cs with
  | nil => intro a b h; simp [Split] at h
  | cons c cs ih =>
    intro a b h
    simp only [Split] at h
    split_ifs at h with hc
    · simp only [List.cons.injEq] at h
      obtain ⟨ha, hb⟩ := h
      subst ha
      subst hc
      obtain ⟨h1, h2⟩ := Split_one cs b hb
      subst h1
      exact ⟨rfl, by simp, h2⟩
    · split at h
      · rename_i p ps hsp
        simp only [List.cons.injEq] at h
        obtain ⟨ha, hps⟩ := h
        subst ha
        subst hps
        obtain ⟨h1, h2, h3⟩ := ih p b hsp
        refine ⟨by rw [h1]; rfl, ?_, h3⟩
        simp only [List.mem_cons, not_or]
        exact ⟨fun hh => hc hh.symm, h2⟩
      · rename_i hnil
        exact absurd hnil (Split_ne_nil cs)

/-- What the middleware does on a path other than `/health`: it answers 401,
or calls the next handler with a `user_id`, or panics; it answers 401 when the
header is empty, when the header is not `Bearer`, one space and a token free
of spaces, and when the parser rejects the token; and it panics exactly when
the header has that form, the parser accepts the token, and the claim
`user_id` of the token is not a number. -/
theorem AuthMiddleware_outcomes (parse : Parser) (jwtSecret : String) (now : Time)
    (r : Request) (hpath : r.Path ≠ "/health") :
    ((∃ msg, AuthMiddleware parse jwtSecret now r = .unauthorized msg) ∨
      (∃ id, AuthMiddleware parse jwtSecret now r = .next (some id)) ∨
      AuthMiddleware parse jwtSecret now r = .panicked) ∧
    (r.Authorization = "" → ∃ msg, AuthMiddleware parse jwtSecret now r = .unauthorized msg) ∧
    ((∀ token : String, r.Authorization = "Bearer " ++ token → ' ' ∈ token.data) →
      ∃ msg, AuthMiddleware parse jwtSecret now r = .unauthorized msg) ∧
    (∀ token : String, r.Authorization = "Bearer " ++ token → ' ' ∉ token.data →
      parse token jwtSecret now = none →
      AuthMiddleware parse jwtSecret now r = .unauthorized "Invalid token") ∧
    (AuthMiddleware parse jwtSecret now r = .panicked ↔
      ∃ (token : String) (claims : MapClaims),
        r.Authorization = "Bearer " ++ token ∧ ' ' ∉ token.data ∧
        parse token jwtSecret now = some claims ∧ ∀ x, claims "user_id" ≠ .number x) := by
  have key : ∀ token : String, r.Authorization = "Bearer " ++ token → ' ' ∉ token.data →
      AuthMiddleware parse jwtSecret now r =
        match parse token jwtSecret now with
        | none => .unauthorized "Invalid token"
        | some claims =>
          match claims "user_id" with
          | .number x => .next (some x.toInt64)
          | _ => .panicked := by
    intro token hauth hspace
    have hr : r = { Path := r.Path, Authorization := "Bearer " ++ token } := by
      cases r; simp_all
    cases hp : parse token jwtSecret now with
    | none =>
      have hne : ("Bearer " ++ token) ≠ "" := by
        intro h
        have hd := congrArg String.data h
        simp at hd
      have hsplit : (Split ("Bearer " ++ token).data).map String.mk = ["Bearer", token] := by
        rw [String.data_append, Split_bearer token.data hspace]
        rfl
      rw [hr]
      simp only [AuthMiddleware, hpath, if_false, hne, hsplit, ne_eq, not_true_eq_false, hp]
    | some claims =>
      rw [hr, AuthMiddleware_bearer parse jwtSecret now r.Path token claims hpath hspace hp]
  have form : (∀ token : String, r.Authorization = "Bearer " ++ token → ' ' ∈ token.data) →
      ∃ msg, AuthMiddleware parse jwtSecret now r = .unauthorized msg := by
    intro hform
    simp only [AuthMiddleware, hpath, if_false]
    split_ifs with hempty
    · exact ⟨_, rfl⟩
    · split
      · rename_i p0 tokenString hsplit
        split_ifs with hb
        · exact ⟨_, rfl⟩
        · exfalso
          simp only [ne_eq, not_not] at hb
          subst hb
          have hparts : Split r.Authorization.data = ["Bearer".data, tokenString.data] := by
            cases hs : Split r.Authorization.data with
            | nil => rw [hs] at hsplit; simp at hsplit
            | cons a rest =>
              rw [hs] at hsplit
              cases rest with
              | nil => simp at hsplit
              | cons b rest2 =>
                cases rest2 with
                | nil =>
                  simp only [List.map_cons, List.map_nil, List.cons.injEq, and_true] at hsplit
                  obtain ⟨ha, hb2⟩ := hsplit
                  have ha2 := congrArg String.data ha
                  have hb3 := congrArg String.data hb2
                  simp only at ha2 hb3
                  rw [ha2, hb3]
                | cons _ _ => simp at hsplit
          obtain ⟨h1, _, h3⟩ := Split_two _ _ _ hparts
          have hauth : r.Authorization = "Bearer " ++ tokenString := by
            apply String.ext
            rw [h1, String.data_append]
            rfl
          exact h3 (hform tokenString hauth)
      · exact ⟨_, rfl⟩
  refine ⟨?_, ?_, form, ?_, ?_⟩
  · by_cases hform : ∀ token : String, r.Authorization = "Bearer " ++ token → ' ' ∈ token.data
    · exact Or.inl (form hform)
    · push_neg at hform
      obtain ⟨token, hauth, hspace⟩ := hform
      rw [key token hauth hspace]
      cases parse token jwtSecret now with
      | none => exact Or.inl ⟨_, rfl⟩
      | some claims =>
        simp only
        cases hc : claims "user_id" with
        | absent => exact Or.inr (Or.inr rfl)
        | number x => exact Or.inr (Or.inl ⟨_, rfl⟩)
        | other => exact Or.inr (Or.inr rfl)
  · intro hempty
    simp [AuthMiddleware, hpath, hempty]
  · intro token hauth hspace hp
    rw [key token hauth hspace, hp]
  · constructor
    · intro hpanic
      by_cases hform : ∀ token : String, r.Authorization = "Bearer " ++ token → ' ' ∈ token.data
      · obtain ⟨msg, hmsg⟩ := form hform
        rw [hmsg] at hpanic
        exact absurd hpanic (by simp)
      · push_neg at hform
        obtain ⟨token, hauth, hspace⟩ := hform
        rw [key token hauth hspace] at hpanic
        cases hp : parse token jwtSecret now with
        | none => rw [hp] at hpanic; simp at hpanic
        | some claims =>
          rw [hp] at hpanic
          refine ⟨token, claims, hauth, hspace, hp, ?_⟩
          intro x hx
          simp only [hx] at hpanic
          exact absurd hpanic (by simp)
    · rintro ⟨token, claims, hauth, hspace, hp, hnum⟩
      rw [key token hauth hspace, hp]
      cases hc : claims "user_id" with
      | absent => simp only [hc]
      | number x => exact absurd hc (hnum x)
      | other => simp only [hc]

/-- C19, the failing input: a token that verifies under the secret and has not
expired, whose claims hold no `user_id`. `AuthMiddleware` panics on the request
that carries it (the assertion of auth.go:45 is unchecked), while the sibling
`Auth` of `pkg/middleware`, which checks the assertion, answers 401. -/
theorem C19_failing_input :
    demoDecode demoNoUserToken = some (none, 1767225900, "test-secret".data) ∧
    (demoParse demoNoUserToken "test-secret" (t2026 + 2 * Second)).isSome = true ∧
    AuthMiddleware demoParse "test-secret" (t2026 + 2 * Second)
        { Path := "/api/profile", Authorization := "Bearer " ++ demoNoUserToken } = .panicked ∧
    middleware.Auth demoParse "test-secret" (t2026 + 2 * Second) (t2026 + 2 * Second)
        { Path := "/api/profile", Authorization := demoNoUserToken } =
      .unauthorized "Invalid user ID claim" := by
  decide

end authmiddleware

namespace db

open user (Time Second t2026)

/-! ## C20: the row `QueryRow` returns when the breaker call fails -/

/-- When `ExecuteWithBreaker` returns an error inside `QueryRow` (the breaker
rejected the call, or the context was done first), `QueryRow` returns the zero
`sql.Row`, and `Scan` on it panics. -/
theorem QueryRow_failed {ρ : Type} (cb : circuitbreaker.CircuitBreaker)
    (nowBefore nowAfter : Time) (sel : circuitbreaker.Select) (answer : sql.Row ρ)
    (h : (cb.ExecuteWithBreaker nowBefore nowAfter sel (some answer, none)).err ≠ none) :
    (MySQL.QueryRow cb nowBefore nowAfter sel answer).1 = { err := none, rows := none } ∧
    (MySQL.QueryRow cb nowBefore nowAfter sel answer).1.Scan = .panicked := by
  have h1 : (MySQL.QueryRow cb nowBefore nowAfter sel answer).1 =
      { err := none, rows := none } := by
    simp only [MySQL.QueryRow, MySQL.QueryRow_work]
    cases he : (cb.ExecuteWithBreaker nowBefore nowAfter sel (some answer, none)).err with
    | none => exact absurd he h
    | some e => rfl
  exact ⟨h1, by rw [h1]; rfl⟩

/-- C20, the failing inputs: a lookup made 500 ms after `t2026` on the open
breaker of `NewMySQL`, and a lookup on the fresh breaker whose context is
cancelled before the query returns. In both `ExecuteWithBreaker` returns an
error, `QueryRow` returns the zero `sql.Row`, `Scan` on it panics, and so does
`GetUserByEmail`; it does not return `(nil, error)`. -/
theorem C20_failing_input :
    (openMySQLBreaker.ExecuteWithBreaker (t2026 + 500000000) (t2026 + 500001000) .resultFirst
        (some user.demoUserRow, none)).err = some .ErrCircuitOpen ∧
    (MySQL.QueryRow openMySQLBreaker (t2026 + 500000000) (t2026 + 500001000) .resultFirst
        user.demoUserRow).1 = { err := none, rows := none } ∧
    (MySQL.QueryRow openMySQLBreaker (t2026 + 500000000) (t2026 + 500001000) .resultFirst
        user.demoUserRow).1.Scan = .panicked ∧
    (user.MySQLRepository.GetUserByEmail_db openMySQLBreaker (t2026 + 500000000)
        (t2026 + 500001000) .resultFirst user.demoUserRow).1 = .panicked ∧
    ((NewMySQL_cb t2026).ExecuteWithBreaker (t2026 + 500000000) (t2026 + 500001000)
        (.ctxDone .Canceled) (some user.demoUserRow, none)).err = some .Canceled ∧
    (user.MySQLRepository.GetUserByEmail_db (NewMySQL_cb t2026) (t2026 + 500000000)
        (t2026 + 500001000) (.ctxDone .Canceled) user.demoUserRow).1 = .panicked ∧
    (user.MySQLRepository.GetUserByEmail_db (NewMySQL_cb t2026) (t2026 + 500000000)
        (t2026 + 500001000) .resultFirst user.demoUserRow).1 =
      .returned (some
        { ID := 1, Email := "a@x.com", Password := "$2a$10$secret1", CreatedAt := t2026 })
        none := by
  decide

end db

namespace gobreaker

open user (Time Duration Second)

theorem currentState_closed_state (cb : CircuitBreaker) (now : Time)
    (hclosed : cb.state = .StateClosed) : (cb.currentState now).state = .StateClosed := by
  simp only [CircuitBreaker.currentState, hclosed]
  split_ifs
  · simp [CircuitBreaker.toNewGeneration, hclosed]
  · exact hclosed

theorem afterRequest_closed_success (cb : CircuitBreaker) (before : Nat) (now : Time)
    (hclosed : cb.state = .StateClosed) :
    (cb.afterRequest before true now).state = .StateClosed := by
  have hc := currentState_closed_state cb now hclosed
  simp only [CircuitBreaker.afterRequest, if_true]
  split_ifs with hgen
  · exact hc
  · simp only [CircuitBreaker.onSuccess, hc]

theorem afterRequest_closed_success_window (cb : CircuitBreaker) (now : Time)
    (hclosed : cb.state = .StateClosed) (hwin : cb.expiry = zeroTime ∨ now ≤ cb.expiry) :
    cb.afterRequest cb.generation true now = { cb with counts := cb.counts.onSuccess } := by
  simp [CircuitBreaker.afterRequest, currentState_closed cb now hclosed hwin, hclosed,
    CircuitBreaker.onSuccess]

end gobreaker

namespace db

open user (Time Second t2026)

/-! ## C21: what a `QueryRow` call counts as -/

/-- A `QueryRow` call that is not cancelled, on a closed breaker: the work is
admitted, the row of the database is returned, and the breaker stays closed. -/
theorem QueryRow_closed {ρ : Type} (cb : circuitbreaker.CircuitBreaker)
    (call : QueryRowCall ρ) (hclosed : cb.cb.state = .StateClosed) :
    (MySQL.QueryRow cb call.nowBefore call.nowAfter .resultFirst call.answer).1 = call.answer ∧
    (MySQL.QueryRow cb call.nowBefore call.nowAfter .resultFirst call.answer).2.cb.state =
      .StateClosed := by
  have hc := gobreaker.currentState_closed_state cb.cb call.nowBefore hclosed
  have hb : cb.cb.beforeRequest call.nowBefore =
      (.ok (cb.cb.currentState call.nowBefore).generation,
        { cb.cb.currentState call.nowBefore with
          counts := (cb.cb.currentState call.nowBefore).counts.onRequest }) := by
    simp [gobreaker.CircuitBreaker.beforeRequest, hc]
  have ha := gobreaker.afterRequest_closed_success
    ({ cb.cb.currentState call.nowBefore with
        counts := (cb.cb.currentState call.nowBefore).counts.onRequest } :
      gobreaker.CircuitBreaker)
    (cb.cb.currentState call.nowBefore).generation call.nowAfter hc
  simp only [MySQL.QueryRow, MySQL.QueryRow_work,
    circuitbreaker.CircuitBreaker.ExecuteWithBreaker,
    circuitbreaker.gobreakerExecute, hb, circuitbreaker.CircuitBreaker.Execute,
    Option.isNone_none]
  exact ⟨trivial, ha⟩

theorem runQueryRows_closed {ρ : Type} :
    ∀ (calls : List (QueryRowCall ρ)) (cb : circuitbreaker.CircuitBreaker),
      cb.cb.state = .StateClosed →
      (runQueryRows cb calls).1.cb.state = .StateClosed ∧
        (runQueryRows cb calls).2 = calls.map (fun call => call.answer) := by
  intro calls
  induction calls with
  | nil => intro cb h; exact ⟨h, rfl⟩
  | cons call rest ih =>
    intro cb h
    obtain ⟨h1, h2⟩ := QueryRow_closed cb call h
    obtain ⟨h3, h4⟩ := ih _ h2
    simp only [runQueryRows, List.map_cons]
    exact ⟨h3, by rw [h1, h4]⟩

end db

namespace gobreaker

open user (Time Duration Second)

/-- A success reported to a closed breaker for a request of its current
generation is never counted as a failure, at any clock reading. -/
theorem afterRequest_closed_success_counts (cb : CircuitBreaker) (now : Time)
    (hclosed : cb.state = .StateClosed) :
    (cb.afterRequest cb.generation true now).counts.ConsecutiveFailures = 0 ∧
    (cb.afterRequest cb.generation true now).counts.TotalFailures ≤ cb.counts.TotalFailures := by
  by_cases hroll : cb.expiry ≠ zeroTime ∧ cb.expiry < now
  · have hcur : cb.currentState now = cb.toNewGeneration now := by
      simp [CircuitBreaker.currentState, hclosed, hroll]
    have hst : (cb.toNewGeneration now).state = .StateClosed := hclosed
    have hco : (cb.toNewGeneration now).counts = Counts.clear := rfl
    simp only [CircuitBreaker.afterRequest, hcur, if_true]
    split_ifs
    · rw [hco]
      exact ⟨rfl, Nat.zero_le _⟩
    · simp only [CircuitBreaker.onSuccess, hst, hco, Counts.onSuccess, Counts.clear]
      exact ⟨trivial, Nat.zero_le _⟩
  · have hcur : cb.currentState now = cb := by
      simp [CircuitBreaker.currentState, hclosed, hroll]
    simp [CircuitBreaker.afterRequest, hcur, hclosed, CircuitBreaker.onSuccess,
      Counts.onSuccess]

end gobreaker

namespace db

open user (Time Second t2026)

/-- A `QueryRow` call that is not cancelled, on a closed breaker, at any clock
readings: it is never counted as a failure. The count of consecutive failures
it leaves is 0 and the total of failures has not grown. -/
theorem QueryRow_closed_no_failure {ρ : Type} (cb : circuitbreaker.CircuitBreaker)
    (call : QueryRowCall ρ) (hclosed : cb.cb.state = .StateClosed) :
    (MySQL.QueryRow cb call.nowBefore call.nowAfter .resultFirst
      call.answer).2.cb.counts.ConsecutiveFailures = 0 ∧
    (MySQL.QueryRow cb call.nowBefore call.nowAfter .resultFirst
      call.answer).2.cb.counts.TotalFailures ≤ cb.cb.counts.TotalFailures := by
  have hc := gobreaker.currentState_closed_state cb.cb call.nowBefore hclosed
  have hb : cb.cb.beforeRequest call.nowBefore =
      (.ok (cb.cb.currentState call.nowBefore).generation,
        { cb.cb.currentState call.nowBefore with
          counts := (cb.cb.currentState call.nowBefore).counts.onRequest }) := by
    simp [gobreaker.CircuitBreaker.beforeRequest, hc]
  have htf : (cb.cb.currentState call.nowBefore).counts.TotalFailures ≤
      cb.cb.counts.TotalFailures := by
    simp only [gobreaker.CircuitBreaker.currentState, hclosed]
    split_ifs
    · simp [gobreaker.CircuitBreaker.toNewGeneration, gobreaker.Counts.clear]
    · exact le_refl _
  have ha := gobreaker.afterRequest_closed_success_counts
    ({ cb.cb.currentState call.nowBefore with
        counts := (cb.cb.currentState call.nowBefore).counts.onRequest } :
      gobreaker.CircuitBreaker) call.nowAfter hc
  simp only [gobreaker.Counts.onRequest] at ha
  simp only [MySQL.QueryRow, MySQL.QueryRow_work,
    circuitbreaker.CircuitBreaker.ExecuteWithBreaker,
    circuitbreaker.gobreakerExecute, hb, circuitbreaker.CircuitBreaker.Execute,
    Option.isNone_none, gobreaker.Counts.onRequest]
  exact ⟨ha.1, le_trans ha.2 htf⟩

end db

namespace db

open user (Time Second t2026)

/-- C21, as stated, fails in its middle part: on the breaker of `NewMySQL` built
at `t2026`, a `QueryRow` lookup that is not cancelled, starts 29.9 s after
construction and ends 30.1 s after it is admitted and returns the row of the
database, but the counting window rolls over in between and the breaker counts
nothing for it: no request and no success. -/
theorem C21_counterexample :
    (NewMySQL_cb t2026).cb.state = .StateClosed ∧
    (MySQL.QueryRow (NewMySQL_cb t2026) straddlingLookup.nowBefore straddlingLookup.nowAfter
      .resultFirst straddlingLookup.answer).1 = straddlingLookup.answer ∧
    (MySQL.QueryRow (NewMySQL_cb t2026) straddlingLookup.nowBefore straddlingLookup.nowAfter
      .resultFirst straddlingLookup.answer).2.cb.counts.Requests = 0 ∧
    (MySQL.QueryRow (NewMySQL_cb t2026) straddlingLookup.nowBefore straddlingLookup.nowAfter
      .resultFirst straddlingLookup.answer).2.cb.counts.TotalSuccesses = 0 ∧
    (MySQL.QueryRow (NewMySQL_cb t2026) straddlingLookup.nowBefore straddlingLookup.nowAfter
      .resultFirst straddlingLookup.answer).2.cb.counts.ConsecutiveSuccesses = 0 := by
  decide

/-- C21, amended: the function `QueryRow` hands to the breaker returns a nil
error whatever row the database gives (also one that carries an error or no
row). On a closed breaker a `QueryRow` call that is not cancelled is never
counted as a failure, at any clock readings: it leaves the consecutive failures
at 0 and the total of failures no larger. When the call falls inside the
counting window it is counted as a success: requests, total successes and
consecutive successes go up by one, the consecutive failures are reset, and
nothing else of the breaker changes. Every sequential run of such calls, at any
clock readings and whatever the rows hold, returns those rows and leaves the
breaker closed. -/
theorem C21_queryrow_counts_as_success {ρ : Type} (cb : circuitbreaker.CircuitBreaker)
    (calls : List (QueryRowCall ρ)) (call : QueryRowCall ρ)
    (hclosed : cb.cb.state = .StateClosed) :
    (MySQL.QueryRow_work call.answer).2 = none ∧
    ((MySQL.QueryRow cb call.nowBefore call.nowAfter .resultFirst
        call.answer).2.cb.counts.ConsecutiveFailures = 0 ∧
      (MySQL.QueryRow cb call.nowBefore call.nowAfter .resultFirst
        call.answer).2.cb.counts.TotalFailures ≤ cb.cb.counts.TotalFailures) ∧
    ((cb.cb.expiry = gobreaker.zeroTime ∨
        (call.nowBefore ≤ cb.cb.expiry ∧ call.nowAfter ≤ cb.cb.expiry)) →
      (MySQL.QueryRow cb call.nowBefore call.nowAfter .resultFirst call.answer).2.cb =
        { cb.cb with
          counts :=
            { Requests := (cb.cb.counts.Requests + 1) % 4294967296
              TotalSuccesses := (cb.cb.counts.TotalSuccesses + 1) % 4294967296
              TotalFailures := cb.cb.counts.TotalFailures
              ConsecutiveSuccesses := (cb.cb.counts.ConsecutiveSuccesses + 1) % 4294967296
              ConsecutiveFailures := 0 } }) ∧
    (runQueryRows cb calls).1.cb.state = .StateClosed ∧
    (runQueryRows cb calls).2 = calls.map (fun c => c.answer) := by
  refine ⟨rfl, QueryRow_closed_no_failure cb call hclosed, ?_,
    (runQueryRows_closed calls cb hclosed).1, (runQueryRows_closed calls cb hclosed).2⟩
  intro hwin
  have hb := gobreaker.beforeRequest_closed cb.cb call.nowBefore hclosed
    (hwin.imp id (fun h => h.1))
  have ha := gobreaker.afterRequest_closed_success_window
    ({ cb.cb with counts := cb.cb.counts.onRequest } : gobreaker.CircuitBreaker) call.nowAfter
    hclosed (hwin.imp id (fun h => h.2))
  simp only at ha
  simp only [MySQL.QueryRow, MySQL.QueryRow_work,
    circuitbreaker.CircuitBreaker.ExecuteWithBreaker,
    circuitbreaker.gobreakerExecute, hb, circuitbreaker.CircuitBreaker.Execute,
    Option.isNone_none, ha]
  rfl

/-- C21, amended, at a concrete input: a failing lookup 100 ms after the
construction of the breaker of `NewMySQL` is counted as its first success, and
six failing lookups within one second leave the breaker closed. -/
theorem C21_queryrow_counts_as_success_witness :
    (MySQL.QueryRow_work (brokenLookupAt 100).answer).2 = none ∧
    ((MySQL.QueryRow (NewMySQL_cb t2026) (brokenLookupAt 100).nowBefore
        (brokenLookupAt 100).nowAfter .resultFirst
        (brokenLookupAt 100).answer).2.cb.counts.ConsecutiveFailures = 0 ∧
      (MySQL.QueryRow (NewMySQL_cb t2026) (brokenLookupAt 100).nowBefore
        (brokenLookupAt 100).nowAfter .resultFirst
        (brokenLookupAt 100).answer).2.cb.counts.TotalFailures ≤
        (NewMySQL_cb t2026).cb.counts.TotalFailures) ∧
    (MySQL.QueryRow (NewMySQL_cb t2026) (brokenLookupAt 100).nowBefore
        (brokenLookupAt 100).nowAfter .resultFirst (brokenLookupAt 100).answer).2.cb =
      { (NewMySQL_cb t2026).cb with
        counts :=
          { Requests := ((NewMySQL_cb t2026).cb.counts.Requests + 1) % 4294967296
            TotalSuccesses := ((NewMySQL_cb t2026).cb.counts.TotalSuccesses + 1) % 4294967296
            TotalFailures := (NewMySQL_cb t2026).cb.counts.TotalFailures
            ConsecutiveSuccesses :=
              ((NewMySQL_cb t2026).cb.counts.ConsecutiveSuccesses + 1) % 4294967296
            ConsecutiveFailures := 0 } } ∧
    (runQueryRows (NewMySQL_cb t2026) sixFailingLookups).1.cb.state = .StateClosed ∧
    (runQueryRows (NewMySQL_cb t2026) sixFailingLookups).2 =
      sixFailingLookups.map (fun c => c.answer) :=
  ⟨(C21_queryrow_counts_as_success (NewMySQL_cb t2026) sixFailingLookups (brokenLookupAt 100)
      (by decide)).1,
    (C21_queryrow_counts_as_success (NewMySQL_cb t2026) sixFailingLookups (brokenLookupAt 100)
      (by decide)).2.1,
    (C21_queryrow_counts_as_success (NewMySQL_cb t2026) sixFailingLookups (brokenLookupAt 100)
      (by decide)).2.2.1 (Or.inr (by decide)),
    (C21_queryrow_counts_as_success (NewMySQL_cb t2026) sixFailingLookups (brokenLookupAt 100)
      (by decide)).2.2.2.1,
    (C21_queryrow_counts_as_success (NewMySQL_cb t2026) sixFailingLookups (brokenLookupAt 100)
      (by decide)).2.2.2.2⟩

end db

namespace user

/-! ## C22: issued tokens as a function of secret, user and expiry second -/

/-- C22: over any repository, when two calls of `generateTokens` under the same
secret and for the same user id return the pairs `A` and `B`: if the two access
expiries (clock reading plus access duration) fall in the same Unix second the
access-token strings are identical, and if the two refresh expiries fall in the
same Unix second the refresh-token strings are identical; and within the pair
`A` the access-token string equals the refresh-token string exactly when its
two expiry seconds are equal. The claims are taken to be readable from a signed
string, for the direction from equal strings to equal seconds. -/
theorem C22_tokens_deterministic {σ : Type} (s : Service σ) (lib : Lib) (ambA ambB : Ambient)
    (userID : Int) (stA stB : σ) (A B : TokenResponse)
    (hinj : ∀ u e u2 e2 : Int,
      lib.SignedString s.jwtSecret u e = lib.SignedString s.jwtSecret u2 e2 → u = u2 ∧ e = e2)
    (hA : (s.generateTokens lib ambA userID stA).out = .ok A)
    (hB : (s.generateTokens lib ambB userID stB).out = .ok B) :
    (Unix (ambA.nowAccess + accessTokenDuration lib ambA) =
        Unix (ambB.nowAccess + accessTokenDuration lib ambB) →
      A.AccessToken = B.AccessToken) ∧
    (Unix (ambA.nowRefresh + refreshTokenDuration lib ambA) =
        Unix (ambB.nowRefresh + refreshTokenDuration lib ambB) →
      A.RefreshToken = B.RefreshToken) ∧
    (A.AccessToken = A.RefreshToken ↔
      Unix (ambA.nowAccess + accessTokenDuration lib ambA) =
        Unix (ambA.nowRefresh + refreshTokenDuration lib ambA)) := by
  have hA2 := generateTokens_ok s lib ambA userID stA A hA
  have hB2 := generateTokens_ok s lib ambB userID stB B hB
  subst hA2
  subst hB2
  refine ⟨?_, ?_, ?_, ?_⟩
  · intro h
    simp only [issuedPair, h]
  · intro h
    simp only [issuedPair, h]
  · intro h
    exact (hinj _ _ _ _ h).2
  · intro h
    simp only [issuedPair, h]

/-- C22 at a concrete input: two issues for user 1, 200 ms apart within one
second, with both durations set to 24 hours. -/
theorem C22_tokens_deterministic_witness :
    (Unix ((sameDurations 0).nowAccess + accessTokenDuration demoLib (sameDurations 0)) =
        Unix ((sameDurations 200).nowAccess + accessTokenDuration demoLib (sameDurations 200)) →
      (issuedPair demoLib "test-secret" (sameDurations 0) 1).AccessToken =
        (issuedPair demoLib "test-secret" (sameDurations 200) 1).AccessToken) ∧
    (Unix ((sameDurations 0).nowRefresh + refreshTokenDuration demoLib (sameDurations 0)) =
        Unix ((sameDurations 200).nowRefresh + refreshTokenDuration demoLib (sameDurations 200)) →
      (issuedPair demoLib "test-secret" (sameDurations 0) 1).RefreshToken =
        (issuedPair demoLib "test-secret" (sameDurations 200) 1).RefreshToken) ∧
    ((issuedPair demoLib "test-secret" (sameDurations 0) 1).AccessToken =
        (issuedPair demoLib "test-secret" (sameDurations 0) 1).RefreshToken ↔
      Unix ((sameDurations 0).nowAccess + accessTokenDuration demoLib (sameDurations 0)) =
        Unix ((sameDurations 0).nowRefresh + refreshTokenDuration demoLib (sameDurations 0))) :=
  C22_tokens_deterministic demoService demoLib (sameDurations 0) (sameDurations 200) 1
    emptyStore emptyStore _ _ (fun u e u2 e2 h => demoSign_claims "test-secret" u e u2 e2 h)
    rfl rfl

end user

namespace user

/-! ## C24: a sign-up that fails after `CreateUser` leaves the user behind -/

/-- A sign-up with a new email whose call number `k` counted from its own first
call fails, for `k = 2` (the re-read) and `k = 3` (`StoreRefreshToken`): the
outcome is the error and the user row is in the table. -/
theorem SignUp_fails_after_create (lib : Lib) (dbNow : Time) (secret : String) (amb : Ambient)
    (req : SignUpRequest) (st : Store) (n k : Nat) (e : Err) (h : String)
    (hk : k = 2 ∨ k = 3)
    (hnew : ∀ u ∈ st.users, u.Email ≠ req.Email)
    (hhash : lib.GenerateFromPassword req.Password amb.salt = .ok h) :
    ((failingService dbNow secret (n + k) e).SignUp lib amb req (st, n)).out = .error e ∧
    ((failingService dbNow secret (n + k) e).SignUp lib amb req (st, n)).st =
      ({ st with
          users := st.users ++
            [{ ID := st.nextID, Email := req.Email, Password := h, CreatedAt := dbNow }]
          nextID := st.nextID + 1 }, n + k + 1) ∧
    ((failingService dbNow secret (n + k) e).SignUp lib amb req (st, n)).calls.take 3 =
      [ .GetUserByEmail req.Email
      , .CreateUser { ID := 0, Email := req.Email, Password := h, CreatedAt := amb.nowCreated }
      , .GetUserByEmail req.Email ] := by
  have h1 : st.users.find? (fun u => u.Email == req.Email) = none := by
    rw [List.find?_eq_none]
    intro u hu
    simpa using hnew u hu
  have h2 : (st.users ++
      [({ ID := st.nextID, Email := req.Email, Password := h, CreatedAt := dbNow } : User)]).find?
        (fun u => u.Email == req.Email) =
      some { ID := st.nextID, Email := req.Email, Password := h, CreatedAt := dbNow } := by
    rw [List.find?_append, h1]
    simp
  rcases hk with rfl | rfl
  · simp [Service.SignUp, failingService, Repository.failNth, NewService, healthy_CreateUser, healthy_GetUserByEmail, healthy_GetUserByID,
    healthy_StoreRefreshToken, healthy_GetRefreshToken, healthy_DeleteRefreshToken, h1, hhash]
  · simp [Service.SignUp, failingService, Repository.failNth, NewService, healthy_CreateUser, healthy_GetUserByEmail, healthy_GetUserByID,
    healthy_StoreRefreshToken, healthy_GetRefreshToken, healthy_DeleteRefreshToken, h1, h2, hhash,
      Service.generateTokens, Run.after]

end user

namespace user

/-- A sign-up through the failing service whose first call is not the failing
one, with the email of a stored user: `ErrEmailAlreadyExists` after the lookup,
the tables as they were. -/
theorem SignUp_existing_failNth (lib : Lib) (dbNow : Time) (secret : String) (amb : Ambient)
    (req : SignUpRequest) (st : Store) (m k : Nat) (e : Err)
    (hm : m ≠ k)
    (h : ∃ u ∈ st.users, u.Email = req.Email) :
    (failingService dbNow secret k e).SignUp lib amb req (st, m) =
      { out := .error Err.ErrEmailAlreadyExists, st := (st, m + 1)
        calls := [.GetUserByEmail req.Email] } := by
  obtain ⟨u, hu, hemail⟩ := h
  have hsome : (st.users.find? (fun u => u.Email == req.Email)).isSome = true := by
    rw [List.find?_isSome]
    exact ⟨u, hu, by simpa using hemail⟩
  obtain ⟨v, hv⟩ := Option.isSome_iff_exists.mp hsome
  simp [Service.SignUp, failingService, Repository.failNth, NewService, healthy_CreateUser, healthy_GetUserByEmail, healthy_GetUserByID,
    healthy_StoreRefreshToken, healthy_GetRefreshToken, healthy_DeleteRefreshToken, hv, hm]

/-- C24: on the MySQL repository with one failing call, for a sign-up request
whose email no stored user has and whose password hashes to `h`: when the call
that fails with `e` is the re-read after `CreateUser` (`k = 2`) or
`StoreRefreshToken` (`k = 3`), `SignUp` returns `(nil, e)`, the store holds the
created user row and no new refresh-token row, and a retried `SignUp` with the
same email (nothing failing any more) returns `(nil, ErrEmailAlreadyExists)`
after its lookup alone and leaves the tables as they are. -/
theorem C24_signup_not_atomic (lib : Lib) (dbNow : Time) (secret : String) (amb amb2 : Ambient)
    (req req2 : SignUpRequest) (st : Store) (n k : Nat) (e : Err) (h : String)
    (hk : k = 2 ∨ k = 3)
    (hnew : ∀ u ∈ st.users, u.Email ≠ req.Email)
    (hhash : lib.GenerateFromPassword req.Password amb.salt = .ok h)
    (hemail : req2.Email = req.Email) :
    ((failingService dbNow secret (n + k) e).SignUp lib amb req (st, n)).out = .error e ∧
    ((failingService dbNow secret (n + k) e).SignUp lib amb req (st, n)).st.1 =
      { st with
        users := st.users ++
          [{ ID := st.nextID, Email := req.Email, Password := h, CreatedAt := dbNow }]
        nextID := st.nextID + 1 } ∧
    ((failingService dbNow secret (n + k) e).SignUp lib amb2 req2
        ((failingService dbNow secret (n + k) e).SignUp lib amb req (st, n)).st).out =
      .error Err.ErrEmailAlreadyExists ∧
    ((failingService dbNow secret (n + k) e).SignUp lib amb2 req2
        ((failingService dbNow secret (n + k) e).SignUp lib amb req (st, n)).st).calls =
      [.GetUserByEmail req2.Email] ∧
    ((failingService dbNow secret (n + k) e).SignUp lib amb2 req2
        ((failingService dbNow secret (n + k) e).SignUp lib amb req (st, n)).st).st.1 =
      ((failingService dbNow secret (n + k) e).SignUp lib amb req (st, n)).st.1 := by
  obtain ⟨hout, hst, _⟩ :=
    SignUp_fails_after_create lib dbNow secret amb req st n k e h hk hnew hhash
  have hretry := SignUp_existing_failNth lib dbNow secret amb2 req2
    { st with
      users := st.users ++
        [{ ID := st.nextID, Email := req.Email, Password := h, CreatedAt := dbNow }]
      nextID := st.nextID + 1 } (n + k + 1) (n + k) e (by omega)
    ⟨{ ID := st.nextID, Email := req.Email, Password := h, CreatedAt := dbNow },
      by simp, hemail.symm⟩
  rw [hst, hretry]
  exact ⟨hout, rfl, rfl, rfl, rfl⟩

/-- C24 at a concrete input: the sign-up of `a@x.com` on an empty store whose
`StoreRefreshToken` is refused, then the same sign-up again. -/
theorem C24_signup_not_atomic_witness :
    ((failingService t2026 "test-secret" 3 demoStorageError).SignUp demoLib (ambAt t2026 0)
        demoSignUpRequest (emptyStore, 0)).out = .error demoStorageError ∧
    ((failingService t2026 "test-secret" 3 demoStorageError).SignUp demoLib (ambAt t2026 0)
        demoSignUpRequest (emptyStore, 0)).st.1 =
      { users := [{ ID := 1, Email := "a@x.com", Password := "$2a$10$secret1",
                    CreatedAt := t2026 }]
        refresh_tokens := [], nextID := 2 } ∧
    ((failingService t2026 "test-secret" 3 demoStorageError).SignUp demoLib (ambAt t2026 900)
        demoSignUpRequest
        ((failingService t2026 "test-secret" 3 demoStorageError).SignUp demoLib (ambAt t2026 0)
          demoSignUpRequest (emptyStore, 0)).st).out = .error Err.ErrEmailAlreadyExists ∧
    ((failingService t2026 "test-secret" 3 demoStorageError).SignUp demoLib (ambAt t2026 900)
        demoSignUpRequest
        ((failingService t2026 "test-secret" 3 demoStorageError).SignUp demoLib (ambAt t2026 0)
          demoSignUpRequest (emptyStore, 0)).st).calls = [.GetUserByEmail "a@x.com"] ∧
    ((failingService t2026 "test-secret" 3 demoStorageError).SignUp demoLib (ambAt t2026 900)
        demoSignUpRequest
        ((failingService t2026 "test-secret" 3 demoStorageError).SignUp demoLib (ambAt t2026 0)
          demoSignUpRequest (emptyStore, 0)).st).st.1 =
      ((failingService t2026 "test-secret" 3 demoStorageError).SignUp demoLib (ambAt t2026 0)
        demoSignUpRequest (emptyStore, 0)).st.1 :=
  C24_signup_not_atomic demoLib t2026 "test-secret" (ambAt t2026 0) (ambAt t2026 900)
    demoSignUpRequest demoSignUpRequest emptyStore 0 3 demoStorageError "$2a$10$secret1"
    (Or.inr rfl) (fun _ hu => by cases hu) rfl rfl

end user

namespace config

/-! ## C23: `Load` and the secret shorter than five bytes -/

/-- The slice `s[:n]` panics exactly when the string has fewer than `n` bytes. -/
theorem sliceTo_error_iff (s : String) (n : Nat) :
    (∃ p, sliceTo s n = .error p) ↔ s.utf8ByteSize < n := by
  unfold sliceTo
  by_cases h : n ≤ s.utf8ByteSize
  · rw [if_pos h]
    constructor
    · rintro ⟨p, hp⟩
      cases hp
    · intro hlt
      omega
  · rw [if_neg h]
    constructor
    · intro _
      omega
    · intro _
      exact ⟨_, rfl⟩

/-- When the five parses succeed and both required variables are non-empty,
`Load` panics if `JWT_SECRET` has fewer than five bytes and returns the
configuration otherwise. -/
theorem Load_parsed (lib : Lib) (env : Env) (a r c : user.Duration) (o i : Int)
    (ha : lib.ParseDuration (getEnv env "ACCESS_TOKEN_DURATION" ["5m"]) = .ok a)
    (hr : lib.ParseDuration (getEnv env "REFRESH_TOKEN_DURATION" ["24h"]) = .ok r)
    (hc : lib.ParseDuration (getEnv env "DB_CONN_MAX_LIFETIME" ["5m"]) = .ok c)
    (ho : lib.Atoi (getEnv env "DB_MAX_OPEN_CONNS" ["25"]) = .ok o)
    (hi : lib.Atoi (getEnv env "DB_MAX_IDLE_CONNS" ["25"]) = .ok i)
    (hpw : getEnv env "DB_PASSWORD" [] ≠ "")
    (hsec : getEnv env "JWT_SECRET" [] ≠ "") :
    ((getEnv env "JWT_SECRET" []).utf8ByteSize < 5 → ∃ p, Load lib env = .panicked p) ∧
    (5 ≤ (getEnv env "JWT_SECRET" []).utf8ByteSize →
      ∃ cfg, Load lib env = .ok cfg ∧ cfg.JWTSecret = getEnv env "JWT_SECRET" [] ∧
        cfg.DBPassword = getEnv env "DB_PASSWORD" []) := by
  constructor
  · intro hlt
    obtain ⟨p, hp⟩ := (sliceTo_error_iff _ 5).mpr hlt
    refine ⟨p, ?_⟩
    simp only [Load, ha, hr, hc, ho, hi, if_neg hpw, if_neg hsec, hp]
  · intro hge
    have hs : sliceTo (getEnv env "JWT_SECRET" []) 5 =
        .ok ((getEnv env "JWT_SECRET" []).toUTF8.data.toList.take 5) := by
      unfold sliceTo
      rw [if_pos hge]
    refine ⟨{ DBHost := getEnv env "DB_HOST" ["localhost"]
              DBPort := getEnv env "DB_PORT" ["3306"]
              DBUser := getEnv env "DB_USER" ["root"]
              DBPassword := getEnv env "DB_PASSWORD" []
              DBName := getEnv env "DB_NAME" ["brokerapp"]
              JWTSecret := getEnv env "JWT_SECRET" []
              AccessTokenDuration := a
              RefreshTokenDuration := r
              ServerPort := getEnv env "SERVER_PORT" ["8080"]
              MaxOpenConns := o
              MaxIdleConns := i
              ConnMaxLifetime := c }, ?_, rfl, rfl⟩
    simp only [Load, ha, hr, hc, ho, hi, if_neg hpw, if_neg hsec, hs]

/-- The runs of `Load` that panic: exactly those in which the five parses
succeed, `DB_PASSWORD` and `JWT_SECRET` are non-empty and `JWT_SECRET` has fewer
than five bytes. Every other run returns `(config, nil)` or `(nil, error)`. -/
theorem Load_panicked_iff (lib : Lib) (env : Env) :
    (∃ p, Load lib env = .panicked p) ↔
      (∃ a, lib.ParseDuration (getEnv env "ACCESS_TOKEN_DURATION" ["5m"]) = .ok a) ∧
      (∃ r, lib.ParseDuration (getEnv env "REFRESH_TOKEN_DURATION" ["24h"]) = .ok r) ∧
      (∃ c, lib.ParseDuration (getEnv env "DB_CONN_MAX_LIFETIME" ["5m"]) = .ok c) ∧
      (∃ o, lib.Atoi (getEnv env "DB_MAX_OPEN_CONNS" ["25"]) = .ok o) ∧
      (∃ i, lib.Atoi (getEnv env "DB_MAX_IDLE_CONNS" ["25"]) = .ok i) ∧
      getEnv env "DB_PASSWORD" [] ≠ "" ∧ getEnv env "JWT_SECRET" [] ≠ "" ∧
      (getEnv env "JWT_SECRET" []).utf8ByteSize < 5 := by
  constructor
  · rintro ⟨p, hp⟩
    unfold Load at hp
    cases ha : lib.ParseDuration (getEnv env "ACCESS_TOKEN_DURATION" ["5m"]) with
    | error err => simp only [ha] at hp; cases hp
    | ok a =>
    cases hr : lib.ParseDuration (getEnv env "REFRESH_TOKEN_DURATION" ["24h"]) with
    | error err => simp only [ha, hr] at hp; cases hp
    | ok r =>
    cases hc : lib.ParseDuration (getEnv env "DB_CONN_MAX_LIFETIME" ["5m"]) with
    | error err => simp only [ha, hr, hc] at hp; cases hp
    | ok c =>
    cases ho : lib.Atoi (getEnv env "DB_MAX_OPEN_CONNS" ["25"]) with
    | error err => simp only [ha, hr, hc, ho] at hp; cases hp
    | ok o =>
    cases hi : lib.Atoi (getEnv env "DB_MAX_IDLE_CONNS" ["25"]) with
    | error err => simp only [ha, hr, hc, ho, hi] at hp; cases hp
    | ok i =>
    simp only [ha, hr, hc, ho, hi] at hp
    by_cases hpw : getEnv env "DB_PASSWORD" [] = ""
    · rw [if_pos hpw] at hp
      cases hp
    · rw [if_neg hpw] at hp
      by_cases hsec : getEnv env "JWT_SECRET" [] = ""
      · rw [if_pos hsec] at hp
        cases hp
      · rw [if_neg hsec] at hp
        refine ⟨⟨a, rfl⟩, ⟨r, rfl⟩, ⟨c, rfl⟩, ⟨o, rfl⟩, ⟨i, rfl⟩, hpw, hsec, ?_⟩
        cases hs : sliceTo (getEnv env "JWT_SECRET" []) 5 with
        | error q => exact (sliceTo_error_iff _ 5).mp ⟨q, hs⟩
        | ok bs => simp only [hs] at hp; cases hp
  · rintro ⟨⟨a, ha⟩, ⟨r, hr⟩, ⟨c, hc⟩, ⟨o, ho⟩, ⟨i, hi⟩, hpw, hsec, hlt⟩
    exact (Load_parsed lib env a r c o i ha hr hc ho hi hpw hsec).1 hlt

/-- C23, the failing input: with `DB_PASSWORD=x` and `JWT_SECRET=abc` (set,
non-empty, three bytes) and every other variable unset, `Load` passes its two
checks of the required variables and panics in the slice `cfg.JWTSecret[:5]` of
config.go:96; it returns neither `(config, nil)` nor `(nil, error)`. With
`JWT_SECRET=abcde` it returns the configuration, and with `JWT_SECRET` empty the
error of its check. -/
theorem C23_failing_input :
    getEnv (envWith "x" "abc") "JWT_SECRET" [] = "abc" ∧
    Load demoLib (envWith "x" "abc") =
      .panicked "runtime error: slice bounds out of range [:5] with length 3" ∧
    Load demoLib (envWith "x" "abcde") =
      .ok { DBHost := "localhost", DBPort := "3306", DBUser := "root", DBPassword := "x"
            DBName := "brokerapp", JWTSecret := "abcde"
            AccessTokenDuration := 5 * user.Minute, RefreshTokenDuration := 24 * user.Hour
            ServerPort := "8080", MaxOpenConns := 25, MaxIdleConns := 25
            ConnMaxLifetime := 5 * user.Minute } ∧
    Load demoLib (envWith "x" "") = .error "JWT_SECRET is required" := by
  decide

end config
